import Mathlib

/-!
# Ranya voice pipeline: shallow embedding and verified properties

The Go packages `pkg/frames`, `pkg/turn`, `pkg/processors` (context buffer, LLM
processor and TTS processor), `pkg/llm`, the mock LLM provider, `pkg/priority`,
`pkg/resilience`, `pkg/errorsx`, `pkg/pipeline` (session registry) and
`pkg/aggregators` are embedded as pure Lean definitions over explicit state.
Conventions used throughout:

* A Go `map[string]V` is a function `String → Option V`; reading a missing key
  of a `map[string]string` yields `""` (`GoMap.get`).  A nil map is the empty map.
* Mutexes are omitted: every operation is modelled as one atomic step.
* Log output (`slog`) and metric observers are omitted.
* `time.Now()` appears as an explicit `now` argument where a frame is stamped.
* Ghost fields (listener deliveries, emitted frames, handler and adapter call
  logs) record the externally visible effects of an operation.
-/

namespace Ranya

/-! ## Go maps -/

/-- A Go `map[string]V`. -/
abbrev GoMap (V : Type) := String → Option V

/-- The empty (or nil) map. -/
def GoMap.empty {V : Type} : GoMap V := fun _ => none

/-- Assignment `m[k] = v`. -/
def GoMap.set {V : Type} (m : GoMap V) (k : String) (v : V) : GoMap V :=
  fun j => if j = k then some v else m j

/-- Builtin `delete(m, k)`. -/
def GoMap.delete {V : Type} (m : GoMap V) (k : String) : GoMap V :=
  fun j => if j = k then none else m j

/-- Read `m[k]` of a `map[string]string`: the zero value `""` when absent. -/
def GoMap.get (m : GoMap String) (k : String) : String := (m k).getD ""

/-- A Go `map[string]string`, the metadata of a frame. -/
abbrev MetaMap := GoMap String

/-! ## Package `frames` -/

namespace Frames

def MetaStreamID : String := "stream_id"
def MetaCallSID : String := "call_sid"
def MetaTraceID : String := "trace_id"
def MetaAgent : String := "agent"
def MetaHandoffAgent : String := "handoff_agent"
def MetaSource : String := "source"
def MetaReason : String := "reason"
def MetaLanguage : String := "language"
def MetaGlobalLanguage : String := "global_language"
def MetaSystemMessage : String := "system_message"
def MetaGreetingText : String := "greeting_text"
def MetaToolCallID : String := "tool_call_id"
def MetaToolName : String := "tool_name"
def MetaToolArgs : String := "tool_args"
def MetaToolResult : String := "tool_result"
def MetaToolStatus : String := "tool_status"
def MetaToolError : String := "tool_error"
def MetaToolRequiresConfirm : String := "tool_requires_confirm"
def MetaToolConfirmPrompt : String := "tool_confirm_prompt"
def MetaTTSFlush : String := "tts_flush"
def MetaImageURL : String := "image_url"
def MetaImageBase64 : String := "image_base64"
def MetaImageMIME : String := "image_mime"

def ControlCancel : String := "cancel"
def ControlFlush : String := "flush"
def ControlStartInterruption : String := "start_interruption"
def ControlFallback : String := "fallback"
def ControlHandoff : String := "handoff"
def ControlToolCall : String := "tool_call"
def ControlAudioReady : String := "audio_ready"
def ControlDTMF : String := "dtmf"

/-- The five frame kinds. -/
inductive Kind where
  | audio | text | control | system | image
  deriving DecidableEq, Repr

/-- A frame: the Go interface `Frame` with its five implementations. -/
inductive Frame where
  | audio (pts : Int) (data : List Nat) (rate ch : Int) (meta : MetaMap) (pooled : Bool)
  | text (pts : Int) (text : String) (meta : MetaMap)
  | control (pts : Int) (code : String) (meta : MetaMap)
  | system (pts : Int) (name : String) (meta : MetaMap)
  | image (pts : Int) (data : List Nat) (mime url : String) (meta : MetaMap) (pooled : Bool)

def Frame.Kind : Frame → Kind
  | .audio .. => .audio
  | .text .. => .text
  | .control .. => .control
  | .system .. => .system
  | .image .. => .image

def Frame.PTS : Frame → Int
  | .audio pts _ _ _ _ _ => pts
  | .text pts _ _ => pts
  | .control pts _ _ => pts
  | .system pts _ _ => pts
  | .image pts _ _ _ _ _ => pts

/-- The method `Meta()`; it returns a copy, which a value model does not distinguish. -/
def Frame.Meta : Frame → MetaMap
  | .audio _ _ _ _ m _ => m
  | .text _ _ m => m
  | .control _ _ m => m
  | .system _ _ m => m
  | .image _ _ _ _ m _ => m

/-- `mergeMeta`: start from `stream_id = streamID` (when non-empty), then copy every
entry of `meta` over it. -/
def mergeMeta (streamID : String) (meta : MetaMap) : MetaMap :=
  fun k =>
    match meta k with
    | some v => some v
    | none => if k = MetaStreamID ∧ streamID ≠ "" then some streamID else none

def NewTextFrame (streamID : String) (pts : Int) (text : String) (meta : MetaMap) : Frame :=
  .text pts text (mergeMeta streamID meta)

def NewControlFrame (streamID : String) (pts : Int) (code : String) (meta : MetaMap) : Frame :=
  .control pts code (mergeMeta streamID meta)

def NewSystemFrame (streamID : String) (pts : Int) (name : String) (meta : MetaMap) : Frame :=
  .system pts name (mergeMeta streamID meta)

/-- Is the frame a Control frame with the given code? -/
def Frame.isControl (f : Frame) (c : String) : Bool :=
  match f with
  | .control _ code _ => code == c
  | _ => false

/-- Is the frame a System frame with the given name? -/
def Frame.isSystem (f : Frame) (n : String) : Bool :=
  match f with
  | .system _ name _ => name == n
  | _ => false

/-- Is the frame a Text frame whose `source` is `llm`? -/
def Frame.isLLMText (f : Frame) : Bool :=
  match f with
  | .text _ _ m => m.get MetaSource == "llm"
  | _ => false

end Frames

/-! ## Package `turn` -/

namespace Turn

open Frames

/-- The Go type `State` is an `int`; the four named states are `0..3`. -/
abbrev State := Int

def StateIdle : State := (0 : Int)
def StateListening : State := (1 : Int)
def StateThinking : State := (2 : Int)
def StateSpeaking : State := (3 : Int)

/-- A state transition event (the timestamp field is not modelled). -/
structure StateChange where
  FromState : State
  ToState : State
  Reason : String
  deriving DecidableEq, Repr

/-- The error `InvalidTransitionError`. -/
structure InvalidTransitionError where
  From : State
  To : State
  deriving DecidableEq, Repr

/-- The state machine.  `stateChangeListeners` holds the identities of the registered
listeners in registration order; `emitter` says whether the interrupt emitter is
non-nil.  Ghost fields: `delivered` logs every `OnStateChange` call made on a listener,
`emitted` logs every frame handed to the emitter. -/
structure stateMachine where
  currentState : State
  bargeInThreshold : Int
  stateChangeListeners : List Nat
  emitter : Bool
  delivered : List (Nat × StateChange)
  emitted : List Frame

/-- The constructor `newStateMachine`; durations are nanoseconds. -/
def newStateMachine (bargeInThreshold : Int) (emitter : Bool) : stateMachine :=
  { currentState := StateIdle
    bargeInThreshold := if bargeInThreshold ≤ 0 then 500 * 1000000 else bargeInThreshold
    stateChangeListeners := []
    emitter := emitter
    delivered := []
    emitted := [] }

/-- The literal map `validTransitions` inside `transitionValid`. -/
def validTransitions : List (State × List State) :=
  [ (StateIdle, [StateListening]),
    (StateListening, [StateThinking, StateIdle]),
    (StateThinking, [StateSpeaking, StateListening, StateIdle]),
    (StateSpeaking, [StateListening, StateIdle]) ]

/-- The method `transitionValid`: look the source state up, then scan the allowed targets. -/
def transitionValid (src dst : State) : Bool :=
  match validTransitions.lookup src with
  | none => false
  | some allowedStates => allowedStates.any (fun allowed => allowed == dst)

/-- The method `Transition`: an invalid pair is rejected with an error and no effect;
a valid one updates the state and calls `OnStateChange` on a copy of the listener list.
Listeners are passive: `OnStateChange` does not call back into the state machine. -/
def stateMachine.Transition (tm : stateMachine) (state : State) (reason : String) :
    stateMachine × Option InvalidTransitionError :=
  if !transitionValid tm.currentState state then
    (tm, some { From := tm.currentState, To := state })
  else
    let oldState := tm.currentState
    let event : StateChange := { FromState := oldState, ToState := state, Reason := reason }
    let listeners := tm.stateChangeListeners
    ({ tm with
        currentState := state
        delivered := tm.delivered ++ listeners.map (fun listener => (listener, event)) },
      none)

def stateMachine.AddListener (tm : stateMachine) (listener : Nat) : stateMachine :=
  { tm with stateChangeListeners := tm.stateChangeListeners ++ [listener] }

def NewInterruptFrame (streamID : String) (pts : Int) : Frame :=
  NewControlFrame streamID pts ControlStartInterruption GoMap.empty

/-- The state machine method `OnAudioComplete`. -/
def stateMachine.OnAudioComplete (tm : stateMachine) : stateMachine :=
  if tm.currentState = StateSpeaking then
    (tm.Transition StateListening "audio playback complete").1
  else tm

/-- The state machine method `OnSTTInput`. -/
def stateMachine.OnSTTInput (tm : stateMachine) (duration : Int) (now : Int) : stateMachine :=
  if tm.currentState = StateSpeaking then
    if duration > tm.bargeInThreshold then
      let tm1 :=
        if tm.emitter then { tm with emitted := tm.emitted ++ [NewInterruptFrame "" now] }
        else tm
      (tm1.Transition StateListening "barge-in detected").1
    else tm
  else tm

/-- Options of `NewManagerWithOptions`. -/
structure ManagerOptions where
  BargeInThreshold : Int
  MinBargeIn : Int

/-- The turn manager.  `strategy` is `none` for a nil strategy and otherwise the value
of `BargeInEnabled()`; `flushTimer` says whether the barge-in timer is armed (its
asynchronous callback only emits frames and is not part of the sequential model). -/
structure manager where
  sm : stateMachine
  strategy : Option Bool
  minBargeIn : Int
  flushTimer : Bool

def NewManagerWithOptions (strategy : Option Bool) (emitter : Bool) (opts : ManagerOptions) :
    manager :=
  { sm := newStateMachine opts.BargeInThreshold emitter
    strategy := strategy
    minBargeIn := if opts.MinBargeIn ≤ 0 then 300 * 1000000 else opts.MinBargeIn
    flushTimer := false }

def NewManager (strategy : Option Bool) (emitter : Bool) : manager :=
  NewManagerWithOptions strategy emitter { BargeInThreshold := 0, MinBargeIn := 0 }

def manager.State (m : manager) : Turn.State := m.sm.currentState

/-- The method `setState`: the error of `Transition` is discarded. -/
def manager.setState (m : manager) (s : Turn.State) : manager :=
  { m with sm := (m.sm.Transition s "manager state change").1 }

def manager.OnUserSpeechStart (m : manager) : manager :=
  let wasSpeaking := m.sm.currentState == StateSpeaking
  let m1 := m.setState StateListening
  { m1 with flushTimer := wasSpeaking && m1.strategy == some true }

def manager.OnUserSpeechEnd (m : manager) : manager :=
  { m.setState StateThinking with flushTimer := false }

def manager.OnUserQuestion (m : manager) (_text : String) : manager :=
  let m1 :=
    if m.sm.currentState = StateIdle then
      { m with sm := (m.sm.Transition StateListening "user question - entering listening").1 }
    else m
  m1.setState StateThinking

def manager.OnAgentThinkStart (m : manager) : manager :=
  let m1 :=
    if m.sm.currentState = StateIdle then
      { m with sm := (m.sm.Transition StateListening "agent think start - entering listening").1 }
    else m
  m1.setState StateThinking

def manager.OnAgentThinkEnd (m : manager) : manager := m

def manager.OnAgentSpeechStart (m : manager) : manager := m.setState StateSpeaking

def manager.OnAgentSpeechEnd (m : manager) : manager := m.setState StateIdle

def manager.OnAudioComplete (m : manager) : manager :=
  { m with sm := m.sm.OnAudioComplete }

def manager.OnSTTInput (m : manager) (duration : Int) (now : Int) : manager :=
  { m with sm := m.sm.OnSTTInput duration now }

def manager.AddListener (m : manager) (listener : Nat) : manager :=
  { m with sm := m.sm.AddListener listener }

/-- One call on the `Manager` interface. -/
inductive Call where
  | OnUserSpeechStart
  | OnUserSpeechEnd
  | OnUserQuestion (text : String)
  | OnAgentThinkStart
  | OnAgentThinkEnd
  | OnAgentSpeechStart
  | OnAgentSpeechEnd
  | OnAudioComplete
  | OnSTTInput (duration : Int) (now : Int)
  | AddListener (listener : Nat)

/-- Perform one call. -/
def manager.step (m : manager) : Call → manager
  | .OnUserSpeechStart => m.OnUserSpeechStart
  | .OnUserSpeechEnd => m.OnUserSpeechEnd
  | .OnUserQuestion text => m.OnUserQuestion text
  | .OnAgentThinkStart => m.OnAgentThinkStart
  | .OnAgentThinkEnd => m.OnAgentThinkEnd
  | .OnAgentSpeechStart => m.OnAgentSpeechStart
  | .OnAgentSpeechEnd => m.OnAgentSpeechEnd
  | .OnAudioComplete => m.OnAudioComplete
  | .OnSTTInput duration now => m.OnSTTInput duration now
  | .AddListener listener => m.AddListener listener

/-- Perform a finite sequence of calls, left to right. -/
def manager.run (m : manager) (calls : List Call) : manager :=
  calls.foldl manager.step m

/-- The transition graph of the specification. -/
def allowedGraph : List (State × State) :=
  [ (StateIdle, StateListening),
    (StateListening, StateThinking), (StateListening, StateIdle),
    (StateThinking, StateSpeaking), (StateThinking, StateListening), (StateThinking, StateIdle),
    (StateSpeaking, StateListening), (StateSpeaking, StateIdle) ]

/-- Every delivery logged so far is an edge of the allowed graph. -/
def deliveredOk (tm : stateMachine) : Prop :=
  ∀ e ∈ tm.delivered, (e.2.FromState, e.2.ToState) ∈ allowedGraph

end Turn

/-! ## Package `processors`: the speculative context buffer -/

namespace Processors

open Frames

/-- Options of `NewContextBuffer`. -/
structure ContextBufferOptions where
  MaxBufferSize : Int
  StreamID : String

/-- The speculative buffer.  `flushHandler` is `none` for a nil handler; a handler maps
the flushed content to `true` when it returns a nil error.  Ghost field `handlerCalls`
logs the argument of every handler invocation, oldest first. -/
structure ContextBuffer where
  buffer : String
  lastInterim : String
  maxBufferSize : Int
  streamID : String
  flushHandler : Option (String → Bool)
  handlerCalls : List String

def NewContextBuffer (config : ContextBufferOptions) (flushHandler : Option (String → Bool)) :
    ContextBuffer :=
  { buffer := ""
    lastInterim := ""
    maxBufferSize := if config.MaxBufferSize ≤ 0 then 10000 else config.MaxBufferSize
    streamID := config.StreamID
    flushHandler := flushHandler
    handlerCalls := [] }

/-- The method `flushLocked`.  Go `len` of a string is its UTF-8 byte count. -/
def ContextBuffer.flushLocked (cp : ContextBuffer) : ContextBuffer :=
  let useInterim : Bool := cp.buffer == "" && cp.lastInterim != ""
  let content := if useInterim then cp.lastInterim else cp.buffer
  let cp1 := if useInterim then { cp with lastInterim := "" } else cp
  if content.utf8ByteSize = 0 then cp1
  else
    match cp1.flushHandler with
    | some handler =>
      let cp2 := { cp1 with handlerCalls := cp1.handlerCalls ++ [content] }
      if handler content then { cp2 with buffer := "" } else cp2
    | none => { cp1 with buffer := "" }

/-- The method `AddTranscript`. -/
def ContextBuffer.AddTranscript (cp : ContextBuffer) (text : String) (isFinal : Bool) :
    ContextBuffer :=
  if isFinal then
    let cp1 := { cp with buffer := cp.buffer ++ text ++ " ", lastInterim := "" }
    if (cp1.buffer.utf8ByteSize : Int) > cp1.maxBufferSize then cp1.flushLocked else cp1
  else
    { cp with lastInterim := text }

/-- The method `Flush`. -/
def ContextBuffer.Flush (cp : ContextBuffer) : ContextBuffer := cp.flushLocked

/-- The method `OnStateChange` of the `StateListener` interface. -/
def ContextBuffer.OnStateChange (cp : ContextBuffer) (event : Turn.StateChange) :
    ContextBuffer :=
  if event.FromState = Turn.StateListening ∧ event.ToState = Turn.StateThinking then cp.Flush
  else cp

/-- The method `Reset`. -/
def ContextBuffer.Reset (cp : ContextBuffer) : ContextBuffer :=
  { cp with buffer := "", lastInterim := "" }

/-- A sequence of `AddTranscript` calls, each a text with its `isFinal` flag. -/
def ContextBuffer.addAll (cp : ContextBuffer) (adds : List (String × Bool)) : ContextBuffer :=
  adds.foldl (fun c a => c.AddTranscript a.1 a.2) cp

/-- Number of handler invocations made between two snapshots of the buffer. -/
def invocations (before after : ContextBuffer) : Nat :=
  after.handlerCalls.length - before.handlerCalls.length

/-- Bytes that a sequence of calls appends to the buffer: each final text and one space. -/
def totalSize (adds : List (String × Bool)) : Nat :=
  ((adds.filter (fun a => a.2)).map (fun a => a.1.utf8ByteSize + 1)).sum

/-- Was some final text added? -/
def hasFinal (adds : List (String × Bool)) : Bool := adds.any (fun a => a.2)

/-- The interim left pending by a sequence of calls: the text of the last call when that
call is interim, and nothing when the last call is final. -/
def pendingInterim (adds : List (String × Bool)) : String :=
  match adds.getLast? with
  | some (text, false) => text
  | _ => ""

/-- The content a flush would hand over: the buffered final text, or failing that the
last interim (the first lines of `flushLocked`). -/
def ContextBuffer.pendingContent (cp : ContextBuffer) : String :=
  if cp.buffer = "" then cp.lastInterim else cp.buffer

/-- An operation on the buffer in a trace. -/
inductive BufferOp where
  | add (text : String) (isFinal : Bool)
  | flush
  | stateChange (event : Turn.StateChange)

def ContextBuffer.apply (cp : ContextBuffer) : BufferOp → ContextBuffer
  | .add text isFinal => cp.AddTranscript text isFinal
  | .flush => cp.Flush
  | .stateChange event => cp.OnStateChange event

def ContextBuffer.applyAll (cp : ContextBuffer) (ops : List BufferOp) : ContextBuffer :=
  ops.foldl ContextBuffer.apply cp

/-- Following the words of the specification: the texts added to the buffer since the
last flush, that is by the `AddTranscript` calls that come after the most recent flush
request (a `Flush` call or a Listening to Thinking event) of the trace. -/
def addedSinceLastFlush : List BufferOp → List String
  | [] => []
  | op :: rest =>
    let later := addedSinceLastFlush rest
    if rest.any (fun o =>
        match o with
        | .flush => true
        | .stateChange event =>
          event.FromState == Turn.StateListening && event.ToState == Turn.StateThinking
        | .add .. => false) then later
    else
      match op with
      | .add text _ => text :: later
      | _ => later

end Processors

/-! ## Go standard library functions used by the LLM processor -/

/-- Standard-library functions that the embedding does not define: `strings.ToLower`
(Unicode case mapping), `strings.TrimSpace` and `json.Marshal` of a tool call's argument
map.  Every definition below takes them as a parameter, so the theorems hold for
whatever these functions compute. -/
structure Stdlib where
  ToLower : String → String
  TrimSpace : String → String
  jsonMarshal : List (String × String) → String

/-- White space in the sense of Go `unicode.IsSpace`. -/
def isSpace (c : Char) : Bool :=
  c.toNat ∈ [9, 10, 11, 12, 13, 32, 0x85, 0xA0, 0x1680, 0x2028, 0x2029, 0x202F, 0x205F, 0x3000]
    || (0x2000 ≤ c.toNat && c.toNat ≤ 0x200A)

/-- A concrete instance for evaluating examples on ASCII input: ASCII lower-casing,
trimming of Go white space, and a plain rendering of the argument list. -/
def sampleStdlib : Stdlib where
  ToLower := fun s => String.mk (s.data.map Char.toLower)
  TrimSpace := fun s => String.mk ((s.data.dropWhile isSpace).reverse.dropWhile isSpace).reverse
  jsonMarshal := fun args => String.intercalate "," (args.map (fun kv => kv.1 ++ ":" ++ kv.2))

/-- The function `strings.HasPrefix`. -/
def HasPrefix (s pre : String) : Bool := pre.data.isPrefixOf s.data

/-- The function `strings.TrimPrefix`. -/
def TrimPrefix (s pre : String) : String :=
  if HasPrefix s pre then String.mk (s.data.drop pre.data.length) else s

/-! ## Package `llm` -/

namespace LLM

/-- A tool description (the `Schema` field is not modelled). -/
structure Tool where
  Name : String
  Description : String
  RequiresConfirmation : Bool
  ConfirmationPrompt : String
  ConfirmationPromptByLanguage : GoMap String

/-- A tool call; the argument map is a list of keys with their encoded values. -/
structure ToolCall where
  ID : String
  Name : String
  Arguments : List (String × String)
  deriving DecidableEq, Repr

/-- One part of a multimodal user message. -/
inductive ContentPart where
  | text (text : String)
  | imageURL (url : String)
  deriving DecidableEq, Repr

/-- A chat message, the Go `map[string]any` with the keys the processor writes: `role`,
`content`, `content_parts`, `tool_calls` and `tool_call_id`. -/
structure Message where
  role : String
  content : Option String
  contentParts : Option (List ContentPart)
  toolCalls : Option (List ToolCall)
  toolCallID : Option String
  deriving DecidableEq, Repr

/-- The input of an adapter call. -/
structure Context where
  Messages : List Message
  Tools : List Tool

/-- The answer of `Generate` (token counts and finish reason are not modelled). -/
structure Response where
  Text : String
  ToolCalls : List ToolCall
  HandoffAgent : String

/-- An adapter: `Generate` and `Stream` either fail with an error or succeed; a
successful `Stream` is the finite sequence of tokens sent before the channel closes. -/
structure LLMAdapter where
  Generate : Context → Except String Response
  Stream : Context → Except String (List String)

end LLM

/-! ## Package `processors`: the LLM processor -/

namespace Processors

open Frames LLM

structure AgentConfig where
  Name : String
  System : String
  Adapter : Option LLMAdapter

/-- A tool call waiting for the user's confirmation (creation time not modelled). -/
structure pendingToolConfirm where
  call : ToolCall
  meta : MetaMap
  prompt : String

/-- A call made on an adapter (ghost). -/
inductive AdapterCall where
  | generate (input : Context)
  | stream (input : Context)

/-- The LLM processor.  `adapter` is `none` for a nil adapter.  Ghost field
`adapterCalls` logs every `Generate` and `Stream` call, oldest first. -/
structure LLMProcessor where
  adapter : Option LLMAdapter
  system : String
  tools : List Tool
  toolIndex : GoMap Tool
  messagesByScope : GoMap (List Message)
  agents : GoMap AgentConfig
  defaultAgent : String
  activeAgent : GoMap String
  lastInjected : GoMap String
  pendingTools : GoMap ToolCall
  pendingConfirms : GoMap pendingToolConfirm
  lastLanguage : GoMap String
  lastLanguageByCall : GoMap String
  lastCallSID : GoMap String
  maxHistory : Int
  maxTokens : Int
  confirmMode : String
  confirmLLMFallback : Bool
  confirmTimeout : Int
  adapterCalls : List AdapterCall

def defaultLLMScope : String := "default"

/-- The function `indexTools`: a later tool of the same name replaces an earlier one. -/
def indexTools (tools : List Tool) : GoMap Tool :=
  tools.foldl (fun out t => if t.Name = "" then out else out.set t.Name t) GoMap.empty

def NewLLMProcessor (adapter : Option LLMAdapter) (system : String) (tools : List Tool) :
    LLMProcessor :=
  { adapter := adapter
    system := system
    tools := tools
    toolIndex := indexTools tools
    messagesByScope := GoMap.empty
    agents := GoMap.empty
    defaultAgent := ""
    activeAgent := GoMap.empty
    lastInjected := GoMap.empty
    pendingTools := GoMap.empty
    pendingConfirms := GoMap.empty
    lastLanguage := GoMap.empty
    lastLanguageByCall := GoMap.empty
    lastCallSID := GoMap.empty
    maxHistory := 0
    maxTokens := 0
    confirmMode := ""
    confirmLLMFallback := false
    confirmTimeout := 0
    adapterCalls := [] }

def LLMProcessor.SetAgents (p : LLMProcessor) (agents : GoMap AgentConfig)
    (defaultAgent : String) : LLMProcessor :=
  { p with agents := agents, defaultAgent := defaultAgent }

def LLMProcessor.SetTools (p : LLMProcessor) (tools : List Tool) : LLMProcessor :=
  { p with tools := tools, toolIndex := indexTools tools }

def LLMProcessor.SetMemoryLimits (p : LLMProcessor) (maxHistory maxTokens : Int) :
    LLMProcessor :=
  { p with
    maxHistory := if maxHistory < 0 then 0 else maxHistory
    maxTokens := if maxTokens < 0 then 0 else maxTokens }

/-- The function `normalizeConfirmMode`. -/
def normalizeConfirmMode (env : Stdlib) (mode : String) : String :=
  let mode := env.ToLower (env.TrimSpace mode)
  if mode ∈ ["llm", "llm_only", "full_llm"] then "llm"
  else if mode ∈ ["keywords", "keyword", "rule", "rules", "rules_only"] then "keywords"
  else "hybrid"

def LLMProcessor.SetConfirmationOptions (env : Stdlib) (p : LLMProcessor) (mode : String)
    (llmFallback : Bool) (timeout : Int) : LLMProcessor :=
  { p with
    confirmMode := normalizeConfirmMode env mode
    confirmLLMFallback := llmFallback
    confirmTimeout := timeout }

/-- The predicate passed to `strings.FieldsFunc` in `splitTokens`, negated: the runes
that belong to a token. -/
def isTokenRune (r : Char) : Bool :=
  ('a' ≤ r && r ≤ 'z') || ('0' ≤ r && r ≤ '9')

/-- Scan for `splitTokens`; `cur` is the current token, reversed. -/
def splitTokensAux (cur : List Char) : List Char → List String
  | [] => if cur.isEmpty then [] else [String.mk cur.reverse]
  | r :: rest =>
    if isTokenRune r then splitTokensAux (r :: cur) rest
    else (if cur.isEmpty then [] else [String.mk cur.reverse]) ++ splitTokensAux [] rest

/-- The function `splitTokens`: the maximal runs of runes in `a-z`, `0-9`. -/
def splitTokens (text : String) : List String := splitTokensAux [] text.data

def isEnglish (env : Stdlib) (lang : String) : Bool :=
  HasPrefix (env.ToLower (env.TrimSpace lang)) "en"

def defaultConfirmPrompt (env : Stdlib) (lang : String) : String :=
  if isEnglish env lang then "Before I proceed, do you want me to continue?"
  else "Sebelum saya lanjut, apakah boleh saya teruskan?"

def defaultCancelPrompt (env : Stdlib) (lang : String) : String :=
  if isEnglish env lang then "Okay, I won't proceed."
  else "Baik, saya tidak akan melanjutkan."

def toolFailureSystemMessage (env : Stdlib) (lang : String) : String :=
  if isEnglish env lang then
    "The tool failed or timed out. Summarize briefly and suggest the next step."
  else "Tool gagal atau timeout. Berikan ringkasan singkat dan sarankan langkah berikutnya."

def confirmationClassifierPrompt (env : Stdlib) (lang : String) : String :=
  if isEnglish env lang then
    "Classify the user's reply to a confirmation request. Reply with only: yes, no, or other. Consider Indonesian/English, short replies, and DTMF (1=yes, 2=no). If unsure, answer other."
  else
    "Klasifikasikan jawaban user terhadap permintaan konfirmasi. Jawab hanya: yes, no, atau other. Pertimbangkan bahasa Indonesia/Inggris, jawaban singkat, dan DTMF (1=yes, 2=no). Jika ragu, jawab other."

def yesWords : List String :=
  ["ya", "iya", "y", "yes", "yep", "yup", "sure", "ok", "oke", "okay", "okey", "lanjut",
   "setuju", "boleh", "confirm", "siap", "sip", "baik", "benar"]

def noWords : List String :=
  ["tidak", "gak", "nggak", "ngga", "enggak", "ga", "no", "nope", "cancel", "batal", "jangan",
   "stop", "jgn"]

/-- The function `confirmationIntent`, returning `(confirm, cancel)`: the first token
that is `1` or `2` decides; failing that, the first token in the yes or no word set. -/
def confirmationIntent (env : Stdlib) (text : String) : Bool × Bool :=
  let t := env.ToLower (env.TrimSpace text)
  if t = "" then (false, false)
  else
    let t := env.TrimSpace (TrimPrefix t "dtmf input:")
    let tokens := splitTokens t
    match tokens.find? (fun tok => tok == "1" || tok == "2") with
    | some tok => if tok == "1" then (true, false) else (false, true)
    | none =>
      match tokens.find? (fun tok => yesWords.contains tok || noWords.contains tok) with
      | some tok => if yesWords.contains tok then (true, false) else (false, true)
      | none => (false, false)

/-- The function `parseConfirmationDecision`. -/
def parseConfirmationDecision (env : Stdlib) (text : String) : Bool × Bool :=
  let tokens := splitTokens (env.ToLower text)
  match tokens.find? (fun tok =>
      tok ∈ ["yes", "ya", "iya", "y", "benar", "setuju"] ||
      tok ∈ ["no", "tidak", "gak", "nggak", "ga", "cancel", "batal"]) with
  | some tok =>
    if tok ∈ ["yes", "ya", "iya", "y", "benar", "setuju"] then (true, false) else (false, true)
  | none => (false, false)

/-- The method `scopeKey`. -/
def scopeKey (env : Stdlib) (meta : MetaMap) (streamID : String) : String :=
  if env.TrimSpace (meta.get MetaCallSID) ≠ "" then "call:" ++ env.TrimSpace (meta.get MetaCallSID)
  else if env.TrimSpace (meta.get MetaStreamID) ≠ "" then
    "stream:" ++ env.TrimSpace (meta.get MetaStreamID)
  else if streamID ≠ "" then "stream:" ++ streamID
  else defaultLLMScope

def scopeKeyOrDefault (env : Stdlib) (scope : String) : String :=
  if env.TrimSpace scope = "" then defaultLLMScope else env.TrimSpace scope

def systemMessage (text : String) : Message :=
  { role := "system", content := some text, contentParts := none, toolCalls := none,
    toolCallID := none }

def userMessage (text : String) : Message :=
  { role := "user", content := some text, contentParts := none, toolCalls := none,
    toolCallID := none }

def userPartsMessage (parts : List ContentPart) : Message :=
  { role := "user", content := none, contentParts := some parts, toolCalls := none,
    toolCallID := none }

def assistantMessage (text : String) : Message :=
  { role := "assistant", content := some text, contentParts := none, toolCalls := none,
    toolCallID := none }

def assistantToolCallsMessage (callID : String) (call : ToolCall) : Message :=
  { role := "assistant", content := none, contentParts := none,
    toolCalls := some [{ ID := callID, Name := call.Name, Arguments := call.Arguments }],
    toolCallID := none }

def toolMessage (callID result : String) : Message :=
  { role := "tool", content := some result, contentParts := none, toolCalls := none,
    toolCallID := some callID }

/-- The method `ensureMessagesLocked`: the history of the scope, created on first use. -/
def LLMProcessor.ensureMessagesLocked (env : Stdlib) (p : LLMProcessor) (scope : String) :
    List Message × LLMProcessor :=
  let scope := scopeKeyOrDefault env scope
  match p.messagesByScope scope with
  | some msgs => (msgs, p)
  | none =>
    let msgs := if p.system ≠ "" then [systemMessage p.system] else []
    (msgs, { p with messagesByScope := p.messagesByScope.set scope msgs })

/-- The function `nonSystemIndices`. -/
def nonSystemIndices (env : Stdlib) (messages : List Message) : List Nat :=
  (messages.enum.filter (fun im => env.ToLower im.2.role != "system")).map (fun im => im.1)

/-- The function `estimateMessageTokens`. -/
def estimateMessageTokens (msg : Message) : Nat :=
  let parts : List String :=
    (match msg.content with
      | some v => [v]
      | none => []) ++
    (match msg.contentParts with
      | some rawParts => rawParts.filterMap (fun part =>
          match part with
          | .text text => some text
          | .imageURL _ => none)
      | none => [])
  if parts.isEmpty then 0 else (splitTokens (String.intercalate " " parts)).length

/-- The function `estimateMessagesTokens`. -/
def estimateMessagesTokens (messages : List Message) : Nat :=
  (messages.map estimateMessageTokens).sum

/-- The function `pruneByHistory`. -/
def pruneByHistory (env : Stdlib) (messages : List Message) (maxHistory : Int) : List Message :=
  if maxHistory ≤ 0 then messages
  else
    let nonSystem := nonSystemIndices env messages
    if (nonSystem.length : Int) ≤ maxHistory then messages
    else
      let toDrop := nonSystem.length - maxHistory.toNat
      let drop := nonSystem.take toDrop
      (messages.enum.filter (fun im => !drop.contains im.1)).map (fun im => im.2)

/-- The loop of `pruneByTokens`, run for at most `fuel` iterations; `none` when the loop
has not returned by then. -/
def pruneByTokensLoop (env : Stdlib) : Nat → List Message → Int → Option (List Message)
  | 0, _, _ => none
  | fuel + 1, messages, maxTokens =>
    if (estimateMessagesTokens messages : Int) ≤ maxTokens then some messages
    else
      match nonSystemIndices env messages with
      | [] => some messages
      | dropIdx :: _ => pruneByTokensLoop env fuel (messages.eraseIdx dropIdx) maxTokens

/-- The function `pruneByTokens`.  Every iteration drops one message, so one more
iteration than there are messages always suffices (`pruneByTokensLoop_isSome`). -/
def pruneByTokens (env : Stdlib) (messages : List Message) (maxTokens : Int) : List Message :=
  if maxTokens ≤ 0 then messages
  else (pruneByTokensLoop env (messages.length + 1) messages maxTokens).getD messages

/-- The method `pruneMessagesLocked`. -/
def LLMProcessor.pruneMessagesLocked (env : Stdlib) (p : LLMProcessor)
    (messages : List Message) : List Message :=
  if p.maxHistory ≤ 0 ∧ p.maxTokens ≤ 0 then messages
  else if messages.isEmpty then messages
  else
    let messages := if p.maxHistory > 0 then pruneByHistory env messages p.maxHistory else messages
    if p.maxTokens > 0 then pruneByTokens env messages p.maxTokens else messages

/-- Shared tail of the `append*` methods and of the context builders: append, prune,
store under the scope. -/
def LLMProcessor.appendMessages (env : Stdlib) (p : LLMProcessor) (scope : String)
    (extra : List Message) : List Message × LLMProcessor :=
  let r := p.ensureMessagesLocked env scope
  let msgs := r.2.pruneMessagesLocked env (r.1 ++ extra)
  (msgs, { r.2 with messagesByScope := r.2.messagesByScope.set (scopeKeyOrDefault env scope) msgs })

def LLMProcessor.appendAssistant (env : Stdlib) (p : LLMProcessor) (scope text : String) :
    LLMProcessor :=
  if text = "" then p else (p.appendMessages env scope [assistantMessage text]).2

def LLMProcessor.appendSystem (env : Stdlib) (p : LLMProcessor) (scope text : String) :
    LLMProcessor :=
  if text = "" then p else (p.appendMessages env scope [systemMessage text]).2

/-- The method `popLastMessage`. -/
def LLMProcessor.popLastMessage (env : Stdlib) (p : LLMProcessor) (scope : String) :
    LLMProcessor :=
  let r := p.ensureMessagesLocked env scope
  if r.1.isEmpty then r.2
  else { r.2 with
    messagesByScope := r.2.messagesByScope.set (scopeKeyOrDefault env scope) r.1.dropLast }

/-- The method `ensureAgentLocked`. -/
def LLMProcessor.ensureAgentLocked (env : Stdlib) (p : LLMProcessor) (agent scope : String) :
    LLMProcessor :=
  if agent = "" then p
  else
    let scope := scopeKeyOrDefault env scope
    if p.lastInjected.get scope = agent then p
    else
      let p1 := (p.ensureMessagesLocked env scope).2
      match p1.agents agent with
      | none => p1
      | some cfg =>
        if cfg.System = "" then p1
        else
          { p1 with
            messagesByScope := p1.messagesByScope.set scope
              (((p1.messagesByScope scope).getD []) ++ [systemMessage cfg.System])
            lastInjected := p1.lastInjected.set scope agent }

/-- The method `contextWithUserWithAgent`. -/
def LLMProcessor.contextWithUserWithAgent (env : Stdlib) (p : LLMProcessor)
    (text agent scope : String) : Context × LLMProcessor :=
  let p1 := p.ensureAgentLocked env agent scope
  let r := p1.appendMessages env scope [userMessage text]
  ({ Messages := r.1, Tools := r.2.tools }, r.2)

/-- The method `contextWithUserParts`. -/
def LLMProcessor.contextWithUserParts (env : Stdlib) (p : LLMProcessor)
    (text imageURL imageBase64 imageMIME agent scope : String) : Context × LLMProcessor :=
  if imageURL = "" ∧ imageBase64 = "" then p.contextWithUserWithAgent env text agent scope
  else
    let p1 := p.ensureAgentLocked env agent scope
    let textParts : List ContentPart := if text ≠ "" then [.text text] else []
    let imageParts : List ContentPart :=
      if imageURL ≠ "" then [.imageURL imageURL]
      else if imageBase64 ≠ "" then
        [.imageURL ("data:" ++ (if imageMIME = "" then "image/png" else imageMIME) ++ ";base64," ++
          imageBase64)]
      else []
    let r := p1.appendMessages env scope [userPartsMessage (textParts ++ imageParts)]
    ({ Messages := r.1, Tools := r.2.tools }, r.2)

/-- The method `contextSnapshot`. -/
def LLMProcessor.contextSnapshot (env : Stdlib) (p : LLMProcessor) (scope : String) :
    Context × LLMProcessor :=
  let r := p.ensureMessagesLocked env scope
  ({ Messages := r.1, Tools := r.2.tools }, r.2)

/-- The method `resolveAgent`. -/
def LLMProcessor.resolveAgent (p : LLMProcessor) (meta : MetaMap) (streamID : String) :
    String × LLMProcessor :=
  let agent := meta.get MetaAgent
  let agent := if agent = "" then p.activeAgent.get streamID else agent
  let agent := if agent = "" then p.defaultAgent else agent
  if agent = "" then (agent, p)
  else if p.activeAgent.get streamID ≠ agent then
    (agent, { p with activeAgent := p.activeAgent.set streamID agent })
  else (agent, p)

/-- The method `adapterFor`. -/
def LLMProcessor.adapterFor (p : LLMProcessor) (agent : String) : Option LLMAdapter :=
  match p.agents agent with
  | some cfg =>
    match cfg.Adapter with
    | some a => some a
    | none => p.adapter
  | none => p.adapter

/-- The method `setLanguageFromMeta`. -/
def LLMProcessor.setLanguageFromMeta (p : LLMProcessor) (meta : MetaMap) : LLMProcessor :=
  let streamID := meta.get MetaStreamID
  if streamID = "" then p
  else
    let lang := if meta.get MetaLanguage = "" then meta.get MetaGlobalLanguage
      else meta.get MetaLanguage
    if lang = "" then p
    else
      { p with
        lastLanguage := p.lastLanguage.set streamID lang
        lastLanguageByCall :=
          if meta.get MetaCallSID ≠ "" then p.lastLanguageByCall.set (meta.get MetaCallSID) lang
          else p.lastLanguageByCall }

/-- The method `setCallSIDFromMeta`. -/
def LLMProcessor.setCallSIDFromMeta (p : LLMProcessor) (meta : MetaMap) : LLMProcessor :=
  if meta.get MetaStreamID = "" ∨ meta.get MetaCallSID = "" then p
  else { p with lastCallSID := p.lastCallSID.set (meta.get MetaStreamID) (meta.get MetaCallSID) }

/-- The method `applyLanguageMeta`; it returns the updated metadata map. -/
def LLMProcessor.applyLanguageMeta (p : LLMProcessor) (meta : MetaMap) (streamID : String) :
    MetaMap :=
  if streamID = "" then meta
  else if meta.get MetaLanguage ≠ "" then meta
  else if p.lastLanguage.get streamID ≠ "" then meta.set MetaLanguage (p.lastLanguage.get streamID)
  else if meta.get MetaCallSID ≠ "" ∧ p.lastLanguageByCall.get (meta.get MetaCallSID) ≠ "" then
    meta.set MetaLanguage (p.lastLanguageByCall.get (meta.get MetaCallSID))
  else meta

/-- The method `clearCall`. -/
def LLMProcessor.clearCall (p : LLMProcessor) (meta : MetaMap) : LLMProcessor :=
  let streamID := meta.get MetaStreamID
  let callSID := meta.get MetaCallSID
  let msgs1 := if streamID ≠ "" then p.messagesByScope.delete ("stream:" ++ streamID)
    else p.messagesByScope
  let inj1 := if streamID ≠ "" then p.lastInjected.delete ("stream:" ++ streamID)
    else p.lastInjected
  { p with
    activeAgent := p.activeAgent.delete streamID
    lastLanguage := p.lastLanguage.delete streamID
    pendingConfirms := p.pendingConfirms.delete streamID
    lastCallSID := p.lastCallSID.delete streamID
    messagesByScope := if callSID ≠ "" then msgs1.delete ("call:" ++ callSID) else msgs1
    lastInjected := if callSID ≠ "" then inj1.delete ("call:" ++ callSID) else inj1
    lastLanguageByCall :=
      if callSID ≠ "" then p.lastLanguageByCall.delete callSID else p.lastLanguageByCall }

/-- The function `languageFromMeta`. -/
def languageFromMeta (env : Stdlib) (meta : MetaMap) : String :=
  let lang := env.ToLower (env.TrimSpace (meta.get MetaLanguage))
  if lang = "" then env.ToLower (env.TrimSpace (meta.get MetaGlobalLanguage)) else lang

/-- The function `confirmPromptFromTool`. -/
def confirmPromptFromTool (env : Stdlib) (tool : Tool) (lang : String) : String :=
  if tool.ConfirmationPromptByLanguage.get lang ≠ "" then
    tool.ConfirmationPromptByLanguage.get lang
  else if tool.ConfirmationPrompt ≠ "" then tool.ConfirmationPrompt
  else defaultConfirmPrompt env lang

/-- The method `toolForName`. -/
def LLMProcessor.toolForName (p : LLMProcessor) (name : String) : Option Tool :=
  p.toolIndex name

/-- The method `storePendingConfirm`. -/
def LLMProcessor.storePendingConfirm (env : Stdlib) (p : LLMProcessor) (streamID : String)
    (call : ToolCall) (meta : MetaMap) (tool : Tool) : LLMProcessor :=
  if streamID = "" then p
  else
    { p with
      pendingConfirms := p.pendingConfirms.set streamID
        { call := call
          meta := meta
          prompt := confirmPromptFromTool env tool (languageFromMeta env meta) } }

/-- Copy `call_sid` and `trace_id` from `meta` when they are non-empty. -/
def copyCallAndTrace (meta outMeta : MetaMap) : MetaMap :=
  let m1 := if meta.get MetaCallSID ≠ "" then outMeta.set MetaCallSID (meta.get MetaCallSID)
    else outMeta
  if meta.get MetaTraceID ≠ "" then m1.set MetaTraceID (meta.get MetaTraceID) else m1

/-- The method `confirmPromptFrame`. -/
def LLMProcessor.confirmPromptFrame (env : Stdlib) (p : LLMProcessor) (streamID : String)
    (meta : MetaMap) (tool : Tool) (now : Int) : Frame :=
  let prompt := confirmPromptFromTool env tool (languageFromMeta env meta)
  let outMeta := (GoMap.empty.set MetaStreamID streamID).set MetaGreetingText prompt
  let outMeta := copyCallAndTrace meta outMeta
  let outMeta := if meta.get MetaAgent ≠ "" then outMeta.set MetaAgent (meta.get MetaAgent)
    else outMeta
  NewSystemFrame streamID now "tool_confirm_prompt" (p.applyLanguageMeta outMeta streamID)

/-- The metadata of the `ToolCall` control frame built by `emitToolCalls` for one call. -/
def LLMProcessor.toolCallMeta (env : Stdlib) (p : LLMProcessor) (streamID : String)
    (call : ToolCall) (meta : MetaMap) : MetaMap :=
  let outMeta := (((GoMap.empty.set MetaStreamID streamID).set MetaToolCallID call.ID).set
    MetaToolName call.Name).set MetaToolArgs (env.jsonMarshal call.Arguments)
  let outMeta :=
    match p.toolIndex call.Name with
    | some tool =>
      if tool.RequiresConfirmation then
        let m := outMeta.set MetaToolRequiresConfirm "true"
        let prompt := confirmPromptFromTool env tool (languageFromMeta env meta)
        if prompt ≠ "" then m.set MetaToolConfirmPrompt prompt else m
      else outMeta
    | none => outMeta
  let outMeta := copyCallAndTrace meta outMeta
  let outMeta := if meta.get MetaLanguage ≠ "" then outMeta.set MetaLanguage (meta.get MetaLanguage)
    else outMeta
  if meta.get MetaAgent ≠ "" then outMeta.set MetaAgent (meta.get MetaAgent) else outMeta

/-- The method `emitToolCalls`: every call becomes pending and yields one `ToolCall`
control frame. -/
def LLMProcessor.emitToolCalls (env : Stdlib) (p : LLMProcessor) (streamID : String)
    (calls : List ToolCall) (meta : MetaMap) (now : Int) : List Frame × LLMProcessor :=
  calls.foldl
    (fun acc call =>
      (acc.1 ++ [NewControlFrame streamID now ControlToolCall
          (acc.2.toolCallMeta env streamID call meta)],
        { acc.2 with pendingTools := acc.2.pendingTools.set call.ID call }))
    ([], p)

/-- Does the tool registered under the call's name require confirmation? -/
def LLMProcessor.requiresConfirmation (p : LLMProcessor) (call : ToolCall) : Bool :=
  match p.toolForName call.Name with
  | some t => t.RequiresConfirmation
  | none => false

/-- The method `handleToolCallsWithConfirmation`: the first call whose tool requires
confirmation is parked and a prompt frame is returned; if there is none, all calls are
emitted between `thinking_start` and `thinking_end`. -/
def LLMProcessor.handleToolCallsWithConfirmation (env : Stdlib) (p : LLMProcessor)
    (streamID : String) (calls : List ToolCall) (meta : MetaMap) (now : Int) :
    List Frame × LLMProcessor :=
  match calls.find? p.requiresConfirmation with
  | some call =>
    match p.toolForName call.Name with
    | some t =>
      let p1 := p.storePendingConfirm env streamID call meta t
      ([p1.confirmPromptFrame env streamID meta t now], p1)
    | none => ([], p)
  | none =>
    let r := p.emitToolCalls env streamID calls meta now
    ([NewSystemFrame streamID now "thinking_start" meta] ++ r.1 ++
      [NewSystemFrame streamID now "thinking_end" meta], r.2)

/-- The method `classifyConfirmationLLM`, returning `(confirm, cancel)`. -/
def LLMProcessor.classifyConfirmationLLM (env : Stdlib) (p : LLMProcessor) (text : String)
    (meta : MetaMap) (enabled : Bool) : (Bool × Bool) × LLMProcessor :=
  match p.adapter with
  | none => ((false, false), p)
  | some adapter =>
    if !enabled then ((false, false), p)
    else
      let input : Context :=
        { Messages := [systemMessage (confirmationClassifierPrompt env (languageFromMeta env meta)),
            userMessage text]
          Tools := [] }
      let p1 := { p with adapterCalls := p.adapterCalls ++ [AdapterCall.generate input] }
      match adapter.Generate input with
      | .error _ => ((false, false), p1)
      | .ok resp => (parseConfirmationDecision env resp.Text, p1)

/-- The accept branch of `handlePendingConfirmation`. -/
def LLMProcessor.confirmAccepted (env : Stdlib) (p : LLMProcessor) (streamID : String)
    (pending : pendingToolConfirm) (now : Int) : List Frame × LLMProcessor :=
  let p1 := { p with pendingConfirms := p.pendingConfirms.delete streamID }
  let meta := p1.applyLanguageMeta (pending.meta.set MetaStreamID streamID) streamID
  let r := p1.emitToolCalls env streamID [pending.call] meta now
  ([NewSystemFrame streamID now "thinking_start" meta] ++ r.1 ++
    [NewSystemFrame streamID now "thinking_end" meta], r.2)

/-- The reject branch of `handlePendingConfirmation`. -/
def LLMProcessor.confirmCancelled (env : Stdlib) (p : LLMProcessor) (streamID : String)
    (pending : pendingToolConfirm) (now : Int) : List Frame × LLMProcessor :=
  let p1 := { p with pendingConfirms := p.pendingConfirms.delete streamID }
  let cancelMeta := (GoMap.empty.set MetaStreamID streamID).set MetaGreetingText
    (defaultCancelPrompt env (languageFromMeta env pending.meta))
  let cancelMeta := copyCallAndTrace pending.meta cancelMeta
  ([NewSystemFrame streamID now "tool_confirm_cancelled"
      (p1.applyLanguageMeta cancelMeta streamID)], p1)

/-- The last branch of `handlePendingConfirmation`: repeat the prompt. -/
def LLMProcessor.confirmRepeat (env : Stdlib) (p : LLMProcessor) (streamID : String)
    (pending : pendingToolConfirm) (now : Int) : List Frame × LLMProcessor :=
  let repeatPrompt :=
    if pending.prompt = "" then defaultConfirmPrompt env (languageFromMeta env pending.meta)
    else pending.prompt
  let repeatMeta := (GoMap.empty.set MetaStreamID streamID).set MetaGreetingText repeatPrompt
  let repeatMeta := copyCallAndTrace pending.meta repeatMeta
  ([NewSystemFrame streamID now "tool_confirm_repeat" (p.applyLanguageMeta repeatMeta streamID)],
    p)

/-- The method `handlePendingConfirmation`; `none` when no confirmation is pending for
the stream (the Go result `nil, false`). -/
def LLMProcessor.handlePendingConfirmation (env : Stdlib) (p : LLMProcessor)
    (streamID : String) (text : String) (now : Int) : Option (List Frame × LLMProcessor) :=
  match p.pendingConfirms streamID with
  | none => none
  | some pending =>
    let mode := normalizeConfirmMode env p.confirmMode
    let useKeywords : Bool := mode == "hybrid" || mode == "keywords"
    let useLLM : Bool := mode == "hybrid" || mode == "llm"
    let llmEnabled : Bool := useLLM && (mode == "llm" || p.confirmLLMFallback)
    let kw : Bool × Bool := if useKeywords then confirmationIntent env text else (false, false)
    if kw.1 then some (p.confirmAccepted env streamID pending now)
    else if kw.2 then some (p.confirmCancelled env streamID pending now)
    else
      let r := p.classifyConfirmationLLM env text pending.meta llmEnabled
      if r.1.1 then some (r.2.confirmAccepted env streamID pending now)
      else if r.1.2 then some (r.2.confirmCancelled env streamID pending now)
      else some (r.2.confirmRepeat env streamID pending now)

/-- The closure `emitChunk` of `streamToFrames`. -/
def LLMProcessor.emitChunk (p : LLMProcessor) (srcMeta : MetaMap) (streamID : String)
    (now : Int) (text : String) (flush : Bool) : Frame :=
  let meta := p.applyLanguageMeta (srcMeta.set MetaSource "llm") streamID
  let meta := if flush then meta.set MetaTTSFlush "true" else meta
  NewTextFrame streamID now text meta

/-- The token loop of `streamToFrames`: `chunk` is the text gathered since the last
emitted frame; returns the frames emitted and the chunk left over. -/
def LLMProcessor.streamLoop (p : LLMProcessor) (srcMeta : MetaMap) (streamID : String)
    (now : Int) : List String → String → List Frame × String
  | [], chunk => ([], chunk)
  | tok :: rest, chunk =>
    let chunk := chunk ++ tok
    if chunk.utf8ByteSize ≥ 120 then
      let r := p.streamLoop srcMeta streamID now rest ""
      (p.emitChunk srcMeta streamID now chunk false :: r.1, r.2)
    else p.streamLoop srcMeta streamID now rest chunk

/-- The method `streamToFrames` on the tokens delivered by the channel. -/
def LLMProcessor.streamToFrames (env : Stdlib) (p : LLMProcessor) (srcMeta : MetaMap)
    (tokens : List String) (now : Int) : List Frame × LLMProcessor :=
  let streamID := srcMeta.get MetaStreamID
  let scope := scopeKey env srcMeta streamID
  let r := p.streamLoop srcMeta streamID now tokens ""
  let last :=
    if r.2.utf8ByteSize > 0 then p.emitChunk srcMeta streamID now r.2 true
    else p.emitChunk srcMeta streamID now "" true
  (r.1 ++ [last], p.appendAssistant env scope (String.join tokens))

/-- The opening of `applyToolResult`: the language of the frame is remembered and, for a
status other than `ok`, the tool-failure system message is appended to the history. -/
def LLMProcessor.noteToolStatus (env : Stdlib) (p : LLMProcessor) (meta : MetaMap) :
    LLMProcessor :=
  let scope := scopeKey env meta (meta.get MetaStreamID)
  let p := p.setLanguageFromMeta meta
  let status := env.ToLower (meta.get MetaToolStatus)
  if status ≠ "" ∧ status ≠ "ok" then
    p.appendSystem env scope (toolFailureSystemMessage env (languageFromMeta env meta))
  else p

/-- The middle of `applyToolResult`, for a frame with a call id and a result: the call is
looked up and, if pending, removed; the assistant tool-calls message and the tool message
are appended to the history (a call that is not pending contributes an empty name and no
arguments); the agent is resolved.  Returns the agent and the processor. -/
def LLMProcessor.toolResultTurn (env : Stdlib) (p : LLMProcessor) (meta : MetaMap) :
    String × LLMProcessor :=
  let streamID := meta.get MetaStreamID
  let scope := scopeKey env meta streamID
  let callID := meta.get MetaToolCallID
  let result := meta.get MetaToolResult
  let call : ToolCall := (p.pendingTools callID).getD { ID := "", Name := "", Arguments := [] }
  let p := if (p.pendingTools callID).isSome then
      { p with pendingTools := p.pendingTools.delete callID }
    else p
  let p := (p.appendMessages env scope
    [assistantToolCallsMessage callID call, toolMessage callID result]).2
  p.resolveAgent meta streamID

/-- The method `applyToolResult`; `none` when the selected adapter is nil (the call
panics). -/
def LLMProcessor.applyToolResult (env : Stdlib) (p : LLMProcessor) (pts : Int)
    (meta : MetaMap) (now : Int) : Option (List Frame × LLMProcessor) :=
  let streamID := meta.get MetaStreamID
  let scope := scopeKey env meta streamID
  let p := p.noteToolStatus env meta
  if meta.get MetaToolCallID = "" ∨ meta.get MetaToolResult = "" then some ([], p)
  else
    let tr := p.toolResultTurn env meta
    match tr.2.adapterFor tr.1 with
    | none => none
    | some adapter =>
      let rc := tr.2.contextSnapshot env scope
      let p := { rc.2 with adapterCalls := rc.2.adapterCalls ++ [AdapterCall.stream rc.1] }
      match adapter.Stream rc.1 with
      | .error _ => some ([NewControlFrame streamID now ControlFallback meta], p)
      | .ok tokens =>
        some (p.streamToFrames env (NewTextFrame streamID pts "" meta).Meta tokens now)

/-- The result of `Process`: the returned frames, the returned error and the processor
afterwards. -/
structure ProcessResult where
  out : List Frame
  err : Option String
  p : LLMProcessor

/-- The `Text` branch of `Process` up to the `Generate` call, for a frame that is not
consumed by a pending confirmation: the resolved agent, the context built for the user
turn, and the processor afterwards. -/
def LLMProcessor.userTurn (env : Stdlib) (p : LLMProcessor) (text : String) (meta : MetaMap) :
    String × Context × LLMProcessor :=
  let streamID := meta.get MetaStreamID
  let p := (p.setLanguageFromMeta meta).setCallSIDFromMeta meta
  let scope := scopeKey env meta streamID
  let ra := p.resolveAgent meta streamID
  let rc := ra.2.contextWithUserParts env text (meta.get MetaImageURL)
    (meta.get MetaImageBase64) (meta.get MetaImageMIME) ra.1 scope
  (ra.1, rc.1, rc.2)

/-- The `Text` branch of `Process`. -/
def LLMProcessor.processText (env : Stdlib) (p : LLMProcessor) (text : String)
    (meta : MetaMap) (now : Int) : Option ProcessResult :=
  let streamID := meta.get MetaStreamID
  let scope := scopeKey env meta streamID
  match ((p.setLanguageFromMeta meta).setCallSIDFromMeta meta).handlePendingConfirmation env
      streamID text now with
  | some r => some { out := r.1, err := none, p := r.2 }
  | none =>
    let ut := p.userTurn env text meta
    let agent := ut.1
    let ctx := ut.2.1
    let p := ut.2.2
    let out := [NewControlFrame streamID now ControlStartInterruption meta]
    match p.adapterFor agent with
    | none => none
    | some adapter =>
      let p := { p with adapterCalls := p.adapterCalls ++ [AdapterCall.generate ctx] }
      match adapter.Generate ctx with
      | .error _ =>
        some { out := out ++ [NewControlFrame streamID now ControlFallback meta], err := none,
               p := p.popLastMessage env scope }
      | .ok resp =>
        let out :=
          if resp.HandoffAgent ≠ "" then
            out ++ [NewControlFrame streamID now ControlHandoff
              (((GoMap.empty.set MetaStreamID streamID).set MetaHandoffAgent
                resp.HandoffAgent).set MetaAgent agent)]
          else out
        if resp.ToolCalls.length > 0 then
          let r := p.handleToolCallsWithConfirmation env streamID resp.ToolCalls meta now
          some { out := out ++ r.1, err := none, p := r.2 }
        else
          let p := { p with adapterCalls := p.adapterCalls ++ [AdapterCall.stream ctx] }
          match adapter.Stream ctx with
          | .error _ =>
            some { out := out ++ [NewControlFrame streamID now ControlFallback meta],
                   err := none, p := p }
          | .ok tokens =>
            let r := p.streamToFrames env meta tokens now
            some { out := out ++ r.1, err := none, p := r.2 }

/-- The `System` branch of `Process`. -/
def LLMProcessor.processSystem (env : Stdlib) (p : LLMProcessor) (f : Frame) (pts : Int)
    (name : String) (meta : MetaMap) (now : Int) : Option ProcessResult :=
  let scope := scopeKey env meta (meta.get MetaStreamID)
  let p := if meta.get MetaSystemMessage ≠ "" then
      p.appendSystem env scope (meta.get MetaSystemMessage)
    else p
  let p := p.setLanguageFromMeta meta
  let p := if name = "call_end" then p.clearCall meta else p
  if name = "tool_result" then
    match p.applyToolResult env pts meta now with
    | none => none
    | some r => some { out := r.1 ++ [f], err := none, p := r.2 }
  else if meta.get MetaGreetingText ≠ "" then
    let streamID := meta.get MetaStreamID
    let meta1 := p.applyLanguageMeta (meta.set MetaSource "llm") streamID
    some { out := [NewTextFrame streamID pts (meta.get MetaGreetingText) meta1], err := none,
           p := p.appendAssistant env scope (meta.get MetaGreetingText) }
  else some { out := [f], err := none, p := p }

/-- The method `Process`; `now` is the clock reading used for every frame created during
the call, and the result is `none` when the call panics on a nil adapter. -/
def LLMProcessor.Process (env : Stdlib) (p : LLMProcessor) (f : Frame) (now : Int) :
    Option ProcessResult :=
  match f with
  | .system pts name meta => p.processSystem env f pts name meta now
  | .text _ text meta => p.processText env text meta now
  | _ => some { out := [f], err := none, p := p }

/-- The fields that bookkeeping of history, language and agents never touches. -/
def LLMProcessor.sameControl (p q : LLMProcessor) : Prop :=
  q.adapter = p.adapter ∧ q.agents = p.agents ∧ q.tools = p.tools ∧ q.toolIndex = p.toolIndex ∧
    q.pendingConfirms = p.pendingConfirms ∧ q.pendingTools = p.pendingTools ∧
    q.adapterCalls = p.adapterCalls ∧ q.confirmMode = p.confirmMode ∧
    q.confirmLLMFallback = p.confirmLLMFallback ∧ q.system = p.system ∧
    q.maxHistory = p.maxHistory ∧ q.maxTokens = p.maxTokens

/-- A literal map. -/
def GoMap.ofList {V : Type} (kvs : List (String × V)) : GoMap V := fun k => kvs.lookup k

/-! ### The mock adapter of `pkg/providers/mock` -/

structure MockLLMConfig where
  ResponseText : String
  ToolCalls : List ToolCall
  HandoffAgent : String
  StreamChunks : List String

/-- The constructor `NewLLMAdapter` of the mock provider with its `Generate` and
`Stream` methods. -/
def NewMockLLMAdapter (cfg : MockLLMConfig) : LLMAdapter :=
  let responseText := if cfg.ResponseText = "" then "mock response" else cfg.ResponseText
  { Generate := fun _ =>
      .ok { Text := responseText, ToolCalls := cfg.ToolCalls, HandoffAgent := cfg.HandoffAgent }
    Stream := fun _ =>
      .ok (if cfg.StreamChunks.length > 0 then cfg.StreamChunks else [responseText]) }

/-! ### The scenario of `TestLLMToolConfirmationPrompt` -/

def exampleCall : ToolCall :=
  { ID := "tool-1", Name := "schedule_visit", Arguments := [("location", "Jakarta")] }

def exampleAdapter : LLMAdapter :=
  NewMockLLMAdapter
    { ResponseText := "", ToolCalls := [exampleCall], HandoffAgent := "", StreamChunks := [] }

def exampleTool : Tool :=
  { Name := "schedule_visit", Description := "", RequiresConfirmation := true,
    ConfirmationPrompt := "Confirm schedule?", ConfirmationPromptByLanguage := GoMap.empty }

def exampleTools : List Tool := [exampleTool]

def exampleProcessor : LLMProcessor := NewLLMProcessor (some exampleAdapter) "" exampleTools

def exampleMeta : MetaMap :=
  GoMap.ofList [("stream_id", "stream-1"), ("source", "stt"), ("language", "en")]

/-- The confirmation that `storePendingConfirm` records for `exampleCall`. -/
def examplePending : pendingToolConfirm :=
  { call := exampleCall
    meta := exampleMeta
    prompt := confirmPromptFromTool sampleStdlib exampleTool
      (languageFromMeta sampleStdlib exampleMeta) }

/-- The example processor with `exampleCall` waiting for confirmation on the stream. -/
def pendingProcessor : LLMProcessor :=
  exampleProcessor.storePendingConfirm sampleStdlib "stream-1" exampleCall exampleMeta
    exampleTool

/-- A `tool_result` frame for a call id that was never emitted. -/
def unknownResultMeta : MetaMap :=
  GoMap.ofList [("stream_id", "stream-1"), ("tool_call_id", "unknown-1"), ("tool_result", "42")]

/-- A `tool_result` frame for `exampleCall`. -/
def knownResultMeta : MetaMap :=
  GoMap.ofList [("stream_id", "stream-1"), ("tool_call_id", "tool-1"), ("tool_result", "42")]

/-- A frame's kind with its name (System) or code (Control), for reading off results. -/
def describe : Frame → String
  | .audio .. => "audio"
  | .text .. => "text"
  | .control _ code _ => "control:" ++ code
  | .system _ name _ => "system:" ++ name
  | .image .. => "image"

def AdapterCall.isGenerate : AdapterCall → Bool
  | .generate _ => true
  | .stream _ => false

/-- An adapter that proposes `exampleCall` when it is given tools and answers `no` to a
request without tools (the confirmation classifier's request). -/
def refusingAdapter : LLMAdapter :=
  { Generate := fun input =>
      if input.Tools.isEmpty then .ok { Text := "no", ToolCalls := [], HandoffAgent := "" }
      else .ok { Text := "", ToolCalls := [exampleCall], HandoffAgent := "" }
    Stream := fun _ => .ok ["done"] }

/-- A processor in confirmation mode `llm`. -/
def llmModeProcessor : LLMProcessor :=
  (NewLLMProcessor (some refusingAdapter) "" exampleTools).SetConfirmationOptions sampleStdlib
    "llm" true 0

end Processors

/-! ## Package `priority` -/

namespace Priority

/-- The counters returned by `Stats()`. -/
structure Stats where
  HighPush : Int
  LowPush : Int
  HighPop : Int
  LowPop : Int
  deriving DecidableEq, Repr

/-- The two-lane queue.  A buffered channel is the list of the items it holds, oldest
first, together with its capacity. -/
structure PriorityQueue (α : Type) where
  high : List α
  highCap : Nat
  low : List α
  lowCap : Nat
  fairness : Int
  highPush : Int
  lowPush : Int
  highPop : Int
  lowPop : Int

/-- The constructor `New`. -/
def New {α : Type} (highCap lowCap : Nat) (fairness : Int) : PriorityQueue α :=
  { high := []
    highCap := highCap
    low := []
    lowCap := lowCap
    fairness := if fairness ≤ 0 then 3 else fairness
    highPush := 0
    lowPush := 0
    highPop := 0
    lowPop := 0 }

/-- The method `TryPushHigh`: a non-blocking send on the high channel. -/
def PriorityQueue.TryPushHigh {α : Type} (q : PriorityQueue α) (f : α) :
    PriorityQueue α × Bool :=
  if q.high.length < q.highCap then
    ({ q with high := q.high ++ [f], highPush := q.highPush + 1 }, true)
  else (q, false)

/-- The method `TryPushLow`: a non-blocking send on the low channel. -/
def PriorityQueue.TryPushLow {α : Type} (q : PriorityQueue α) (f : α) :
    PriorityQueue α × Bool :=
  if q.low.length < q.lowCap then
    ({ q with low := q.low ++ [f], lowPush := q.lowPush + 1 }, true)
  else (q, false)

/-- One iteration of the loop of `Pop`: a non-blocking receive on the high channel, then
(when `fairness > 0`) one on the low channel; `none` when the iteration ends in the
sleep. -/
def PriorityQueue.popStep {α : Type} (q : PriorityQueue α) : Option (α × PriorityQueue α) :=
  match q.high with
  | f :: rest => some (f, { q with high := rest, highPop := q.highPop + 1 })
  | [] =>
    if q.fairness > 0 then
      match q.low with
      | f :: rest => some (f, { q with low := rest, lowPop := q.lowPop + 1 })
      | [] => none
    else none

/-- The method `Pop`, run for at most `fuel` iterations of its loop (no other goroutine
pushes in between); `none` when it is still polling after `fuel` iterations. -/
def PriorityQueue.Pop {α : Type} (q : PriorityQueue α) : Nat → Option (α × PriorityQueue α)
  | 0 => none
  | fuel + 1 =>
    match q.popStep with
    | some r => some r
    | none => q.Pop fuel

def PriorityQueue.Stats {α : Type} (q : PriorityQueue α) : Stats :=
  { HighPush := q.highPush, LowPush := q.lowPush, HighPop := q.highPop, LowPop := q.lowPop }

/-- An operation on the queue in a trace. -/
inductive QueueOp (α : Type) where
  | pushHigh (f : α)
  | pushLow (f : α)
  | pop

/-- A queue together with the history of a trace: the items each lane accepted and the
items popped from each lane, all oldest first.  The lane of a popped item is read off
the pop counters. -/
structure Trace (α : Type) where
  q : PriorityQueue α
  pushedHigh : List α
  pushedLow : List α
  poppedHigh : List α
  poppedLow : List α

def Trace.step {α : Type} (t : Trace α) : QueueOp α → Trace α
  | .pushHigh f =>
    let r := t.q.TryPushHigh f
    { t with q := r.1, pushedHigh := if r.2 then t.pushedHigh ++ [f] else t.pushedHigh }
  | .pushLow f =>
    let r := t.q.TryPushLow f
    { t with q := r.1, pushedLow := if r.2 then t.pushedLow ++ [f] else t.pushedLow }
  | .pop =>
    match t.q.Pop 1 with
    | none => t
    | some (f, q1) =>
      if q1.highPop = t.q.highPop + 1 then { t with q := q1, poppedHigh := t.poppedHigh ++ [f] }
      else { t with q := q1, poppedLow := t.poppedLow ++ [f] }

/-- Run a trace on a queue built by `New`. -/
def Trace.run {α : Type} (highCap lowCap : Nat) (fairness : Int) (ops : List (QueueOp α)) :
    Trace α :=
  ops.foldl Trace.step
    { q := New highCap lowCap fairness
      pushedHigh := [], pushedLow := [], poppedHigh := [], poppedLow := [] }

/-- Invariant of a trace: each lane accepted exactly the items popped from it followed by
the items it still holds, and the queue keeps a positive fairness. -/
def Trace.inv {α : Type} (t : Trace α) : Prop :=
  t.poppedHigh ++ t.q.high = t.pushedHigh ∧ t.poppedLow ++ t.q.low = t.pushedLow ∧
    0 < t.q.fairness

end Priority

/-! ## Go errors -/

/-- An error value with its `Unwrap` chain: a plain error, a `resilience.RateLimitError`,
an `errorsx.ReasonedError` (around an error or around nil), or any other error that
wraps an inner one. -/
inductive GoError where
  | plain (msg : String)
  | rateLimit (provider message : String)
  | reasoned (inner : GoError) (reason : String)
  | reasonedNil (reason : String)
  | wrapped (msg : String) (inner : GoError)
  deriving DecidableEq, Repr

/-! ## Package `resilience` -/

namespace Resilience

/-- Does `errors.As` find a `RateLimitError` along the chain of the error? -/
def GoError.isRateLimit : GoError → Bool
  | .plain _ => false
  | .rateLimit _ _ => true
  | .reasoned inner _ => GoError.isRateLimit inner
  | .reasonedNil _ => false
  | .wrapped _ inner => GoError.isRateLimit inner

/-- The function `IsRateLimit`; `none` is the nil error. -/
def IsRateLimit : Option GoError → Bool
  | none => false
  | some e => GoError.isRateLimit e

/-- The circuit breaker.  Instants and durations are nanoseconds; `openUntil` is `none`
for the zero `time.Time`, which no clock reading precedes. -/
structure CircuitBreaker where
  failures : Int
  threshold : Int
  openUntil : Option Int
  cooldown : Int
  deriving DecidableEq, Repr

def NewCircuitBreaker (threshold cooldown : Int) : CircuitBreaker :=
  { failures := 0
    threshold := if threshold ≤ 0 then 3 else threshold
    openUntil := none
    cooldown := if cooldown ≤ 0 then 30 * 1000000000 else cooldown }

/-- The method `Allow`, read at clock time `now`. -/
def CircuitBreaker.Allow (c : CircuitBreaker) (now : Int) : Bool :=
  match c.openUntil with
  | none => true
  | some u => !(decide (now < u))

def CircuitBreaker.OnSuccess (c : CircuitBreaker) : CircuitBreaker :=
  { c with failures := 0, openUntil := none }

/-- The method `OnError`, called at clock time `now`. -/
def CircuitBreaker.OnError (c : CircuitBreaker) (err : Option GoError) (now : Int) :
    CircuitBreaker :=
  if !IsRateLimit err then c
  else
    let c1 := { c with failures := c.failures + 1 }
    if c1.failures ≥ c1.threshold then { c1 with openUntil := some (now + c1.cooldown) } else c1

/-- A call on the breaker. -/
inductive BreakerCall where
  | OnError (err : Option GoError)
  | OnSuccess
  deriving DecidableEq, Repr

/-- Perform one call made at time `tc.1`. -/
def CircuitBreaker.step (c : CircuitBreaker) (tc : Int × BreakerCall) : CircuitBreaker :=
  match tc.2 with
  | .OnError err => c.OnError err tc.1
  | .OnSuccess => c.OnSuccess

/-- Perform a sequence of timed calls, left to right. -/
def CircuitBreaker.run (c : CircuitBreaker) (calls : List (Int × BreakerCall)) : CircuitBreaker :=
  calls.foldl CircuitBreaker.step c

/-- The calls are in chronological order. -/
def chronological (calls : List (Int × BreakerCall)) : Prop :=
  calls.Pairwise (fun a b => a.1 ≤ b.1)

/-- Following the words of the specification: the times of the `OnError` calls with a
rate-limit error made after the last `OnSuccess` (or since construction), oldest first. -/
def rateLimitTimes (calls : List (Int × BreakerCall)) : List Int :=
  calls.foldl
    (fun acc tc =>
      match tc.2 with
      | .OnSuccess => []
      | .OnError err => if IsRateLimit err then acc ++ [tc.1] else acc)
    []

/-- Following the words of the specification: the times of those rate-limit `OnError`
calls that were at least the `T`-th since the last `OnSuccess`. -/
def trippingTimes (T : Int) (calls : List (Int × BreakerCall)) : List Int :=
  (rateLimitTimes calls).drop (T - 1).toNat

end Resilience

/-! ## Package `pipeline`: the session registry -/

namespace Pipeline

/-- An orchestrator as the registry sees it: an identity, and the error that `Start`
returns (`none` when it starts). -/
structure Orch where
  id : Nat
  startErr : Option String
  deriving DecidableEq, Repr

/-- A session (creation time not modelled); `Ctx` identifies its cancellable context. -/
structure Session where
  CallSID : String
  StreamID : String
  TraceID : String
  Orch : Orch
  Ctx : Nat
  deriving DecidableEq, Repr

/-- The registry.  The `sync.Map` is the list of its entries in insertion order.  The
factory receives the identity of the fresh context.  Ghost fields: `nextCtx` numbers the
contexts created, `cancelled` and `stopped` log the contexts cancelled and the
orchestrators stopped, oldest first. -/
structure SessionRegistry where
  sessions : List (String × Session)
  count : Int
  factory : Nat → String → String → String → Except String Orch
  draining : Bool
  nextCtx : Nat
  cancelled : List Nat
  stopped : List Nat

def NewSessionRegistry (factory : Nat → String → String → String → Except String Orch) :
    SessionRegistry :=
  { sessions := [], count := 0, factory := factory, draining := false, nextCtx := 0,
    cancelled := [], stopped := [] }

/-- The result of `GetOrCreate`: the session, the `created` flag and the error. -/
structure GetOrCreateResult where
  session : Option Session
  created : Bool
  err : Option String
  deriving DecidableEq, Repr

/-- The method `GetOrCreate`. -/
def SessionRegistry.GetOrCreate (r : SessionRegistry) (callSID streamID traceID : String) :
    SessionRegistry × GetOrCreateResult :=
  if callSID = "" then (r, { session := none, created := false, err := none })
  else
    match r.sessions.lookup callSID with
    | some v => (r, { session := some v, created := false, err := none })
    | none =>
      let ctx := r.nextCtx
      let r1 := { r with nextCtx := r.nextCtx + 1 }
      match r1.factory ctx callSID streamID traceID with
      | .error e =>
        ({ r1 with cancelled := r1.cancelled ++ [ctx] },
          { session := none, created := false, err := some e })
      | .ok orch =>
        match orch.startErr with
        | some e =>
          ({ r1 with cancelled := r1.cancelled ++ [ctx] },
            { session := none, created := false, err := some e })
        | none =>
          let sess : Session :=
            { CallSID := callSID, StreamID := streamID, TraceID := traceID, Orch := orch,
              Ctx := ctx }
          match r1.sessions.lookup callSID with
          | some actual =>
            ({ r1 with stopped := r1.stopped ++ [orch.id], cancelled := r1.cancelled ++ [ctx] },
              { session := some actual, created := false, err := none })
          | none =>
            ({ r1 with sessions := r1.sessions ++ [(callSID, sess)], count := r1.count + 1 },
              { session := some sess, created := true, err := none })

/-- The method `Get`. -/
def SessionRegistry.Get (r : SessionRegistry) (callSID : String) : Option Session :=
  r.sessions.lookup callSID

/-- The method `Remove`. -/
def SessionRegistry.Remove (r : SessionRegistry) (callSID : String) : SessionRegistry :=
  match r.sessions.lookup callSID with
  | some sess =>
    { r with
      sessions := r.sessions.filter (fun kv => kv.1 != callSID)
      cancelled := r.cancelled ++ [sess.Ctx]
      stopped := r.stopped ++ [sess.Orch.id]
      count := r.count - 1 }
  | none => r

/-- The method `CloseAll`: `Remove` on every key of the map. -/
def SessionRegistry.CloseAll (r : SessionRegistry) : SessionRegistry :=
  (r.sessions.map (fun kv => kv.1)).foldl SessionRegistry.Remove r

def SessionRegistry.Count (r : SessionRegistry) : Int := r.count

/-- A call on the registry. -/
inductive RegistryCall where
  | GetOrCreate (callSID streamID traceID : String)
  | Remove (callSID : String)
  | CloseAll

def SessionRegistry.step (r : SessionRegistry) : RegistryCall → SessionRegistry
  | .GetOrCreate callSID streamID traceID => (r.GetOrCreate callSID streamID traceID).1
  | .Remove callSID => r.Remove callSID
  | .CloseAll => r.CloseAll

/-- Perform a sequence of calls, left to right. -/
def SessionRegistry.run (r : SessionRegistry) (calls : List RegistryCall) : SessionRegistry :=
  calls.foldl SessionRegistry.step r

/-- The counter agrees with the map, and the map has one entry per key. -/
def SessionRegistry.consistent (r : SessionRegistry) : Prop :=
  r.count = r.sessions.length ∧ (r.sessions.map (fun kv => kv.1)).Nodup

/-- A factory whose orchestrators start: orchestrator `ctx` for context `ctx`. -/
def startingFactory : Nat → String → String → String → Except String Orch :=
  fun ctx _ _ _ => .ok { id := ctx, startErr := none }

end Pipeline

/-! ## Package `aggregators` -/

namespace Aggregators

open Frames

/-- Modelled from the spec: the reserved metadata key `is_final` (the declaration of
the constant `frames.MetaIsFinal` is not among the sources). -/
def MetaIsFinal : String := "is_final"

/-- The function `strings.HasSuffix`. -/
def HasSuffix (s suf : String) : Bool := suf.data.isSuffixOf s.data

/-- Number of bytes of the UTF-8 encoding of a character. -/
def runeLen (c : Char) : Nat :=
  if c.toNat < 0x80 then 1 else if c.toNat < 0x800 then 2 else if c.toNat < 0x10000 then 3 else 4

/-- Builtin `len(s)` of a Go string: its length in bytes. -/
def len (s : String) : Nat := (s.data.map runeLen).sum

/-- The byte `s[len(s)-1]` (`none` for the empty string): an ASCII character is its own
byte, the last byte of a longer encoding is a continuation byte `0x80 | (c & 0x3F)`. -/
def lastByte (s : String) : Option Nat :=
  match s.data.getLast? with
  | none => none
  | some c => if c.toNat < 0x80 then some c.toNat else some (0x80 + c.toNat % 64)

structure AggregatorConfig where
  MinLen : Int
  MaxTokens : Int
  MaxHistory : Int
  FlushTimeout : Int

/-- The aggregator; `sb` is the content of the string builder, `lastTokenAt` is `none`
for the zero time. -/
structure TextAggregator where
  cfg : AggregatorConfig
  sb : String
  tokenCount : Int
  firstPTS : Int
  streamID : String
  meta : MetaMap
  lastTokenAt : Option Int
  history : List String

/-- Constructor; `FlushTimeout` is in nanoseconds. -/
def NewTextAggregator (cfg : AggregatorConfig) : TextAggregator :=
  let cfg := if cfg.MinLen ≤ 0 then { cfg with MinLen := 8 } else cfg
  let cfg := if cfg.MaxTokens ≤ 0 then { cfg with MaxTokens := 256 } else cfg
  let cfg := if cfg.MaxHistory ≤ 0 then { cfg with MaxHistory := 10 } else cfg
  let cfg := if cfg.FlushTimeout ≤ 0 then { cfg with FlushTimeout := 300000000 } else cfg
  { cfg := cfg, sb := "", tokenCount := 0, firstPTS := 0, streamID := "", meta := GoMap.empty,
    lastTokenAt := none, history := [] }

def eosDetected (env : Stdlib) (s : String) : Bool :=
  let t := env.TrimSpace s
  if len t = 0 then false
  else if HasSuffix t "..." then decide (len t ≥ 12)
  else
    let last := lastByte t
    last == some '.'.toNat || last == some '!'.toNat || last == some '?'.toNat
      || last == some '\n'.toNat

def TextAggregator.appendHistory (a : TextAggregator) (text : String) : TextAggregator :=
  if a.cfg.MaxHistory ≤ 0 then a
  else
    let history := a.history ++ [text]
    if (history.length : Int) > a.cfg.MaxHistory then
      { a with history := history.drop (history.length - a.cfg.MaxHistory.toNat) }
    else { a with history := history }

/-- The statements shared by the flushing paths: reset the builder and the per-sentence
fields, then record the text in the history. -/
def TextAggregator.reset (a : TextAggregator) (text : String) : TextAggregator :=
  TextAggregator.appendHistory
    { a with sb := "", tokenCount := 0, firstPTS := 0, streamID := "", meta := GoMap.empty } text

/-- The method `Process`; the returned error is always nil and is left out.  `now` is
the reading of the clock. -/
def TextAggregator.Process (env : Stdlib) (a : TextAggregator) (f : Frame) (now : Int) :
    TextAggregator × List Frame :=
  match f with
  | .text pts ftext fmeta =>
    let a := if a.firstPTS = 0 then
        { a with firstPTS := pts, streamID := GoMap.get fmeta MetaStreamID, meta := fmeta }
      else a
    let a := { a with sb := a.sb ++ ftext, tokenCount := a.tokenCount + 1, lastTokenAt := some now }
    let text := a.sb
    let isFinal := GoMap.get fmeta MetaIsFinal == "true"
    let shouldFlush := eosDetected env text || decide (a.tokenCount ≥ a.cfg.MaxTokens) || isFinal
    let final := env.TrimSpace text
    if shouldFlush && decide ((len final : Int) ≥ a.cfg.MinLen) then
      (a.reset final, [NewTextFrame a.streamID a.firstPTS final a.meta])
    else (a, [])
  | f =>
    let text := env.TrimSpace a.sb
    let since := match a.lastTokenAt with
      | none => true
      | some t => decide (now - t > a.cfg.FlushTimeout)
    let timeout := since && decide (a.tokenCount > 0)
    if timeout && decide ((len text : Int) ≥ a.cfg.MinLen) then
      (a.reset text, [NewTextFrame a.streamID a.firstPTS text a.meta, f])
    else (a, [f])

/-- The default configuration: every field zero, so that the constructor fills in
its defaults. -/
def defaultConfig : AggregatorConfig :=
  { MinLen := 0, MaxTokens := 0, MaxHistory := 0, FlushTimeout := 0 }

/-- The text of a Text frame, `""` for other frames. -/
def frameText : Frame → String
  | .text _ t _ => t
  | _ => ""

end Aggregators

/-! ## Packages `errorsx`, `resilience` (retry) and the TTS processor -/

namespace Errorsx

def ReasonTTSConnect : String := "tts_connect"
def ReasonTTSSend : String := "tts_send"
def ReasonTTSRetry : String := "tts_retry"

/-- What `errors.As(err, &re)` finds for a `ReasonedError` target: the reason of the
first `ReasonedError` along the chain. -/
def findReasoned : GoError → Option String
  | .plain _ => none
  | .rateLimit _ _ => none
  | .reasoned _ reason => some reason
  | .reasonedNil reason => some reason
  | .wrapped _ inner => findReasoned inner

/-- The function `Wrap`; `none` is the nil error. -/
def Wrap (err : Option GoError) (reason : String) : Option GoError :=
  match err with
  | none => none
  | some e => if (findReasoned e).isSome then some e else some (.reasoned e reason)

end Errorsx

namespace Resilience

structure RetryPolicy where
  MaxRetries : Int
  Backoff : Int

def NewRetryPolicy (maxRetries backoff : Int) : RetryPolicy :=
  { MaxRetries := if maxRetries ≤ 0 then 2 else maxRetries
    Backoff := if backoff ≤ 0 then 200 * 1000000 else backoff }

/-- The loop of `Do` with `n` iterations left; the state `σ` is what `fn` acts on.  The
sleep between attempts is not modelled. -/
def RetryPolicy.doLoop {σ : Type} (fn : σ → σ × Option GoError) : Nat → σ → σ × Option GoError
  | 0, s => (s, none)
  | n + 1, s =>
    match fn s with
    | (s1, none) => (s1, none)
    | (s1, some e) => if n = 0 then (s1, some e) else RetryPolicy.doLoop fn n s1

/-- The method `Do`: iterations `i = 0 .. MaxRetries`. -/
def RetryPolicy.Do {σ : Type} (r : RetryPolicy) (fn : σ → σ × Option GoError) (s : σ) :
    σ × Option GoError :=
  RetryPolicy.doLoop fn (r.MaxRetries + 1).toNat s

end Resilience

namespace Processors

open Frames

/-- A vendor session behind the interface `tts.StreamingTTS`, as the processor observes
it.  `results` is the content of the channel returned by `Results()`, oldest frame
first.  `flushPurges` tells whether the vendor `Flush` empties that channel (the
ElevenLabs adapter does, the mock adapter does not); `flushSender` whether the vendor
implements `SendTextWithOptions`; `startErr` is what `Start` returns and `sendErrs` what
the successive sends return (nil when exhausted).  `sent`, `flushCount` and `closed`
record the calls received. -/
structure TTSSession where
  name : String
  results : List Frame
  flushPurges : Bool
  flushSender : Bool
  startErr : Option GoError
  sendErrs : List (Option GoError)
  sent : List (String × Bool)
  flushCount : Nat
  closed : Bool

def TTSSession.Flush (s : TTSSession) : TTSSession :=
  { s with flushCount := s.flushCount + 1, results := if s.flushPurges then [] else s.results }

def TTSSession.Close (s : TTSSession) : TTSSession := { s with closed := true }

def TTSSession.SendTextWithOptions (s : TTSSession) (text : String) (flush : Bool) :
    TTSSession × Option GoError :=
  ({ s with sent := s.sent ++ [(text, flush)], sendErrs := s.sendErrs.tail },
    s.sendErrs.head?.getD none)

def TTSSession.SendText (s : TTSSession) (text : String) : TTSSession × Option GoError :=
  s.SendTextWithOptions text false

/-- The function `drainTTS` on the content of a channel: the frames read and the
content left (a non-blocking read takes everything buffered). -/
def drainTTS (ch : List Frame) : List Frame × List Frame := (ch, [])

def sessionKey (streamID lang : String) : String :=
  if streamID = "" then ""
  else if lang = "" then streamID
  else streamID ++ "|" ++ lang

/-- The TTS processor.  The map `sessions` is a list of entries with distinct keys,
iterated in list order (Go leaves the order unspecified).  `closedSessions` records the
sessions closed and removed.  The fields serving only metrics and logs (`obs`, `first`,
`trace`, `open`, `provider`, `outputFormat`, `logger`) are left out. -/
structure TTSProcessor where
  sessions : List (String × TTSSession)
  factory : String → String → TTSSession
  langFactories : GoMap (String → String → TTSSession)
  defaultLang : String
  callStream : GoMap String
  streamCall : GoMap String
  breaker : Resilience.CircuitBreaker
  retry : Resilience.RetryPolicy
  closedSessions : List (String × TTSSession)

def NewTTSProcessor (factory : String → String → TTSSession) : TTSProcessor :=
  { sessions := []
    factory := factory
    langFactories := GoMap.empty
    defaultLang := ""
    callStream := GoMap.empty
    streamCall := GoMap.empty
    breaker := Resilience.NewCircuitBreaker 3 (30 * 1000000000)
    retry := Resilience.NewRetryPolicy 2 (200 * 1000000)
    closedSessions := [] }

/-- The test `key == streamID || strings.HasPrefix(key, streamID+"|")`. -/
def keyOfStream (streamID key : String) : Bool :=
  key == streamID || HasPrefix key (streamID ++ "|")

def TTSProcessor.withSessions (p : TTSProcessor) (streamID : String)
    (fn : TTSSession → TTSSession) : TTSProcessor :=
  if streamID = "" then p
  else { p with sessions := p.sessions.map (fun kv =>
    if keyOfStream streamID kv.1 then (kv.1, fn kv.2) else kv) }

/-- The method `drainAll`: the frames read from the channels of the sessions of the
stream, which are left empty. -/
def TTSProcessor.drainAll (p : TTSProcessor) (streamID : String) : TTSProcessor × List Frame :=
  if streamID = "" then (p, [])
  else
    (p.withSessions streamID (fun s => { s with results := (drainTTS s.results).2 }),
      ((p.sessions.filter (fun kv => keyOfStream streamID kv.1)).map
        (fun kv => (drainTTS kv.2.results).1)).flatten)

def TTSProcessor.CloseStream (p : TTSProcessor) (streamID : String) : TTSProcessor :=
  if streamID = "" then p
  else
    let closing := p.sessions.filter (fun kv => keyOfStream streamID kv.1)
    let p := { p with
      sessions := p.sessions.filter (fun kv => !keyOfStream streamID kv.1)
      closedSessions := p.closedSessions ++ closing.map (fun kv => (kv.1, kv.2.Close)) }
    let callSID := GoMap.get p.streamCall streamID
    if callSID ≠ "" then
      { p with
        callStream := if GoMap.get p.callStream callSID = streamID
          then GoMap.delete p.callStream callSID else p.callStream
        streamCall := GoMap.delete p.streamCall streamID }
    else p

def TTSProcessor.streamForCall (p : TTSProcessor) (callSID : String) : String :=
  if callSID = "" then "" else GoMap.get p.callStream callSID

def TTSProcessor.trackCallStream (p : TTSProcessor) (callSID streamID : String) : TTSProcessor :=
  if callSID = "" ∨ streamID = "" then p
  else
    let prev := GoMap.get p.callStream callSID
    let p := if prev ≠ "" ∧ prev ≠ streamID then p.CloseStream prev else p
    { p with
      callStream := GoMap.set p.callStream callSID streamID
      streamCall := GoMap.set p.streamCall streamID callSID }

def TTSProcessor.factoryForLang (p : TTSProcessor) (lang : String) :
    String → String → TTSSession :=
  if lang ≠ "" then
    match p.langFactories lang with
    | some factory => factory
    | none => p.factory
  else p.factory

/-- The method `getOrCreate`; the session returned is the one stored under the key. -/
def TTSProcessor.getOrCreate (p : TTSProcessor) (streamID callSID lang : String) :
    TTSProcessor × Option GoError :=
  let key := sessionKey streamID lang
  match p.sessions.lookup key with
  | some _ => (p, none)
  | none =>
    let ttsSession := p.factoryForLang lang callSID streamID
    match ttsSession.startErr with
    | some err => (p, some err)
    | none => ({ p with sessions := p.sessions ++ [(key, ttsSession)] }, none)

/-- Act on the session stored under `key`. -/
def TTSProcessor.onSession (p : TTSProcessor) (key : String) (fn : TTSSession → TTSSession) :
    TTSProcessor :=
  { p with sessions := p.sessions.map (fun kv => if kv.1 = key then (kv.1, fn kv.2) else kv) }

/-- Send a text on the session stored under `key`. -/
def TTSProcessor.sendOn (p : TTSProcessor) (key text : String) (flush : Bool) :
    TTSProcessor × Option GoError :=
  match p.sessions.lookup key with
  | none => (p, none)
  | some s =>
    (p.onSession key (fun s => (s.SendTextWithOptions text flush).1),
      (s.SendTextWithOptions text flush).2)

end Processors

namespace Processors

open Frames

/-- The closure `drain` of `Process`: append what `drainAll` yields to `out`. -/
def TTSProcessor.drain (p : TTSProcessor) (streamID : String) (out : List Frame) :
    TTSProcessor × List Frame :=
  ((p.drainAll streamID).1, out ++ (p.drainAll streamID).2)

/-- The exit taken on a denied, failed or exhausted send: drain, then the Fallback
frame. -/
def TTSProcessor.fallbackExit (p : TTSProcessor) (streamID : String) (fmeta : MetaMap)
    (now : Int) : TTSProcessor × List Frame :=
  let fallback := NewControlFrame streamID now ControlFallback fmeta
  let r := p.drain streamID []
  (r.1, r.2 ++ [fallback])

/-- The `case frames.KindText` of `Process`.  Every reading of the clock within the call
yields `now`. -/
def TTSProcessor.processText (env : Stdlib) (p : TTSProcessor) (streamID lang text : String)
    (fmeta : MetaMap) (now : Int) : TTSProcessor × List Frame :=
  let callSID := GoMap.get fmeta MetaCallSID
  let flushRequested := GoMap.get fmeta MetaTTSFlush == "true"
  if env.TrimSpace text = "" then
    if flushRequested then
      (p.withSessions streamID (fun s =>
        if s.flushSender then (s.SendTextWithOptions "" true).1 else s.Flush), [])
    else (p, [])
  else if !p.breaker.Allow now then
    p.fallbackExit streamID fmeta now
  else
    let key := sessionKey streamID lang
    match p.getOrCreate streamID callSID lang with
    | (p, some err) =>
      let err := Errorsx.Wrap (some err) Errorsx.ReasonTTSConnect
      let p := { p with breaker := p.breaker.OnError err now }
      p.fallbackExit streamID fmeta now
    | (p, none) =>
      let isSender := (p.sessions.lookup key).any (fun s => s.flushSender)
      let sent := p.sendOn key text (flushRequested && isSender)
      let retried := match sent.2 with
        | none => (sent.1, none)
        | some _ =>
          p.retry.Do (fun (q : TTSProcessor) =>
            let q := q.CloseStream streamID
            match q.getOrCreate streamID callSID lang with
            | (q, some err) => (q, some err)
            | (q, none) => q.sendOn key text false) sent.1
      match retried with
      | (p, some err) =>
        let err := Errorsx.Wrap (some err) Errorsx.ReasonTTSRetry
        let p := { p with breaker := p.breaker.OnError err now }
        p.fallbackExit streamID fmeta now
      | (p, none) =>
        let p := { p with breaker := p.breaker.OnSuccess }
        let isSender := (p.sessions.lookup key).any (fun s => s.flushSender)
        let p := if flushRequested && !isSender then p.onSession key TTSSession.Flush else p
        p.drain streamID []

/-- The method `Process`; the returned error is always nil and is left out. -/
def TTSProcessor.Process (env : Stdlib) (p : TTSProcessor) (f : Frame) (now : Int) :
    TTSProcessor × List Frame :=
  let streamID := GoMap.get f.Meta MetaStreamID
  let callSID := GoMap.get f.Meta MetaCallSID
  let p := if callSID ≠ "" then p.trackCallStream callSID streamID else p
  let lang := if GoMap.get f.Meta MetaLanguage = "" then p.defaultLang
    else GoMap.get f.Meta MetaLanguage
  match f with
  | .system _ name fmeta =>
    if name = "call_end" then
      let streamID := if streamID = "" then p.streamForCall (GoMap.get fmeta MetaCallSID)
        else streamID
      (if streamID ≠ "" then p.CloseStream streamID else p, [f])
    else
      let r := p.drain streamID []
      (r.1, r.2 ++ [f])
  | .control _ code _ =>
    if code = ControlStartInterruption then
      (p.withSessions streamID TTSSession.Flush, [f])
    else
      let r := p.drain streamID []
      if code = ControlFlush then (r.1.withSessions streamID TTSSession.Flush, r.2 ++ [f])
      else if code = ControlCancel then (r.1.CloseStream streamID, r.2 ++ [f])
      else if code = ControlFallback then (r.1.CloseStream streamID, r.2 ++ [f])
      else if code = ControlAudioReady then
        let r2 := r.1.drain streamID r.2
        (r2.1, r2.2 ++ [f])
      else (r.1, r.2 ++ [f])
  | .text _ text fmeta => p.processText env streamID lang text fmeta now
  | _ =>
    let r := p.drain streamID []
    (r.1, r.2 ++ [f])

/-- A session as the ElevenLabs adapter provides it (`Flush` purges the output channel,
`SendTextWithOptions` is implemented), with an empty channel. -/
def elevenLabsSession : TTSSession :=
  { name := "elevenlabs_tts", results := [], flushPurges := true, flushSender := true,
    startErr := none, sendErrs := [], sent := [], flushCount := 0, closed := false }

/-- An audio frame of stream `stream-1` with the given presentation time. -/
def exampleAudio (pts : Int) : Frame :=
  .audio pts [1, 2, 3] 8000 1 (GoMap.set GoMap.empty MetaStreamID "stream-1") false

/-- A processor whose only session, for stream `stream-1`, holds two audio frames in its
output channel. -/
def bufferedProcessor : TTSProcessor :=
  { NewTTSProcessor (fun _ _ => elevenLabsSession) with
    sessions := [("stream-1", { elevenLabsSession with results := [exampleAudio 10, exampleAudio 20] })] }

/-- The control frame with the given code for stream `stream-1`. -/
def exampleControl (code : String) : Frame :=
  NewControlFrame "stream-1" 30 code (GoMap.set GoMap.empty MetaStreamID "stream-1")

/-- The presentation times of the Audio frames of a list. -/
def audioPTS (fs : List Frame) : List Int :=
  fs.filterMap (fun f => match f with
    | .audio pts _ _ _ _ _ => some pts
    | _ => none)

end Processors

namespace Processors

open Frames LLM

/-- An adapter whose `Generate` and `Stream` fail. -/
def failingAdapter : LLMAdapter :=
  { Generate := fun _ => .error "upstream unavailable"
    Stream := fun _ => .error "upstream unavailable" }

/-- A processor with a system prompt of five tokens, a failing adapter and a budget of
eight estimated tokens. -/
def limitedProcessor : LLMProcessor :=
  (NewLLMProcessor (some failingAdapter) "you are a helpful assistant" []).SetMemoryLimits 0 8

/-- A user utterance of five tokens. -/
def longUtterance : String := "please book a visit tomorrow"

end Processors

namespace Processors

open Frames LLM

/-- Does the message count as non-system for pruning?  The test of `nonSystemIndices`. -/
def isNonSystem (env : Stdlib) (m : Message) : Bool := env.ToLower m.role != "system"

/-- The number of non-system messages of a list. -/
def nonSystemCount (env : Stdlib) (messages : List Message) : Nat :=
  (messages.filter (isNonSystem env)).length

/-- The list without its `n` oldest (leftmost) non-system messages; the specification
that `pruneByHistory` is compared with. -/
def dropOldestNonSystem (env : Stdlib) : Nat → List Message → List Message
  | 0, messages => messages
  | _ + 1, [] => []
  | n + 1, m :: rest =>
    if isNonSystem env m then dropOldestNonSystem env n rest
    else m :: dropOldestNonSystem env (n + 1) rest

/-- Run `Process` on the frames in turn, each with its clock reading; `none` when a call
panics. -/
def LLMProcessor.processAll (env : Stdlib) :
    LLMProcessor → List (Frame × Int) → Option LLMProcessor
  | p, [] => some p
  | p, fn :: rest =>
    match p.Process env fn.1 fn.2 with
    | none => none
    | some r => LLMProcessor.processAll env r.p rest

end Processors

namespace Processors

open Frames LLM

/-- The history limit is `H > 0` and every stored history has at most `H` non-system
messages. -/
def LLMProcessor.historyInv (env : Stdlib) (H : Int) (p : LLMProcessor) : Prop :=
  0 < H ∧ p.maxHistory = H ∧
    ∀ scope msgs, p.messagesByScope scope = some msgs → (nonSystemCount env msgs : Int) ≤ H

end Processors

/-! ## Package `errorsx`: reasons; the feeder of the orchestrator; token runs -/

namespace Errorsx

def ReasonUnknown : String := "unknown"
def ReasonSTTSend : String := "stt_send"
def ReasonLLMGenerate : String := "llm_generate"

/-- The method `Error()` of an error value: a `RateLimitError` answers its message or
`rate limit`, a `ReasonedError` the message of the error it holds or, around nil, its
reason. -/
def GoError.Error : GoError → String
  | .plain msg => msg
  | .rateLimit _ message => if message ≠ "" then message else "rate limit"
  | .reasoned inner _ => GoError.Error inner
  | .reasonedNil reason => reason
  | .wrapped msg _ => msg

/-- The method `Unwrap()`; `none` is nil (or no such method). -/
def GoError.Unwrap : GoError → Option GoError
  | .plain _ => none
  | .rateLimit _ _ => none
  | .reasoned inner _ => some inner
  | .reasonedNil _ => none
  | .wrapped _ inner => some inner

/-- The errors reached from an error by repeated `Unwrap`, the error itself first. -/
def GoError.chain : GoError → List GoError
  | .plain msg => [.plain msg]
  | .rateLimit provider message => [.rateLimit provider message]
  | .reasoned inner reason => .reasoned inner reason :: GoError.chain inner
  | .reasonedNil reason => [.reasonedNil reason]
  | .wrapped msg inner => .wrapped msg inner :: GoError.chain inner

/-- Is the error value itself a `ReasonedError`? -/
def GoError.isReasoned : GoError → Bool
  | .reasoned _ _ => true
  | .reasonedNil _ => true
  | _ => false

/-- Following the words of the specification: the error carries a reason, directly or
through `Unwrap`. -/
def carriesReason (err : GoError) : Bool := (GoError.chain err).any GoError.isReasoned

/-- The function `Reason`; `none` is the nil error. -/
def Reason (err : Option GoError) : String :=
  match err with
  | none => ReasonUnknown
  | some e =>
    match findReasoned e with
    | some reason => reason
    | none => ReasonUnknown

/-- The function `HasReason`. -/
def HasReason (err : Option GoError) (reason : String) : Bool := Reason err == reason

end Errorsx

namespace Pipeline

open Frames

/-- The body of the feeder goroutine of `startSync` for one frame received on `in`: the
queue afterwards and whether the frame was accepted (a frame refused by a full lane is
released and counted as dropped). -/
def startSyncFeeder (pq : Priority.PriorityQueue Frame) (f : Frame) :
    Priority.PriorityQueue Frame × Bool :=
  if f.Kind = Kind.control then pq.TryPushHigh f else pq.TryPushLow f

/-- The body of the feeder goroutine of `startAsync` for one frame received on `in`. -/
def startAsyncFeeder (pq : Priority.PriorityQueue Frame) (f : Frame) :
    Priority.PriorityQueue Frame × Bool :=
  if f.Kind = Kind.control then pq.TryPushHigh f else pq.TryPushLow f

end Pipeline

namespace Processors

open Frames LLM

/-- The number of maximal runs of characters satisfying `p`; `prev` tells whether the
character before the list belongs to a run. -/
def runStarts (p : Char → Bool) : Bool → List Char → Nat
  | _, [] => 0
  | prev, c :: rest => (if p c && !prev then 1 else 0) + runStarts p (p c) rest

/-- Following the words of the specification: `len(strings.Fields(c))`, the number of
maximal runs of non-white-space characters. -/
def fieldsCount (c : String) : Nat := runStarts (fun ch => !isSpace ch) false c.data

/-- The number of maximal runs of the characters `a-z`, `0-9`. -/
def tokenRuns (c : String) : Nat := runStarts isTokenRune false c.data

end Processors

namespace Processors

open Frames LLM

/-- An adapter that proposes `exampleCall` when it is given tools and answers `yes` to a
request without tools (the confirmation classifier's request). -/
def agreeingAdapter : LLMAdapter :=
  { Generate := fun input =>
      if input.Tools.isEmpty then .ok { Text := "yes", ToolCalls := [], HandoffAgent := "" }
      else .ok { Text := "", ToolCalls := [exampleCall], HandoffAgent := "" }
    Stream := fun _ => .ok ["done"] }

/-- A processor as `NewLLMProcessor` builds it: confirmation mode unset (hybrid), LLM
fallback off. -/
def hybridProcessor : LLMProcessor := NewLLMProcessor (some agreeingAdapter) "" exampleTools

/-- The same processor with the LLM fallback switched on. -/
def hybridFallbackProcessor : LLMProcessor :=
  hybridProcessor.SetConfirmationOptions sampleStdlib "hybrid" true 0

/-- The request that `classifyConfirmationLLM` sends to the adapter. -/
def classifierInput (env : Stdlib) (text : String) (meta : MetaMap) : Context :=
  { Messages := [systemMessage (confirmationClassifierPrompt env (languageFromMeta env meta)),
      userMessage text]
    Tools := [] }

end Processors

namespace Processors

open Frames LLM

/-- A text of `n` copies of the character `c`. -/
def repeatChar (c : Char) (n : Nat) : String := String.mk (List.replicate n c)

/-- A processor with a budget of two estimated tokens and no system prompt. -/
def tinyBudgetProcessor : LLMProcessor :=
  (NewLLMProcessor none "" []).SetMemoryLimits 0 2

/-- The metadata of a source frame of stream `stream-1` that carries `tts_flush`. -/
def flushedSourceMeta : MetaMap :=
  GoMap.ofList [("stream_id", "stream-1"), ("source", "stt"), ("tts_flush", "true")]

end Processors

/-! ## Package `processors`: DTMF disambiguator and response limiter -/

namespace Processors

open Frames

/-- Modelled from the spec: the metadata key `dtmf_priority` (the declaration of the
constant `frames.MetaDTMFPriority` is not among the sources). -/
def MetaDTMFPriority : String := "dtmf_priority"

structure DTMFDisambiguatorConfig where
  Window : Int
  PreferDTMF : Bool
  MarkOnly : Bool
  MetaKeyFlag : String

/-- The disambiguator; `lastDT` maps a stream to the clock reading (nanoseconds) of its
last DTMF control frame. -/
structure DTMFDisambiguator where
  cfg : DTMFDisambiguatorConfig
  lastDT : GoMap Int

/-- The regular expression `^[0-9]+$`: one or more characters, all of them digits. -/
def digitOnly (text : String) : Bool :=
  !text.data.isEmpty && text.data.all (fun c => decide ('0' ≤ c) && decide (c ≤ '9'))

def NewDTMFDisambiguator (cfg : DTMFDisambiguatorConfig) : DTMFDisambiguator :=
  let cfg := if cfg.Window ≤ 0 then { cfg with Window := 2 * 1000000000 } else cfg
  let cfg := if cfg.MetaKeyFlag = "" then { cfg with MetaKeyFlag := MetaDTMFPriority } else cfg
  { cfg := cfg, lastDT := GoMap.empty }

/-- The method `Process`; `now` is the reading of the clock, the returned error is
always nil and is left out.  An empty list is the Go result `nil`. -/
def DTMFDisambiguator.Process (env : Stdlib) (d : DTMFDisambiguator) (f : Frame) (now : Int) :
    DTMFDisambiguator × List Frame :=
  match f with
  | .system _ name fmeta =>
    if name = "call_end" ∧ GoMap.get fmeta MetaStreamID ≠ "" then
      ({ d with lastDT := d.lastDT.delete (GoMap.get fmeta MetaStreamID) }, [f])
    else (d, [f])
  | .control _ code fmeta =>
    if code = ControlDTMF ∧ GoMap.get fmeta MetaStreamID ≠ "" then
      ({ d with lastDT := d.lastDT.set (GoMap.get fmeta MetaStreamID) now }, [f])
    else (d, [f])
  | .text pts ftext fmeta =>
    if GoMap.get fmeta MetaSource ≠ "stt" then (d, [f])
    else
      let text := env.TrimSpace ftext
      if text = "" ∨ digitOnly text = false then (d, [f])
      else
        let streamID := GoMap.get fmeta MetaStreamID
        if streamID = "" then (d, [f])
        else
          match d.lastDT streamID with
          | none => (d, [f])
          | some last =>
            if now - last > d.cfg.Window then (d, [f])
            else if d.cfg.MarkOnly || !d.cfg.PreferDTMF then
              (d, [NewTextFrame streamID pts ftext (fmeta.set d.cfg.MetaKeyFlag "true")])
            else (d, [])
  | _ => (d, [f])

/-- The metadata of an STT transcript of stream `s1`. -/
def sttMeta : MetaMap := GoMap.ofList [("stream_id", "s1"), ("source", "stt")]

/-- The metadata of a DTMF control frame of stream `s1`. -/
def dtmfMeta : MetaMap := GoMap.ofList [("stream_id", "s1"), ("dtmf_digit", "4")]

end Processors

namespace Processors

/-- A configuration with `PreferDTMF` and `MarkOnly` as given and everything else left
to the defaults. -/
def dtmfConfig (preferDTMF markOnly : Bool) (flag : String) : DTMFDisambiguatorConfig :=
  { Window := 0, PreferDTMF := preferDTMF, MarkOnly := markOnly, MetaKeyFlag := flag }

end Processors

namespace Processors

open Frames

/-- Modelled from the spec: the metadata key `short_turn_enforced` (the declaration of
the constant `frames.MetaShortTurnEnforced` is not among the sources). -/
def MetaShortTurnEnforced : String := "short_turn_enforced"

/-- The configuration; `SourceFilters` is `none` for a nil map. -/
structure ResponseLimiterConfig where
  MaxChars : Int
  MaxSentences : Int
  SourceFilters : Option (GoMap Bool)

structure ResponseLimiter where
  cfg : ResponseLimiterConfig

def NewResponseLimiter (cfg : ResponseLimiterConfig) : ResponseLimiter :=
  let cfg := if cfg.MaxChars ≤ 0 then { cfg with MaxChars := 420 } else cfg
  let cfg := if cfg.MaxSentences ≤ 0 then { cfg with MaxSentences := 3 } else cfg
  let cfg := if cfg.SourceFilters.isNone then
      { cfg with SourceFilters := some (GoMap.ofList [("llm", true), ("system", true)]) }
    else cfg
  { cfg := cfg }

/-- The read `cfg.SourceFilters[source]`: false for a missing key and for a nil map. -/
def sourceAllowed (filters : Option (GoMap Bool)) (source : String) : Bool :=
  match filters with
  | none => false
  | some m => (m source).getD false

/-- Is the rune one of `.`, `!`, `?`? -/
def isTerminator (r : Char) : Bool := r == '.' || r == '!' || r == '?'

/-- The loop of `truncateSentences`: the runes written to `out`, given the count of
terminators seen so far. -/
def truncateLoop (maxSentences : Int) : Int → List Char → List Char
  | _, [] => []
  | count, r :: rest =>
    if isTerminator r then
      if count + 1 ≥ maxSentences then [r] else r :: truncateLoop maxSentences (count + 1) rest
    else r :: truncateLoop maxSentences count rest

def truncateSentences (env : Stdlib) (text : String) (maxSentences : Int) : String :=
  if maxSentences ≤ 0 then text
  else
    let result := env.TrimSpace (String.mk (truncateLoop maxSentences 0 text.data))
    if result = "" then text else result

/-- The UTF-8 encoding of a character. -/
def charBytes (c : Char) : List Nat :=
  if c.toNat < 0x80 then [c.toNat]
  else if c.toNat < 0x800 then [0xC0 + c.toNat / 64, 0x80 + c.toNat % 64]
  else if c.toNat < 0x10000 then
    [0xE0 + c.toNat / 4096, 0x80 + c.toNat / 64 % 64, 0x80 + c.toNat % 64]
  else
    [0xF0 + c.toNat / 262144, 0x80 + c.toNat / 4096 % 64, 0x80 + c.toNat / 64 % 64,
      0x80 + c.toNat % 64]

/-- The bytes of a string: a Go string is its bytes. -/
def stringBytes (s : String) : List Nat := (s.data.map charBytes).flatten

/-- One step of decoding a Go string that need not be well formed: a character, or a
byte that is not part of a well-formed character (Go decodes it as `utf8.RuneError` of
width 1). -/
inductive Piece where
  | char (c : Char)
  | stray (b : Nat)
  deriving DecidableEq

/-- The bytes of a piece. -/
def Piece.bytes : Piece → List Nat
  | .char c => charBytes c
  | .stray b => [b]

/-- The bytes of a decoded string. -/
def piecesBytes (l : List Piece) : List Nat := (l.map Piece.bytes).flatten

/-- The slice `s[:n]` of a string of at least `n` bytes, decoded: the characters that
lie within the first `n` bytes and, when byte `n` falls inside a character, the leading
bytes of that character, each of them a stray byte (an incomplete encoding is not well
formed). -/
def sliceTo : Nat → List Char → List Piece
  | _, [] => []
  | n, c :: rest =>
    if Aggregators.runeLen c ≤ n then Piece.char c :: sliceTo (n - Aggregators.runeLen c) rest
    else ((charBytes c).take n).map Piece.stray

/-- Is the piece white space?  A stray byte decodes as `utf8.RuneError`, which is not. -/
def Piece.isSpace : Piece → Bool
  | .char c => Ranya.isSpace c
  | .stray _ => false

/-- The function `strings.TrimSpace` on a decoded string: leading and trailing white
space removed. -/
def trimSpacePieces (l : List Piece) : List Piece :=
  ((l.dropWhile Piece.isSpace).reverse.dropWhile Piece.isSpace).reverse

/-- A frame returned by the limiter: the input frame itself, or a new Text frame.  The
text of the new frame is given by its bytes, because the byte slice may end inside a
character and such a text is not a `String`. -/
inductive LimitedFrame where
  | same (f : Frame)
  | shortened (pts : Int) (text : List Nat) (meta : MetaMap)

/-- The method `Process`; the returned error is always nil and is left out.  The slice
is taken with `MaxChars` positive, as `NewResponseLimiter` leaves it.  The new frame is
`NewTextFrame(meta[stream_id], tf.PTS(), truncated, meta)`. -/
def ResponseLimiter.Process (env : Stdlib) (r : ResponseLimiter) (f : Frame) :
    List LimitedFrame :=
  match f with
  | .text pts ftext fmeta =>
    if !sourceAllowed r.cfg.SourceFilters (GoMap.get fmeta MetaSource) then [.same f]
    else
      let text := env.TrimSpace ftext
      if text = "" then [.same f]
      else
        let truncated := truncateSentences env text r.cfg.MaxSentences
        let truncated : List Nat :=
          if (Aggregators.len truncated : Int) > r.cfg.MaxChars then
            piecesBytes (trimSpacePieces (sliceTo r.cfg.MaxChars.toNat truncated.data))
          else stringBytes truncated
        if truncated ≠ stringBytes text then
          [.shortened pts truncated
            (mergeMeta (GoMap.get fmeta MetaStreamID) (fmeta.set MetaShortTurnEnforced "true"))]
        else [.same f]
  | _ => [.same f]

/-- Is the returned frame the input frame? -/
def LimitedFrame.isSame : LimitedFrame → Bool
  | .same _ => true
  | .shortened .. => false

/-- The bytes of the text of a returned frame (`[]` when it is not a Text frame). -/
def LimitedFrame.textBytes : LimitedFrame → List Nat
  | .same f => stringBytes (Aggregators.frameText f)
  | .shortened _ text _ => text

/-- The metadata of a returned frame. -/
def LimitedFrame.Meta : LimitedFrame → MetaMap
  | .same f => f.Meta
  | .shortened _ _ m => m

/-- Is the byte one of `.`, `!`, `?`? -/
def isTerminatorByte (b : Nat) : Bool := b == 0x2E || b == 0x21 || b == 0x3F

/-- A configuration with the given limits and source filter. -/
def limiterConfig (maxChars maxSentences : Int) (filters : Option (GoMap Bool)) :
    ResponseLimiterConfig :=
  { MaxChars := maxChars, MaxSentences := maxSentences, SourceFilters := filters }

/-- The metadata of a Text frame of stream `s1` with the given source. -/
def sourceMeta (source : String) : MetaMap :=
  GoMap.ofList [("stream_id", "s1"), ("source", source)]

/-- The number of `.`, `!` and `?` in a text given by its bytes. -/
def terminatorCount (text : List Nat) : Nat := text.countP isTerminatorByte

end Processors

/-! ## Package `processors`: the context processor and its buffer, mutexes as held flags -/

namespace Aggregators

open Frames

/-- The method `FlushFrame`; `none` is the nil result. -/
def TextAggregator.FlushFrame (env : Stdlib) (a : TextAggregator) :
    TextAggregator × Option Frame :=
  let out := env.TrimSpace a.sb
  if out = "" then (a, none)
  else (a.reset out, some (NewTextFrame a.streamID a.firstPTS out a.meta))

end Aggregators

namespace Processors

namespace Sync

open Frames

/-- Modelled from the spec: the metadata key `dtmf_digit` (the declaration of the
constant `frames.MetaDTMFDigit` is not among the sources). -/
def MetaDTMFDigit : String := "dtmf_digit"

/-- Modelled from the spec: the metadata key `from_number` (the declaration of the
constant `frames.MetaFromNumber` is not among the sources). -/
def MetaFromNumber : String := "from_number"

/-- Modelled from the spec: the metadata key `image_caption` (the declaration of the
constant `frames.MetaImageCaption` is not among the sources). -/
def MetaImageCaption : String := "image_caption"

/-- Modelled from the spec: the prefix `global_` of the global keys (the declaration of
the constant `frames.MetaGlobalPrefix` is not among the sources). -/
def MetaGlobalPrefix : String := "global_"

/-- What the context processor needs besides `Stdlib`: the keys of a map in sorted order
(a map is a function here and does not expose its keys), `http.DetectContentType` and
`base64.StdEncoding.EncodeToString`. -/
structure ContextLib where
  sortedKeys : GoMap String → List String
  DetectContentType : List Nat → String
  EncodeToString : List Nat → String

/-- The call `mu.Lock()` made by the goroutine that runs the processor, given the held
flag of the mutex: a `sync.Mutex` is not reentrant and no other goroutine releases it, so
on a held mutex the call never returns (`none`); on a free mutex the flag becomes true. -/
def Lock (held : Bool) : Option Bool := if held then none else some true

/-- The speculative buffer with its mutex: `mu` is true while the mutex is held.  The
flush handler is not a field: a buffer is only created by `SetTurnManager`, with the
closure `flushHandler` below. -/
structure ContextBuffer where
  buffer : String
  lastInterim : String
  mu : Bool
  maxBufferSize : Int
  streamID : String
  deriving DecidableEq

def NewContextBuffer (config : ContextBufferOptions) : ContextBuffer :=
  { buffer := ""
    lastInterim := ""
    mu := false
    maxBufferSize := if config.MaxBufferSize ≤ 0 then 10000 else config.MaxBufferSize
    streamID := config.StreamID }

/-- The method `StreamID`: lock, read, unlock. -/
def ContextBuffer.StreamID (cp : ContextBuffer) : Option String :=
  match Lock cp.mu with
  | none => none
  | some _ => some cp.streamID

/-- The method `SetStreamID`. -/
def ContextBuffer.SetStreamID (cp : ContextBuffer) (id : String) : Option ContextBuffer :=
  if id = "" then some cp
  else
    match Lock cp.mu with
    | none => none
    | some _ => some { cp with streamID := id }

/-- The context processor.  `buffer` is `none` for a nil pointer, `turnManager` is true
for a non-nil manager, `mu` is true while the mutex is held. -/
structure ContextProcessor where
  aggConfig : Aggregators.AggregatorConfig
  aggs : GoMap Aggregators.TextAggregator
  basePrompt : String
  injected : GoMap Bool
  global : GoMap (GoMap String)
  globalHash : GoMap String
  DefaultCaption : String
  buffer : Option ContextBuffer
  turnManager : Bool
  mu : Bool
  pendingFlush : List Frame

def NewContextProcessor (cfg : Aggregators.AggregatorConfig) (basePrompt : String) :
    ContextProcessor :=
  { aggConfig := cfg
    aggs := GoMap.empty
    basePrompt := basePrompt
    injected := GoMap.empty
    global := GoMap.empty
    globalHash := GoMap.empty
    DefaultCaption := "User image"
    buffer := none
    turnManager := false
    mu := false
    pendingFlush := [] }

/-- The closure that `SetTurnManager` passes to `NewContextBuffer`; it always returns a
nil error, so the result is the processor, or `none` when it never returns.  `now` is the
reading of the clock. -/
def ContextProcessor.flushHandler (p : ContextProcessor) (content : String) (now : Int) :
    Option ContextProcessor :=
  match Lock p.mu with
  | none => none
  | some held =>
    let p := { p with mu := held }
    if content ≠ "" then
      let streamID : Option String :=
        match p.buffer with
        | some cp => cp.StreamID
        | none => some ""
      match streamID with
      | none => none
      | some streamID =>
        let tf := NewTextFrame streamID now content
          (GoMap.set GoMap.empty Aggregators.MetaIsFinal "true")
        some { p with pendingFlush := p.pendingFlush ++ [tf], mu := false }
    else some { p with mu := false }

/-- The method `SetTurnManager`; `tm` is true for a non-nil manager.  The registration
`tm.AddListener(p.buffer)` changes the manager only. -/
def ContextProcessor.SetTurnManager (p : ContextProcessor) (tm : Bool) :
    Option ContextProcessor :=
  match Lock p.mu with
  | none => none
  | some _ =>
    let p := { p with turnManager := tm }
    let p := if tm then
        { p with buffer := some (NewContextBuffer { MaxBufferSize := 10000, StreamID := "" }) }
      else p
    some { p with mu := false }

/-- The method `flushLocked` of the buffer `p.buffer`, called with the buffer mutex held;
the handler runs on the processor that owns the buffer. -/
def ContextProcessor.flushLocked (p : ContextProcessor) (now : Int) : Option ContextProcessor :=
  match p.buffer with
  | none => some p
  | some cp =>
    let useInterim : Bool := cp.buffer == "" && cp.lastInterim != ""
    let content := if useInterim then cp.lastInterim else cp.buffer
    let cp := if useInterim then { cp with lastInterim := "" } else cp
    if content.utf8ByteSize = 0 then some { p with buffer := some cp }
    else
      match ContextProcessor.flushHandler { p with buffer := some cp } content now with
      | none => none
      | some p => some { p with buffer := p.buffer.map (fun cp => { cp with buffer := "" }) }

/-- The method `Flush` of the buffer `p.buffer`: lock, `flushLocked`, unlock. -/
def ContextProcessor.Flush (p : ContextProcessor) (now : Int) : Option ContextProcessor :=
  match p.buffer with
  | none => some p
  | some cp =>
    match Lock cp.mu with
    | none => none
    | some held =>
      match ContextProcessor.flushLocked { p with buffer := some { cp with mu := held } } now with
      | none => none
      | some p => some { p with buffer := p.buffer.map (fun cp => { cp with mu := false }) }

/-- The method `AddTranscript` of the buffer `p.buffer`. -/
def ContextProcessor.AddTranscript (p : ContextProcessor) (text : String) (isFinal : Bool)
    (now : Int) : Option ContextProcessor :=
  match p.buffer with
  | none => some p
  | some cp =>
    match Lock cp.mu with
    | none => none
    | some held =>
      let cp := { cp with mu := held }
      let r : Option ContextProcessor :=
        if isFinal then
          let cp := { cp with buffer := cp.buffer ++ text ++ " ", lastInterim := "" }
          if (cp.buffer.utf8ByteSize : Int) > cp.maxBufferSize then
            ContextProcessor.flushLocked { p with buffer := some cp } now
          else some { p with buffer := some cp }
        else some { p with buffer := some { cp with lastInterim := text } }
      match r with
      | none => none
      | some p => some { p with buffer := p.buffer.map (fun cp => { cp with mu := false }) }

end Sync

end Processors

namespace Processors

namespace Sync

open Frames

/-- The function `isFinal`. -/
def isFinal (env : Stdlib) (m : MetaMap) : Bool :=
  let v := env.ToLower (GoMap.get m Aggregators.MetaIsFinal)
  v == "true" || v == "1" || v == "yes"

/-- The method `scopeKey`; a nil map reads as `""` at every key. -/
def scopeKey (m : MetaMap) : String :=
  if GoMap.get m MetaCallSID ≠ "" then GoMap.get m MetaCallSID else GoMap.get m MetaStreamID

/-- The method `aggFor`: the processor with the aggregator of the stream in place, the key
under which it is stored (the model of the returned pointer) and the aggregator. -/
def ContextProcessor.aggFor (p : ContextProcessor) (streamID : String) :
    Option (ContextProcessor × String × Aggregators.TextAggregator) :=
  let streamID := if streamID = "" then "default" else streamID
  match Lock p.mu with
  | none => none
  | some _ =>
    match p.aggs streamID with
    | some agg => some (p, streamID, agg)
    | none =>
      let agg := Aggregators.NewTextAggregator p.aggConfig
      some ({ p with aggs := p.aggs.set streamID agg }, streamID, agg)

/-- The statements `agg := p.aggFor(streamID); r, err := agg.Process(f)`; the error is
always nil. -/
def ContextProcessor.aggProcess (env : Stdlib) (p : ContextProcessor) (streamID : String)
    (f : Frame) (now : Int) : Option (ContextProcessor × List Frame) :=
  match p.aggFor streamID with
  | none => none
  | some (p, key, agg) =>
    let r := agg.Process env f now
    some ({ p with aggs := p.aggs.set key r.1 }, r.2)

/-- The method `clearAgg`. -/
def ContextProcessor.clearAgg (p : ContextProcessor) (streamID : String) :
    Option ContextProcessor :=
  if streamID = "" then some p
  else
    match Lock p.mu with
    | none => none
    | some _ => some { p with aggs := p.aggs.delete streamID }

/-- The method `clearScope`. -/
def ContextProcessor.clearScope (p : ContextProcessor) (m : MetaMap) : Option ContextProcessor :=
  let scope := scopeKey m
  if scope = "" then some p
  else
    match Lock p.mu with
    | none => none
    | some _ =>
      some { p with
        injected := p.injected.delete scope
        global := p.global.delete scope
        globalHash := p.globalHash.delete scope }

/-- The method `buildBasePrompt`; `none` is the nil result. -/
def ContextProcessor.buildBasePrompt (p : ContextProcessor) (m : MetaMap) (now : Int) :
    ContextProcessor × Option Frame :=
  if p.basePrompt = "" then (p, none)
  else
    let streamID := GoMap.get m MetaStreamID
    let scope := scopeKey m
    if streamID = "" ∨ scope = "" ∨ (p.injected scope).getD false = true then (p, none)
    else
      let sysMeta := GoMap.set GoMap.empty MetaSystemMessage p.basePrompt
      let sysMeta :=
        if GoMap.get m MetaTraceID ≠ "" then sysMeta.set MetaTraceID (GoMap.get m MetaTraceID)
        else sysMeta
      ({ p with injected := p.injected.set scope true },
        some (NewSystemFrame streamID now "base_prompt" sysMeta))

/-- The method `updateGlobal`.  The loop over the entries of `meta` stores, for every key
`global_` followed by `j` with a non-empty value, that value under `j`. -/
def ContextProcessor.updateGlobal (p : ContextProcessor) (m : MetaMap) : ContextProcessor :=
  let scope := scopeKey m
  if scope = "" then p
  else
    let g := (p.global scope).getD GoMap.empty
    let g : GoMap String := fun j =>
      match m (MetaGlobalPrefix ++ j) with
      | some v => if v ≠ "" then some v else g j
      | none => g j
    let g :=
      if GoMap.get m MetaFromNumber ≠ "" then g.set "customer_id" (GoMap.get m MetaFromNumber)
      else g
    { p with global := p.global.set scope g }

/-- The function `globalHash`. -/
def globalHash (lib : ContextLib) (g : GoMap String) : String :=
  String.intercalate ", " ((lib.sortedKeys g).map (fun k => k ++ "=" ++ GoMap.get g k))

/-- The method `buildGlobalMessage`; `none` is the nil result. -/
def ContextProcessor.buildGlobalMessage (lib : ContextLib) (p : ContextProcessor) (m : MetaMap)
    (now : Int) : ContextProcessor × Option Frame :=
  let streamID := GoMap.get m MetaStreamID
  let scope := scopeKey m
  if streamID = "" ∨ scope = "" then (p, none)
  else
    let g := (p.global scope).getD GoMap.empty
    if (lib.sortedKeys g).length = 0 then (p, none)
    else
      let hash := Sync.globalHash lib g
      if GoMap.get p.globalHash scope = hash then (p, none)
      else
        let sysMeta := GoMap.set GoMap.empty MetaSystemMessage ("Shared context: " ++ hash)
        let sysMeta :=
          if GoMap.get m MetaTraceID ≠ "" then sysMeta.set MetaTraceID (GoMap.get m MetaTraceID)
          else sysMeta
        ({ p with globalHash := p.globalHash.set scope hash },
          some (NewSystemFrame streamID now "global_context" sysMeta))

/-- The two statements that precede every aggregation: the base prompt and the shared
context of the frame's scope, each appended when not nil. -/
def ContextProcessor.wrapContext (lib : ContextLib) (p : ContextProcessor) (m : MetaMap)
    (now : Int) : ContextProcessor × List Frame :=
  let r1 := p.buildBasePrompt m now
  let r2 := r1.1.buildGlobalMessage lib m now
  (r2.1, r1.2.toList ++ r2.2.toList)

/-- The statements run for a Text frame that is aggregated: context wrapping, then the
aggregator of the frame's stream. -/
def ContextProcessor.wrapAndAggregate (env : Stdlib) (lib : ContextLib) (p : ContextProcessor)
    (tf : Frame) (now : Int) : Option (ContextProcessor × List Frame) :=
  let w := p.wrapContext lib tf.Meta now
  match w.1.aggProcess env (GoMap.get tf.Meta MetaStreamID) tf now with
  | none => none
  | some (p, r) => some (p, w.2 ++ r)

/-- The loop of `Process` over the pending flushed frames. -/
def ContextProcessor.processPending (env : Stdlib) (lib : ContextLib) (now : Int) :
    List Frame → ContextProcessor → List Frame → Option (ContextProcessor × List Frame)
  | [], p, out => some (p, out)
  | pf :: rest, p, out =>
    match pf with
    | .text .. =>
      match p.wrapAndAggregate env lib pf now with
      | none => none
      | some (p, r) => ContextProcessor.processPending env lib now rest p (out ++ r)
    | _ => ContextProcessor.processPending env lib now rest p out

/-- The last statements of `Process`, for frames that no branch has returned. -/
def ContextProcessor.passThrough (env : Stdlib) (p : ContextProcessor) (out : List Frame)
    (f : Frame) (now : Int) : Option (ContextProcessor × List Frame) :=
  if GoMap.get f.Meta MetaStreamID = "" then some (p, out ++ [f])
  else
    match p.aggProcess env (GoMap.get f.Meta MetaStreamID) f now with
    | none => none
    | some (p, r) => some (p, out ++ r)

/-- The metadata of the Text frame made from an Image frame. -/
def imageMeta (lib : ContextLib) (data : List Nat) (mime url : String) (m : MetaMap) : MetaMap :=
  if url ≠ "" then m.set MetaImageURL url
  else if data.length > 0 then
    let mime := if mime = "" then lib.DetectContentType data else mime
    if HasPrefix mime "image/" then
      (m.set MetaImageMIME mime).set MetaImageBase64 (lib.EncodeToString data)
    else m.delete MetaImageBase64
  else m

/-- The method `Process`; the returned error is always nil and is left out, and `none`
means that the call never returns.  `now` is the reading of the clock. -/
def ContextProcessor.Process (env : Stdlib) (lib : ContextLib) (p : ContextProcessor)
    (f : Frame) (now : Int) : Option (ContextProcessor × List Frame) :=
  match Lock p.mu with
  | none => none
  | some _ =>
    match ContextProcessor.processPending env lib now p.pendingFlush
        { p with pendingFlush := [] } [] with
    | none => none
    | some (p, out) =>
      match f with
      | .system _ name fmeta =>
        let p := p.updateGlobal fmeta
        let cleared : Option ContextProcessor :=
          if name = "call_end" then
            match p.clearScope fmeta with
            | none => none
            | some p => p.clearAgg (GoMap.get fmeta MetaStreamID)
          else some p
        match cleared with
        | none => none
        | some p =>
          match p.buildBasePrompt fmeta now with
          | (p, some sys) => some (p, out ++ [sys, f])
          | (p, none) =>
            if name = "call_start" then some (p, out ++ [f])
            else p.passThrough env out f now
      | .control _ code fmeta =>
        if code = ControlDTMF ∧ GoMap.get fmeta MetaDTMFDigit ≠ "" then
          let m := (fmeta.set MetaSource "dtmf").set Aggregators.MetaIsFinal "true"
          let tf := NewTextFrame (GoMap.get m MetaStreamID) now
            ("DTMF input: " ++ GoMap.get fmeta MetaDTMFDigit) m
          match p.wrapAndAggregate env lib tf now with
          | none => none
          | some (p, r) => some (p, out ++ r ++ [f])
        else if code = ControlFlush then
          match p.buffer with
          | some _ =>
            match p.Flush now with
            | none => none
            | some p => some (p, out ++ [f])
          | none =>
            match p.aggFor (GoMap.get fmeta MetaStreamID) with
            | none => none
            | some (p, key, agg) =>
              match agg.FlushFrame env with
              | (agg, some tf) =>
                let p := { p with aggs := p.aggs.set key agg }
                let w := p.wrapContext lib tf.Meta now
                some (w.1, out ++ w.2 ++ [tf, f])
              | (_, none) => some (p, out ++ [f])
        else p.passThrough env out f now
      | .text _ ftext fmeta =>
        match p.buffer with
        | some cp =>
          match cp.SetStreamID (GoMap.get fmeta MetaStreamID) with
          | none => none
          | some cp =>
            match ContextProcessor.AddTranscript { p with buffer := some cp } ftext
                (isFinal env fmeta) now with
            | none => none
            | some p => some (p, out)
        | none =>
          if !isFinal env fmeta then some (p, out)
          else
            match p.wrapAndAggregate env lib f now with
            | none => none
            | some (p, r) => some (p, out ++ r)
      | .image _ data mime url fmeta _ =>
        let caption := if GoMap.get fmeta MetaImageCaption = "" then p.DefaultCaption
          else GoMap.get fmeta MetaImageCaption
        let m := imageMeta lib data mime url fmeta
        some (p, out ++ [NewTextFrame (GoMap.get m MetaStreamID) now caption m])
      | .audio .. => p.passThrough env out f now

end Sync

end Processors

namespace Processors

namespace Sync

open Frames

/-- A concrete instance for evaluating examples without images whose global keys are
among `customer_id` and `language`. -/
def sampleContextLib : ContextLib where
  sortedKeys := fun g => ["customer_id", "language"].filter (fun k => (g k).isSome)
  DetectContentType := fun _ => "application/octet-stream"
  EncodeToString := fun _ => ""

/-- The metadata of the frames of call `c1` on stream `s1`. -/
def callMeta : MetaMap := GoMap.ofList [("stream_id", "s1"), ("call_sid", "c1")]

/-- A processor with base prompt `You are helpful`, after `call_start` of call `c1`. -/
def afterCallStart : Option ContextProcessor :=
  ((NewContextProcessor Aggregators.defaultConfig "You are helpful").Process sampleStdlib
    sampleContextLib (.system 1 "call_start" callMeta) 1).map Prod.fst

/-- A processor with a turn manager, after the final transcript `hello` on stream `s1`. -/
def afterFinalTranscript : Option ContextProcessor :=
  ((NewContextProcessor Aggregators.defaultConfig "").SetTurnManager true).bind (fun p =>
    (p.Process sampleStdlib sampleContextLib
      (.text 1 "hello" (GoMap.ofList [("stream_id", "s1"), ("is_final", "true")])) 1).map Prod.fst)

end Sync

end Processors

/-! # Theorems -/

namespace Turn

theorem transitionValid_iff (s t : Int) :
    transitionValid s t = true ↔ (s, t) ∈ allowedGraph := by
  unfold transitionValid validTransitions allowedGraph StateIdle StateListening StateThinking
    StateSpeaking
  by_cases h0 : s = 0
  · subst h0; simp [List.lookup, eq_comm (b := t)]
  by_cases h1 : s = 1
  · subst h1; simp [List.lookup, eq_comm (b := t)]
  by_cases h2 : s = 2
  · subst h2; simp [List.lookup, eq_comm (b := t)]
  by_cases h3 : s = 3
  · subst h3; simp [List.lookup, eq_comm (b := t)]
  · have e0 : (s == 0) = false := by simpa using h0
    have e1 : (s == 1) = false := by simpa using h1
    have e2 : (s == 2) = false := by simpa using h2
    have e3 : (s == 3) = false := by simpa using h3
    simp [List.lookup, e0, e1, e2, e3, h0, h1, h2, h3]

theorem Transition_deliveredOk (tm : stateMachine) (t : State) (reason : String)
    (h : deliveredOk tm) : deliveredOk (tm.Transition t reason).1 := by
  unfold stateMachine.Transition
  by_cases hv : transitionValid tm.currentState t = true
  · simp only [hv, Bool.not_true, Bool.false_eq_true, if_false]
    intro e he
    simp only [List.mem_append, List.mem_map] at he
    rcases he with he | ⟨l, _, rfl⟩
    · exact h e he
    · exact (transitionValid_iff _ _).1 hv
  · simp only [Bool.not_eq_true] at hv
    simpa [hv] using h

theorem step_deliveredOk (m : manager) (c : Call) (h : deliveredOk m.sm) :
    deliveredOk (m.step c).sm := by
  cases c <;>
    simp only [manager.step, manager.OnUserSpeechStart, manager.OnUserSpeechEnd,
      manager.OnUserQuestion, manager.OnAgentThinkStart, manager.OnAgentThinkEnd,
      manager.OnAgentSpeechStart, manager.OnAgentSpeechEnd, manager.OnAudioComplete,
      manager.OnSTTInput, manager.AddListener, manager.setState,
      stateMachine.OnAudioComplete, stateMachine.OnSTTInput, stateMachine.AddListener]
  all_goals first
    | exact h
    | exact Transition_deliveredOk _ _ _ h
    | (split_ifs <;> first
        | exact h
        | exact Transition_deliveredOk _ _ _ h
        | exact Transition_deliveredOk _ _ _ (Transition_deliveredOk _ _ _ h))

theorem run_deliveredOk (calls : List Call) (m : manager) (h : deliveredOk m.sm) :
    deliveredOk (m.run calls).sm := by
  induction calls generalizing m with
  | nil => exact h
  | cons c cs ih => exact ih (m.step c) (step_deliveredOk m c h)

/-- C1: starting from a fresh turn manager, after any finite sequence of manager calls
(listeners may be registered at any point), every state change delivered to a listener
is an edge of the allowed graph; in particular none is Speaking to Thinking. -/
theorem manager_delivers_only_allowed_transitions (strategy : Option Bool) (emitter : Bool)
    (opts : ManagerOptions) (calls : List Call) :
    ∀ e ∈ ((NewManagerWithOptions strategy emitter opts).run calls).sm.delivered,
      (e.2.FromState, e.2.ToState) ∈ allowedGraph ∧
        ¬ (e.2.FromState = StateSpeaking ∧ e.2.ToState = StateThinking) := by
  intro e he
  have hok := run_deliveredOk calls (NewManagerWithOptions strategy emitter opts)
    (by intro e he; simp [NewManagerWithOptions, newStateMachine] at he) e he
  refine ⟨hok, ?_⟩
  rintro ⟨hf, ht⟩
  rw [hf, ht] at hok
  revert hok
  decide

theorem manager_delivers_only_allowed_transitions_witness :
    ((7 : Nat), StateChange.mk StateListening StateThinking "manager state change") ∈
      ((NewManagerWithOptions none false { BargeInThreshold := 0, MinBargeIn := 0 }).run
        [Call.AddListener 7, Call.OnUserSpeechStart, Call.OnUserSpeechEnd]).sm.delivered ∧
    ((StateListening, StateThinking) ∈ allowedGraph ∧
      ¬ (StateListening = StateSpeaking ∧ StateThinking = StateThinking)) :=
  ⟨by decide,
   manager_delivers_only_allowed_transitions none false
     { BargeInThreshold := 0, MinBargeIn := 0 }
     [Call.AddListener 7, Call.OnUserSpeechStart, Call.OnUserSpeechEnd]
     (7, StateChange.mk StateListening StateThinking "manager state change") (by decide)⟩

/-- C2: `Transition` succeeds exactly on the eight edges of the graph.  On an edge it
returns no error, makes the target the current state and calls every registered
listener once, in order, with the event (from, to, reason); on any other pair (a
self-loop included) it returns `InvalidTransitionError` carrying both states and leaves
the machine, its listener log included, untouched. -/
theorem Transition_spec (tm : stateMachine) (t : State) (reason : String) :
    tm.Transition t reason =
      if (tm.currentState, t) ∈ allowedGraph then
        ({ tm with
            currentState := t,
            delivered := tm.delivered ++ tm.stateChangeListeners.map (fun l =>
              (l, StateChange.mk tm.currentState t reason)) },
          none)
      else (tm, some (InvalidTransitionError.mk tm.currentState t)) := by
  unfold stateMachine.Transition
  by_cases hv : transitionValid tm.currentState t = true
  · have hg := (transitionValid_iff _ _).1 hv
    simp [hv, hg]
  · have hg : (tm.currentState, t) ∉ allowedGraph := fun hg => hv ((transitionValid_iff _ _).2 hg)
    simp only [Bool.not_eq_true] at hv
    simp [hv, hg]

end Turn

namespace Processors

theorem utf8ByteSize_eq_zero_iff (s : String) : s.utf8ByteSize = 0 ↔ s = "" := by
  obtain ⟨cs⟩ := s
  rw [String.utf8ByteSize_mk, String.utf8Len_eq_zero]
  constructor
  · intro h; rw [h]
  · intro h; exact congrArg String.data h

theorem utf8ByteSize_append (s t : String) :
    (s ++ t).utf8ByteSize = s.utf8ByteSize + t.utf8ByteSize := by
  obtain ⟨cs⟩ := s
  obtain ⟨ct⟩ := t
  show String.utf8ByteSize ⟨cs ++ ct⟩ = _
  simp

/-- With a handler that succeeds, `flushLocked` hands over the buffered final text if
there is any, else the pending interim if there is one, else nothing. -/
theorem flushLocked_of_success (cp : ContextBuffer) (handler : String → Bool)
    (hh : cp.flushHandler = some handler) (hs : ∀ c, handler c = true) :
    cp.flushLocked =
      if cp.buffer = "" then
        (if cp.lastInterim = "" then cp
         else { cp with lastInterim := "", handlerCalls := cp.handlerCalls ++ [cp.lastInterim] })
      else { cp with buffer := "", handlerCalls := cp.handlerCalls ++ [cp.buffer] } := by
  obtain ⟨b, li, mx, sid, fh, hc⟩ := cp
  simp only at hh
  subst hh
  unfold ContextBuffer.flushLocked
  by_cases hb : b = ""
  · by_cases hl : li = ""
    · subst hb; subst hl
      have hz : "".utf8ByteSize = 0 := rfl
      simp [hz]
    · subst hb
      have hz : ¬ li.utf8ByteSize = 0 := fun h => hl ((utf8ByteSize_eq_zero_iff _).1 h)
      simp [hl, hz, hs]
  · have hz : ¬ b.utf8ByteSize = 0 := fun h => hb ((utf8ByteSize_eq_zero_iff _).1 h)
    simp [hb, hz, hs]

theorem addAll_snoc (cp : ContextBuffer) (adds : List (String × Bool)) (a : String × Bool) :
    cp.addAll (adds ++ [a]) = (cp.addAll adds).AddTranscript a.1 a.2 := by
  simp [ContextBuffer.addAll, List.foldl_append]

theorem totalSize_snoc (adds : List (String × Bool)) (a : String × Bool) :
    totalSize (adds ++ [a]) = totalSize adds + (if a.2 then a.1.utf8ByteSize + 1 else 0) := by
  obtain ⟨t, f⟩ := a
  cases f <;> simp [totalSize, List.filter_append]

theorem hasFinal_snoc (adds : List (String × Bool)) (a : String × Bool) :
    hasFinal (adds ++ [a]) = (hasFinal adds || a.2) := by
  simp [hasFinal]

theorem pendingInterim_snoc (adds : List (String × Bool)) (a : String × Bool) :
    pendingInterim (adds ++ [a]) = if a.2 then "" else a.1 := by
  obtain ⟨t, f⟩ := a
  cases f <;> simp [pendingInterim]

/-- State reached by a sequence of `AddTranscript` calls on a fresh buffer when the
appended bytes stay within the overflow limit: nothing was flushed, the buffer holds
exactly the appended bytes, and the pending interim is that of the last call. -/
theorem addAll_fresh (config : ContextBufferOptions) (handler : String → Bool)
    (adds : List (String × Bool))
    (hsize : (totalSize adds : Int) ≤ (NewContextBuffer config (some handler)).maxBufferSize) :
    ((NewContextBuffer config (some handler)).addAll adds).buffer.utf8ByteSize = totalSize adds ∧
    ((NewContextBuffer config (some handler)).addAll adds).lastInterim = pendingInterim adds ∧
    ((NewContextBuffer config (some handler)).addAll adds).handlerCalls = [] ∧
    ((NewContextBuffer config (some handler)).addAll adds).flushHandler = some handler ∧
    ((NewContextBuffer config (some handler)).addAll adds).maxBufferSize =
      (NewContextBuffer config (some handler)).maxBufferSize ∧
    (((NewContextBuffer config (some handler)).addAll adds).buffer = "" ↔
      hasFinal adds = false) := by
  induction adds using List.reverseRecOn with
  | nil =>
    simp [ContextBuffer.addAll, NewContextBuffer, totalSize, pendingInterim, hasFinal]
    rfl
  | append_singleton l a ih =>
    have hl : (totalSize l : Int) ≤ (NewContextBuffer config (some handler)).maxBufferSize := by
      rw [totalSize_snoc] at hsize
      push_cast at hsize
      have : (0 : Int) ≤ ((if a.2 = true then a.1.utf8ByteSize + 1 else 0 : Nat) : Int) :=
        Int.ofNat_nonneg _
      omega
    obtain ⟨h1, h2, h3, h4, h5, h6⟩ := ih hl
    rw [addAll_snoc, totalSize_snoc, pendingInterim_snoc, hasFinal_snoc]
    obtain ⟨t, f⟩ := a
    cases f
    · simp [ContextBuffer.AddTranscript, h1, h3, h4, h5, h6]
    · have hsz : ((((NewContextBuffer config (some handler)).addAll l).buffer ++ t ++ " ").utf8ByteSize
          : Int) ≤ ((NewContextBuffer config (some handler)).addAll l).maxBufferSize := by
        rw [utf8ByteSize_append, utf8ByteSize_append, h1, h5]
        rw [totalSize_snoc] at hsize
        have hsp : " ".utf8ByteSize = 1 := rfl
        simp only [if_true] at hsize
        rw [hsp]
        push_cast at hsize ⊢
        omega
      have hne : ((NewContextBuffer config (some handler)).addAll l).buffer ++ t ++ " " ≠ "" := by
        intro h
        have := congrArg String.utf8ByteSize h
        rw [utf8ByteSize_append] at this
        have hsp : " ".utf8ByteSize = 1 := rfl
        have he : "".utf8ByteSize = 0 := rfl
        omega
      simp only [ContextBuffer.AddTranscript, if_true]
      rw [if_neg (not_lt.mpr hsz)]
      simp [utf8ByteSize_append, h1, h3, h4, h5, hne]
      rfl

/-- C3 (counterexample): a final text followed by a non-empty interim, well within the
overflow limit, then two `Flush` calls with a handler that always succeeds.  The first
flush hands over the final text and the second hands over the interim, so the second
flush invokes the handler once instead of zero times. -/
theorem flush_twice_invokes_handler_twice :
    (totalSize [("hello", true), ("wor", false)] : Int) <
        (NewContextBuffer ⟨0, ""⟩ (some (fun _ => true))).maxBufferSize ∧
      (((NewContextBuffer ⟨0, ""⟩ (some (fun _ => true))).addAll
          [("hello", true), ("wor", false)]).handlerCalls = []) ∧
      (((NewContextBuffer ⟨0, ""⟩ (some (fun _ => true))).addAll
          [("hello", true), ("wor", false)]).Flush.handlerCalls = ["hello "]) ∧
      (((NewContextBuffer ⟨0, ""⟩ (some (fun _ => true))).addAll
          [("hello", true), ("wor", false)]).Flush.Flush.handlerCalls = ["hello ", "wor"]) ∧
      invocations
        ((NewContextBuffer ⟨0, ""⟩ (some (fun _ => true))).addAll
          [("hello", true), ("wor", false)]).Flush
        ((NewContextBuffer ⟨0, ""⟩ (some (fun _ => true))).addAll
          [("hello", true), ("wor", false)]).Flush.Flush = 1 := by
  decide

/-- C3 (amended): after any sequence of `AddTranscript` calls on a fresh buffer whose
appended bytes stay within the overflow limit, with a handler that succeeds: the first
`Flush` invokes the handler exactly once when some final text was added or the last call
left a non-empty interim, and not at all otherwise; the second `Flush` invokes it zero
times unless final text was added and a non-empty interim is pending, in which case it
invokes it once more; a third `Flush` never invokes it. -/
theorem flush_twice_amended (config : ContextBufferOptions) (handler : String → Bool)
    (adds : List (String × Bool)) (hs : ∀ c, handler c = true)
    (hsize : (totalSize adds : Int) ≤ (NewContextBuffer config (some handler)).maxBufferSize) :
    invocations ((NewContextBuffer config (some handler)).addAll adds)
        ((NewContextBuffer config (some handler)).addAll adds).Flush =
      (if hasFinal adds = true ∨ pendingInterim adds ≠ "" then 1 else 0) ∧
    invocations ((NewContextBuffer config (some handler)).addAll adds).Flush
        ((NewContextBuffer config (some handler)).addAll adds).Flush.Flush =
      (if hasFinal adds = true ∧ pendingInterim adds ≠ "" then 1 else 0) ∧
    invocations ((NewContextBuffer config (some handler)).addAll adds).Flush.Flush
        ((NewContextBuffer config (some handler)).addAll adds).Flush.Flush.Flush = 0 := by
  obtain ⟨_, h2, h3, h4, _, h6⟩ := addAll_fresh config handler adds hsize
  generalize (NewContextBuffer config (some handler)).addAll adds = cb at h2 h3 h4 h6
  obtain ⟨b, li, mx, sid, fh, hc⟩ := cb
  simp only at h2 h3 h4 h6
  subst h2 h3 h4
  have hF : ∀ c : ContextBuffer, c.flushHandler = some handler → c.Flush = _ :=
    fun c hc => flushLocked_of_success c handler hc hs
  by_cases hb : b = ""
  · have hf : hasFinal adds = false := h6.1 hb
    subst hb
    by_cases hl : pendingInterim adds = ""
    · simp [invocations, hF, hf, hl]
    · simp [invocations, hF, hf, hl]
  · have hf : hasFinal adds = true := by
      cases h : hasFinal adds
      · exact absurd (h6.2 h) hb
      · rfl
    by_cases hl : pendingInterim adds = ""
    · simp [invocations, hF, hf, hl, hb]
    · simp [invocations, hF, hf, hl, hb]

theorem flush_twice_amended_witness :
    (∀ c : String, (fun _ : String => true) c = true) ∧
    (totalSize [("hello", true)] : Int) ≤
      (NewContextBuffer ⟨0, ""⟩ (some (fun _ => true))).maxBufferSize ∧
    (invocations ((NewContextBuffer ⟨0, ""⟩ (some (fun _ => true))).addAll [("hello", true)])
        ((NewContextBuffer ⟨0, ""⟩ (some (fun _ => true))).addAll [("hello", true)]).Flush =
      (if hasFinal [("hello", true)] = true ∨ pendingInterim [("hello", true)] ≠ "" then 1
        else 0) ∧
    invocations ((NewContextBuffer ⟨0, ""⟩ (some (fun _ => true))).addAll [("hello", true)]).Flush
        ((NewContextBuffer ⟨0, ""⟩ (some (fun _ => true))).addAll [("hello", true)]).Flush.Flush =
      (if hasFinal [("hello", true)] = true ∧ pendingInterim [("hello", true)] ≠ "" then 1
        else 0) ∧
    invocations
        ((NewContextBuffer ⟨0, ""⟩ (some (fun _ => true))).addAll [("hello", true)]).Flush.Flush
        ((NewContextBuffer ⟨0, ""⟩ (some (fun _ => true))).addAll
          [("hello", true)]).Flush.Flush.Flush = 0) :=
  ⟨fun _ => rfl, by decide,
    flush_twice_amended ⟨0, ""⟩ (fun _ => true) [("hello", true)] (fun _ => rfl) (by decide)⟩

/-- C4 (counterexample): a final text, then an interim, then a `Flush`, with a handler
that succeeds.  No transcript has been added since that flush, yet the Listening to
Thinking event makes `OnStateChange` invoke the handler, with the interim that was
already pending before the flush. -/
theorem onStateChange_flushes_stale_interim :
    addedSinceLastFlush [.add "a" true, .add "b" false, .flush] = [] ∧
    ((NewContextBuffer ⟨0, ""⟩ (some (fun _ => true))).applyAll
      [.add "a" true, .add "b" false, .flush]).handlerCalls = ["a "] ∧
    (((NewContextBuffer ⟨0, ""⟩ (some (fun _ => true))).applyAll
      [.add "a" true, .add "b" false, .flush]).OnStateChange
        ⟨Turn.StateListening, Turn.StateThinking, "manager state change"⟩).handlerCalls =
      ["a ", "b"] := by
  decide

/-- C4 (amended): with a handler that succeeds, adding an interim text never invokes the
handler; `OnStateChange` invokes it exactly when the event is Listening to Thinking and
the buffer holds pending content (the final text buffered since the last successful
flush or, when there is none, the last interim, which may predate that flush), and then
once, with that pending content; for every other pair of states the handler is not
invoked and the buffer is left as it was. -/
theorem onStateChange_flushes_pending (cp : ContextBuffer) (handler : String → Bool)
    (hh : cp.flushHandler = some handler) (hs : ∀ c, handler c = true)
    (event : Turn.StateChange) (text : String) :
    (cp.AddTranscript text false).handlerCalls = cp.handlerCalls ∧
    (cp.OnStateChange event).handlerCalls =
      (if event.FromState = Turn.StateListening ∧ event.ToState = Turn.StateThinking ∧
          cp.pendingContent ≠ "" then cp.handlerCalls ++ [cp.pendingContent]
        else cp.handlerCalls) ∧
    (¬ (event.FromState = Turn.StateListening ∧ event.ToState = Turn.StateThinking) →
      cp.OnStateChange event = cp) := by
  refine ⟨by simp [ContextBuffer.AddTranscript], ?_, ?_⟩
  · unfold ContextBuffer.OnStateChange ContextBuffer.Flush ContextBuffer.pendingContent
    rw [flushLocked_of_success cp handler hh hs]
    by_cases he : event.FromState = Turn.StateListening ∧ event.ToState = Turn.StateThinking
    · by_cases hb : cp.buffer = ""
      · by_cases hl : cp.lastInterim = ""
        · simp [he, hb, hl]
        · simp [he, hb, hl]
      · simp [he, hb]
    · have he2 : ¬ (event.FromState = Turn.StateListening ∧
          event.ToState = Turn.StateThinking ∧
          ¬ (if cp.buffer = "" then cp.lastInterim else cp.buffer) = "") :=
        fun h => he ⟨h.1, h.2.1⟩
      rw [if_neg he, if_neg he2]
  · intro he
    simp [ContextBuffer.OnStateChange, he]

theorem onStateChange_flushes_pending_witness :
    ((NewContextBuffer ⟨0, ""⟩ (some (fun _ => true))).AddTranscript "hi" true).flushHandler =
      some (fun _ => true) ∧
    (∀ c : String, (fun _ : String => true) c = true) ∧
    ((((NewContextBuffer ⟨0, ""⟩ (some (fun _ => true))).AddTranscript "hi" true).AddTranscript
        "there" false).handlerCalls =
      ((NewContextBuffer ⟨0, ""⟩ (some (fun _ => true))).AddTranscript "hi" true).handlerCalls ∧
    (((NewContextBuffer ⟨0, ""⟩ (some (fun _ => true))).AddTranscript "hi" true).OnStateChange
        ⟨Turn.StateListening, Turn.StateThinking, "manager state change"⟩).handlerCalls =
      (if (Turn.StateChange.mk Turn.StateListening Turn.StateThinking
            "manager state change").FromState = Turn.StateListening ∧
          (Turn.StateChange.mk Turn.StateListening Turn.StateThinking
            "manager state change").ToState = Turn.StateThinking ∧
          ((NewContextBuffer ⟨0, ""⟩ (some (fun _ => true))).AddTranscript "hi"
            true).pendingContent ≠ "" then
        ((NewContextBuffer ⟨0, ""⟩ (some (fun _ => true))).AddTranscript "hi" true).handlerCalls ++
          [((NewContextBuffer ⟨0, ""⟩ (some (fun _ => true))).AddTranscript "hi"
            true).pendingContent]
        else
          ((NewContextBuffer ⟨0, ""⟩ (some (fun _ => true))).AddTranscript "hi"
            true).handlerCalls) ∧
    (¬ ((Turn.StateChange.mk Turn.StateListening Turn.StateThinking
            "manager state change").FromState = Turn.StateListening ∧
          (Turn.StateChange.mk Turn.StateListening Turn.StateThinking
            "manager state change").ToState = Turn.StateThinking) →
      ((NewContextBuffer ⟨0, ""⟩ (some (fun _ => true))).AddTranscript "hi" true).OnStateChange
        ⟨Turn.StateListening, Turn.StateThinking, "manager state change"⟩ =
      (NewContextBuffer ⟨0, ""⟩ (some (fun _ => true))).AddTranscript "hi" true)) :=
  ⟨rfl, fun _ => rfl,
    onStateChange_flushes_pending
      ((NewContextBuffer ⟨0, ""⟩ (some (fun _ => true))).AddTranscript "hi" true)
      (fun _ => true) rfl (fun _ => rfl)
      ⟨Turn.StateListening, Turn.StateThinking, "manager state change"⟩ "there"⟩

end Processors

namespace Processors

open Frames LLM

theorem nonSystemIndices_lt (env : Stdlib) (messages : List Message) :
    ∀ i ∈ nonSystemIndices env messages, i < messages.length := by
  intro i hi
  simp only [nonSystemIndices, List.mem_map, List.mem_filter] at hi
  obtain ⟨⟨j, m⟩, ⟨hmem, _⟩, rfl⟩ := hi
  have := List.mk_mem_enum_iff_getElem?.1 hmem
  exact (List.getElem?_eq_some_iff.1 this).1

/-- The loop of `pruneByTokens` returns within one more iteration than there are
messages. -/
theorem pruneByTokensLoop_isSome (env : Stdlib) (fuel : Nat) (messages : List Message)
    (maxTokens : Int) (h : messages.length < fuel) :
    (pruneByTokensLoop env fuel messages maxTokens).isSome = true := by
  induction fuel generalizing messages with
  | zero => omega
  | succ n ih =>
    unfold pruneByTokensLoop
    by_cases ht : (estimateMessagesTokens messages : Int) ≤ maxTokens
    · simp [ht]
    · simp only [ht, if_false]
      cases hn : nonSystemIndices env messages with
      | nil => simp
      | cons dropIdx rest =>
        simp only
        apply ih
        have hlt : dropIdx < messages.length :=
          nonSystemIndices_lt env messages dropIdx (by rw [hn]; simp)
        rw [List.length_eraseIdx, if_pos hlt]
        omega

theorem sameControl_refl (p : LLMProcessor) : p.sameControl p := by
  simp [LLMProcessor.sameControl]

theorem sameControl_trans {p q r : LLMProcessor} (h1 : p.sameControl q) (h2 : q.sameControl r) :
    p.sameControl r := by
  obtain ⟨a1, a2, a3, a4, a5, a6, a7, a8, a9, a10, a11, a12⟩ := h1
  obtain ⟨b1, b2, b3, b4, b5, b6, b7, b8, b9, b10, b11, b12⟩ := h2
  exact ⟨b1.trans a1, b2.trans a2, b3.trans a3, b4.trans a4, b5.trans a5, b6.trans a6,
    b7.trans a7, b8.trans a8, b9.trans a9, b10.trans a10, b11.trans a11, b12.trans a12⟩

theorem setLanguageFromMeta_same (p : LLMProcessor) (meta : MetaMap) :
    p.sameControl (p.setLanguageFromMeta meta) := by
  unfold LLMProcessor.setLanguageFromMeta
  simp only []
  split_ifs <;> simp [LLMProcessor.sameControl]

theorem setCallSIDFromMeta_same (p : LLMProcessor) (meta : MetaMap) :
    p.sameControl (p.setCallSIDFromMeta meta) := by
  unfold LLMProcessor.setCallSIDFromMeta
  split_ifs <;> simp [LLMProcessor.sameControl]

theorem ensureMessagesLocked_same (env : Stdlib) (p : LLMProcessor) (scope : String) :
    p.sameControl (p.ensureMessagesLocked env scope).2 := by
  unfold LLMProcessor.ensureMessagesLocked
  simp only []
  split <;> simp [LLMProcessor.sameControl]

theorem appendMessages_same (env : Stdlib) (p : LLMProcessor) (scope : String)
    (extra : List Message) : p.sameControl (p.appendMessages env scope extra).2 := by
  have h := ensureMessagesLocked_same env p scope
  unfold LLMProcessor.appendMessages
  exact sameControl_trans h (by simp [LLMProcessor.sameControl])

theorem appendAssistant_same (env : Stdlib) (p : LLMProcessor) (scope text : String) :
    p.sameControl (p.appendAssistant env scope text) := by
  unfold LLMProcessor.appendAssistant
  split_ifs
  · exact sameControl_refl p
  · exact appendMessages_same env p scope _

theorem appendSystem_same (env : Stdlib) (p : LLMProcessor) (scope text : String) :
    p.sameControl (p.appendSystem env scope text) := by
  unfold LLMProcessor.appendSystem
  split_ifs
  · exact sameControl_refl p
  · exact appendMessages_same env p scope _

theorem popLastMessage_same (env : Stdlib) (p : LLMProcessor) (scope : String) :
    p.sameControl (p.popLastMessage env scope) := by
  have h := ensureMessagesLocked_same env p scope
  unfold LLMProcessor.popLastMessage
  simp only []
  split_ifs
  · exact h
  · exact sameControl_trans h (by simp [LLMProcessor.sameControl])

theorem ensureAgentLocked_same (env : Stdlib) (p : LLMProcessor) (agent scope : String) :
    p.sameControl (p.ensureAgentLocked env agent scope) := by
  unfold LLMProcessor.ensureAgentLocked
  simp only []
  split_ifs
  · exact sameControl_refl p
  · exact sameControl_refl p
  · have h := ensureMessagesLocked_same env p (scopeKeyOrDefault env scope)
    split
    · exact h
    · split_ifs
      · exact h
      · exact sameControl_trans h (by simp [LLMProcessor.sameControl])

theorem contextWithUserParts_same (env : Stdlib) (p : LLMProcessor)
    (text imageURL imageBase64 imageMIME agent scope : String) :
    p.sameControl (p.contextWithUserParts env text imageURL imageBase64 imageMIME agent scope).2 := by
  unfold LLMProcessor.contextWithUserParts LLMProcessor.contextWithUserWithAgent
  by_cases h : imageURL = "" ∧ imageBase64 = ""
  · rw [if_pos h]
    exact sameControl_trans (ensureAgentLocked_same env p agent scope)
      (appendMessages_same env _ scope _)
  · rw [if_neg h]
    exact sameControl_trans (ensureAgentLocked_same env p agent scope)
      (appendMessages_same env _ scope _)

theorem resolveAgent_same (p : LLMProcessor) (meta : MetaMap) (streamID : String) :
    p.sameControl (p.resolveAgent meta streamID).2 := by
  unfold LLMProcessor.resolveAgent
  simp only []
  split_ifs <;> simp [LLMProcessor.sameControl]

theorem contextSnapshot_same (env : Stdlib) (p : LLMProcessor) (scope : String) :
    p.sameControl (p.contextSnapshot env scope).2 :=
  ensureMessagesLocked_same env p scope

theorem userTurn_same (env : Stdlib) (p : LLMProcessor) (text : String) (meta : MetaMap) :
    p.sameControl (p.userTurn env text meta).2.2 := by
  unfold LLMProcessor.userTurn
  exact sameControl_trans
    (sameControl_trans (setLanguageFromMeta_same p meta) (setCallSIDFromMeta_same _ meta))
    (sameControl_trans (resolveAgent_same _ meta _) (contextWithUserParts_same env _ _ _ _ _ _ _))

theorem adapterFor_of_same {p q : LLMProcessor} (h : p.sameControl q) (agent : String) :
    q.adapterFor agent = p.adapterFor agent := by
  unfold LLMProcessor.adapterFor
  rw [h.1, h.2.1]

theorem adapterFor_isSome (p : LLMProcessor) (agent : String) (a : LLMAdapter)
    (h : p.adapter = some a) : ∃ b, p.adapterFor agent = some b := by
  unfold LLMProcessor.adapterFor
  cases p.agents agent with
  | none => exact ⟨a, h⟩
  | some cfg =>
    cases hc : cfg.Adapter with
    | none => exact ⟨a, by simp [h, hc]⟩
    | some b => exact ⟨b, by simp [hc]⟩

theorem handlePendingConfirmation_none (env : Stdlib) (p : LLMProcessor) (streamID text : String)
    (now : Int) (h : p.pendingConfirms streamID = none) :
    p.handlePendingConfirmation env streamID text now = none := by
  unfold LLMProcessor.handlePendingConfirmation
  simp [h]

theorem prelude_pendingConfirms (p : LLMProcessor) (meta : MetaMap) :
    ((p.setLanguageFromMeta meta).setCallSIDFromMeta meta).pendingConfirms = p.pendingConfirms :=
  (sameControl_trans (setLanguageFromMeta_same p meta) (setCallSIDFromMeta_same _ meta)).2.2.2.2.1

/-- Shape of the frames returned for a Text frame that no pending confirmation consumes. -/
theorem processText_shape (env : Stdlib) (p : LLMProcessor) (a : LLMAdapter) (text : String)
    (meta : MetaMap) (now : Int) (hA : p.adapter = some a)
    (hpend : p.pendingConfirms (meta.get MetaStreamID) = none) :
    ∃ res rest, p.processText env text meta now = some res ∧ res.err = none ∧
      res.out = NewControlFrame (meta.get MetaStreamID) now ControlStartInterruption meta :: rest := by
  unfold LLMProcessor.processText
  have h0 := handlePendingConfirmation_none env
    ((p.setLanguageFromMeta meta).setCallSIDFromMeta meta) (meta.get MetaStreamID) text now
    (by rw [prelude_pendingConfirms]; exact hpend)
  simp only [h0]
  have hs := userTurn_same env p text meta
  obtain ⟨b, hb⟩ := adapterFor_isSome p (p.userTurn env text meta).1 a hA
  rw [← adapterFor_of_same hs] at hb
  simp only [hb]
  cases hg : b.Generate (p.userTurn env text meta).2.1 with
  | error e => exact ⟨_, _, rfl, rfl, rfl⟩
  | ok resp =>
    simp only []
    by_cases hh : resp.HandoffAgent ≠ ""
    · by_cases ht : resp.ToolCalls.length > 0
      · simp only [if_pos hh, if_pos ht]
        exact ⟨_, _, rfl, rfl, rfl⟩
      · simp only [if_pos hh, if_neg ht]
        cases hst : b.Stream (p.userTurn env text meta).2.1 with
        | error e => exact ⟨_, _, rfl, rfl, rfl⟩
        | ok tokens => exact ⟨_, _, rfl, rfl, rfl⟩
    · by_cases ht : resp.ToolCalls.length > 0
      · simp only [if_neg hh, if_pos ht]
        exact ⟨_, _, rfl, rfl, rfl⟩
      · simp only [if_neg hh, if_neg ht]
        cases hst : b.Stream (p.userTurn env text meta).2.1 with
        | error e => exact ⟨_, _, rfl, rfl, rfl⟩
        | ok tokens => exact ⟨_, _, rfl, rfl, rfl⟩

/-- C5: for every Text frame processed while no tool confirmation is pending for its
stream, on a processor with a non-nil adapter and whatever `Generate` and `Stream`
answer, `Process` returns (with a nil error) a list whose first frame is the
`StartInterruption` control frame of the stream; hence every Text frame with source
`llm` in the list is preceded by a `StartInterruption` control frame. -/
theorem process_text_interruption_first (env : Stdlib) (p : LLMProcessor) (a : LLMAdapter)
    (pts : Int) (text : String) (meta : MetaMap) (now : Int) (hA : p.adapter = some a)
    (hpend : p.pendingConfirms (meta.get MetaStreamID) = none) :
    ∃ res rest, p.Process env (.text pts text meta) now = some res ∧ res.err = none ∧
      res.out = NewControlFrame (meta.get MetaStreamID) now ControlStartInterruption meta :: rest ∧
      (NewControlFrame (meta.get MetaStreamID) now ControlStartInterruption meta).isControl
        ControlStartInterruption = true ∧
      ∀ (i : Nat) (f : Frame), res.out[i]? = some f → f.isLLMText = true →
        ∃ (j : Nat) (g : Frame),
          j < i ∧ res.out[j]? = some g ∧ g.isControl ControlStartInterruption = true := by
  obtain ⟨res, rest, h1, h2, h3⟩ := processText_shape env p a text meta now hA hpend
  have hc : (NewControlFrame (meta.get MetaStreamID) now ControlStartInterruption meta).isControl
      ControlStartInterruption = true := by
    simp [NewControlFrame, Frame.isControl]
  refine ⟨res, rest, h1, h2, h3, hc, ?_⟩
  intro i f hi hf
  cases i with
  | zero =>
    rw [h3] at hi
    simp only [List.getElem?_cons_zero, Option.some.injEq] at hi
    rw [← hi] at hf
    simp [NewControlFrame, Frame.isLLMText] at hf
  | succ n =>
    exact ⟨0, _, Nat.succ_pos n, by rw [h3]; simp, hc⟩

theorem process_text_interruption_first_witness :
    exampleProcessor.adapter = some exampleAdapter ∧
    exampleProcessor.pendingConfirms (exampleMeta.get MetaStreamID) = none ∧
    ∃ res rest, exampleProcessor.Process sampleStdlib (.text 0 "Schedule a visit" exampleMeta) 1 =
        some res ∧ res.err = none ∧
      res.out = NewControlFrame (exampleMeta.get MetaStreamID) 1 ControlStartInterruption
        exampleMeta :: rest ∧
      (NewControlFrame (exampleMeta.get MetaStreamID) 1 ControlStartInterruption
        exampleMeta).isControl ControlStartInterruption = true ∧
      ∀ (i : Nat) (f : Frame), res.out[i]? = some f → f.isLLMText = true →
        ∃ (j : Nat) (g : Frame),
          j < i ∧ res.out[j]? = some g ∧ g.isControl ControlStartInterruption = true :=
  ⟨rfl, rfl,
    process_text_interruption_first sampleStdlib exampleProcessor exampleAdapter 0
      "Schedule a visit" exampleMeta 1 rfl rfl⟩

theorem GoMap.set_apply {V : Type} (m : GoMap V) (k : String) (v : V) (j : String) :
    (m.set k v) j = if j = k then some v else m j := rfl

theorem GoMap.get_set_self (m : GoMap String) (k v : String) : (m.set k v).get k = v := by
  simp [GoMap.get, GoMap.set]

theorem GoMap.get_set_other (m : GoMap String) (k v j : String) (h : j ≠ k) :
    (m.set k v).get j = m.get j := by
  simp [GoMap.get, GoMap.set, h]

theorem applyLanguageMeta_get_other (p : LLMProcessor) (m : MetaMap) (streamID k : String)
    (h : k ≠ MetaLanguage) : (p.applyLanguageMeta m streamID).get k = m.get k := by
  unfold LLMProcessor.applyLanguageMeta
  split_ifs <;> first | rfl | exact GoMap.get_set_other _ _ _ _ h

theorem copyCallAndTrace_get_other (meta m : MetaMap) (k : String) (h1 : k ≠ MetaCallSID)
    (h2 : k ≠ MetaTraceID) : (copyCallAndTrace meta m).get k = m.get k := by
  unfold copyCallAndTrace
  simp only []
  split_ifs <;> simp [GoMap.get_set_other, h1, h2]

theorem mergeMeta_get_other (streamID : String) (m : MetaMap) (k : String)
    (h : k ≠ MetaStreamID) : (mergeMeta streamID m).get k = m.get k := by
  unfold mergeMeta GoMap.get
  cases hm : m k <;> simp [hm, h]

theorem confirmPromptFrame_greeting (env : Stdlib) (p : LLMProcessor) (streamID : String)
    (meta : MetaMap) (tool : Tool) (now : Int) :
    (p.confirmPromptFrame env streamID meta tool now).isSystem "tool_confirm_prompt" = true ∧
    (p.confirmPromptFrame env streamID meta tool now).Meta.get MetaGreetingText =
      confirmPromptFromTool env tool (languageFromMeta env meta) := by
  unfold LLMProcessor.confirmPromptFrame NewSystemFrame
  refine ⟨by simp [Frame.isSystem], ?_⟩
  simp only [Frame.Meta]
  rw [mergeMeta_get_other _ _ _ (by decide), applyLanguageMeta_get_other _ _ _ _ (by decide)]
  split_ifs
  · rw [GoMap.get_set_other _ _ _ _ (by decide),
      copyCallAndTrace_get_other _ _ _ (by decide) (by decide), GoMap.get_set_self]
  · rw [copyCallAndTrace_get_other _ _ _ (by decide) (by decide), GoMap.get_set_self]

theorem requiresConfirmation_of_same {p q : LLMProcessor} (h : q.toolIndex = p.toolIndex) :
    q.requiresConfirmation = p.requiresConfirmation := by
  funext c
  simp [LLMProcessor.requiresConfirmation, LLMProcessor.toolForName, h]

/-- C7: a Text frame processed while no confirmation is pending for its stream, the adapter
selected for the resolved agent answering `Generate` with a response that contains a tool
call whose registered tool requires confirmation.  Then `Process` returns no `ToolCall`
control frame, returns a System frame `tool_confirm_prompt` whose `greeting_text` is the
confirmation prompt of the tool, and, when the stream id is non-empty, records for that
stream a pending confirmation holding the call (the first call of the response whose tool
requires confirmation) and the same prompt.  The prompt is the tool's
`ConfirmationPromptByLanguage` entry for the language of the frame when that is not
empty, else the tool's `ConfirmationPrompt` when that is not empty, else the default
question in English or Indonesian. -/
theorem process_text_parks_confirmed_tool (env : Stdlib) (p : LLMProcessor)
    (adapter : LLMAdapter) (resp : Response) (pts : Int) (text : String) (meta : MetaMap)
    (now : Int)
    (hpend : p.pendingConfirms (meta.get MetaStreamID) = none)
    (hA : p.adapterFor (p.userTurn env text meta).1 = some adapter)
    (hG : adapter.Generate (p.userTurn env text meta).2.1 = .ok resp)
    (hex : ∃ c ∈ resp.ToolCalls, p.requiresConfirmation c = true) :
    ∃ res call tool prompt, p.Process env (.text pts text meta) now = some res ∧
      resp.ToolCalls.find? p.requiresConfirmation = some call ∧
      p.toolIndex call.Name = some tool ∧ tool.RequiresConfirmation = true ∧
      (tool.ConfirmationPromptByLanguage.get (languageFromMeta env meta) ≠ "" →
        prompt = tool.ConfirmationPromptByLanguage.get (languageFromMeta env meta)) ∧
      (tool.ConfirmationPromptByLanguage.get (languageFromMeta env meta) = "" →
        tool.ConfirmationPrompt ≠ "" → prompt = tool.ConfirmationPrompt) ∧
      (tool.ConfirmationPromptByLanguage.get (languageFromMeta env meta) = "" →
        tool.ConfirmationPrompt = "" →
        prompt = if HasPrefix (env.ToLower (env.TrimSpace (languageFromMeta env meta))) "en"
          then "Before I proceed, do you want me to continue?"
          else "Sebelum saya lanjut, apakah boleh saya teruskan?") ∧
      (∀ f ∈ res.out, f.isControl ControlToolCall = false) ∧
      (∃ f ∈ res.out, f.isSystem "tool_confirm_prompt" = true ∧
        f.Meta.get MetaGreetingText = prompt) ∧
      ((res.out.filter (fun f => f.isSystem "tool_confirm_prompt")).map
        (fun f => f.Meta.get MetaGreetingText) = [prompt]) ∧
      (meta.get MetaStreamID ≠ "" →
        ∃ pc, res.p.pendingConfirms (meta.get MetaStreamID) = some pc ∧ pc.call = call ∧
          pc.prompt = prompt) := by
  obtain ⟨c, hc, hcr⟩ := hex
  have hs := userTurn_same env p text meta
  have hfind : ∃ call, resp.ToolCalls.find? p.requiresConfirmation = some call := by
    cases hf : resp.ToolCalls.find? p.requiresConfirmation with
    | none =>
      rw [List.find?_eq_none] at hf
      exact absurd hcr (hf c hc)
    | some call => exact ⟨call, rfl⟩
  obtain ⟨call, hcall⟩ := hfind
  have hreq : p.requiresConfirmation call = true := List.find?_some hcall
  have htool : ∃ tool, p.toolIndex call.Name = some tool ∧ tool.RequiresConfirmation = true := by
    unfold LLMProcessor.requiresConfirmation LLMProcessor.toolForName at hreq
    cases ht : p.toolIndex call.Name with
    | none => simp [ht] at hreq
    | some tool => exact ⟨tool, rfl, by simpa [ht] using hreq⟩
  obtain ⟨tool, htool, htreq⟩ := htool
  have hlen : resp.ToolCalls.length > 0 := List.length_pos_of_mem hc
  have h0 := handlePendingConfirmation_none env
    ((p.setLanguageFromMeta meta).setCallSIDFromMeta meta) (meta.get MetaStreamID) text now
    (by rw [prelude_pendingConfirms]; exact hpend)
  have hA2 : (p.userTurn env text meta).2.2.adapterFor (p.userTurn env text meta).1 =
      some adapter := by rw [adapterFor_of_same hs]; exact hA
  have hti : (p.userTurn env text meta).2.2.toolIndex = p.toolIndex := hs.2.2.2.1
  have hpc : (p.userTurn env text meta).2.2.pendingConfirms = p.pendingConfirms := hs.2.2.2.2.1
  have key : ∃ (out0 : List Frame) (p2 : LLMProcessor),
      (∀ f ∈ out0, f.isControl ControlToolCall = false ∧
        f.isSystem "tool_confirm_prompt" = false) ∧
      p2.pendingConfirms = p.pendingConfirms ∧
      p.processText env text meta now = some
        { out := out0 ++ [(p2.storePendingConfirm env (meta.get MetaStreamID) call meta
            tool).confirmPromptFrame env (meta.get MetaStreamID) meta tool now]
          err := none
          p := p2.storePendingConfirm env (meta.get MetaStreamID) call meta tool } := by
    refine ⟨if resp.HandoffAgent ≠ "" then
        [NewControlFrame (meta.get MetaStreamID) now ControlStartInterruption meta] ++
          [NewControlFrame (meta.get MetaStreamID) now ControlHandoff
            (((GoMap.empty.set MetaStreamID (meta.get MetaStreamID)).set MetaHandoffAgent
              resp.HandoffAgent).set MetaAgent (p.userTurn env text meta).1)]
        else [NewControlFrame (meta.get MetaStreamID) now ControlStartInterruption meta],
      { (p.userTurn env text meta).2.2 with
        adapterCalls := (p.userTurn env text meta).2.2.adapterCalls ++
          [AdapterCall.generate (p.userTurn env text meta).2.1] }, ?_, hpc, ?_⟩
    · intro f hf
      split_ifs at hf
      · simp only [List.cons_append, List.nil_append, List.mem_cons, List.mem_singleton,
          List.not_mem_nil, or_false] at hf
        rcases hf with rfl | rfl <;> simp [NewControlFrame, Frame.isControl, ControlToolCall,
          ControlStartInterruption, ControlHandoff, Frame.isSystem]
      · simp only [List.mem_singleton] at hf
        subst hf
        simp [NewControlFrame, Frame.isControl, ControlToolCall, ControlStartInterruption,
          Frame.isSystem]
    · unfold LLMProcessor.processText
      simp only [h0, hA2, hG, if_pos hlen]
      unfold LLMProcessor.handleToolCallsWithConfirmation
      rw [requiresConfirmation_of_same (p := p) (by exact hti)]
      simp only [hcall, LLMProcessor.toolForName, hti, htool]
  obtain ⟨out0, p2, hout0, hp2, hproc⟩ := key
  refine ⟨_, call, tool, confirmPromptFromTool env tool (languageFromMeta env meta), hproc, hcall,
    htool, htreq, ?_, ?_, ?_, ?_, ?_, ?_, ?_⟩
  · intro h
    unfold confirmPromptFromTool
    rw [if_pos h]
  · intro h1 h2
    unfold confirmPromptFromTool
    rw [if_neg (not_not.mpr h1), if_pos h2]
  · intro h1 h2
    unfold confirmPromptFromTool
    rw [if_neg (not_not.mpr h1), if_neg (not_not.mpr h2)]
    rfl
  · intro f hf
    simp only [List.mem_append, List.mem_singleton] at hf
    rcases hf with hf | rfl
    · exact (hout0 f hf).1
    · simp [LLMProcessor.confirmPromptFrame, NewSystemFrame, Frame.isControl]
  · exact ⟨(p2.storePendingConfirm env (meta.get MetaStreamID) call meta tool).confirmPromptFrame
      env (meta.get MetaStreamID) meta tool now, by simp,
      confirmPromptFrame_greeting env _ _ meta tool now⟩
  · have hnone : out0.filter (fun f => f.isSystem "tool_confirm_prompt") = [] := by
      rw [List.filter_eq_nil_iff]
      intro f hf
      simp [(hout0 f hf).2]
    have hg := confirmPromptFrame_greeting env
      (p2.storePendingConfirm env (meta.get MetaStreamID) call meta tool)
      (meta.get MetaStreamID) meta tool now
    simp only [List.filter_append, hnone, List.nil_append, List.filter_cons, hg.1, if_true,
      List.filter_nil, List.map_cons, List.map_nil, hg.2]
  · intro hsid
    refine ⟨pendingToolConfirm.mk call meta
      (confirmPromptFromTool env tool (languageFromMeta env meta)), ?_, rfl, rfl⟩
    simp [LLMProcessor.storePendingConfirm, hsid, GoMap.set]

theorem process_text_parks_confirmed_tool_witness :
    exampleProcessor.pendingConfirms (exampleMeta.get MetaStreamID) = none ∧
    exampleProcessor.adapterFor
      (exampleProcessor.userTurn sampleStdlib "Schedule a visit" exampleMeta).1 =
        some exampleAdapter ∧
    exampleAdapter.Generate
      (exampleProcessor.userTurn sampleStdlib "Schedule a visit" exampleMeta).2.1 =
        .ok { Text := "mock response", ToolCalls := [exampleCall], HandoffAgent := "" } ∧
    (∃ c ∈ [exampleCall], exampleProcessor.requiresConfirmation c = true) ∧
    ((exampleProcessor.Process sampleStdlib (.text 0 "Schedule a visit" exampleMeta) 1).map
      (fun res => (res.out.map (fun f => (describe f, f.Meta.get MetaGreetingText)),
        (res.p.pendingConfirms "stream-1").map (fun pc => (pc.call, pc.prompt)))) =
      some ([("control:start_interruption", ""), ("system:tool_confirm_prompt",
        "Confirm schedule?")], some (exampleCall, "Confirm schedule?"))) ∧
    ∃ res call tool prompt,
      exampleProcessor.Process sampleStdlib (.text 0 "Schedule a visit" exampleMeta) 1 =
        some res ∧
      [exampleCall].find? exampleProcessor.requiresConfirmation = some call ∧
      exampleProcessor.toolIndex call.Name = some tool ∧ tool.RequiresConfirmation = true ∧
      (tool.ConfirmationPromptByLanguage.get (languageFromMeta sampleStdlib exampleMeta) ≠ "" →
        prompt =
          tool.ConfirmationPromptByLanguage.get (languageFromMeta sampleStdlib exampleMeta)) ∧
      (tool.ConfirmationPromptByLanguage.get (languageFromMeta sampleStdlib exampleMeta) = "" →
        tool.ConfirmationPrompt ≠ "" → prompt = tool.ConfirmationPrompt) ∧
      (tool.ConfirmationPromptByLanguage.get (languageFromMeta sampleStdlib exampleMeta) = "" →
        tool.ConfirmationPrompt = "" →
        prompt = if HasPrefix (sampleStdlib.ToLower (sampleStdlib.TrimSpace
            (languageFromMeta sampleStdlib exampleMeta))) "en"
          then "Before I proceed, do you want me to continue?"
          else "Sebelum saya lanjut, apakah boleh saya teruskan?") ∧
      (∀ f ∈ res.out, f.isControl ControlToolCall = false) ∧
      (∃ f ∈ res.out, f.isSystem "tool_confirm_prompt" = true ∧
        f.Meta.get MetaGreetingText = prompt) ∧
      ((res.out.filter (fun f => f.isSystem "tool_confirm_prompt")).map
        (fun f => f.Meta.get MetaGreetingText) = [prompt]) ∧
      (exampleMeta.get MetaStreamID ≠ "" →
        ∃ pc, res.p.pendingConfirms (exampleMeta.get MetaStreamID) = some pc ∧ pc.call = call ∧
          pc.prompt = prompt) :=
  ⟨rfl, rfl, rfl, ⟨exampleCall, by simp, by decide⟩, by decide,
    process_text_parks_confirmed_tool sampleStdlib exampleProcessor exampleAdapter
      { Text := "mock response", ToolCalls := [exampleCall], HandoffAgent := "" } 0
      "Schedule a visit" exampleMeta 1 rfl rfl rfl ⟨exampleCall, by simp, by decide⟩⟩

theorem normalizeConfirmMode_cases (env : Stdlib) (mode : String) :
    normalizeConfirmMode env mode = "llm" ∨ normalizeConfirmMode env mode = "keywords" ∨
      normalizeConfirmMode env mode = "hybrid" := by
  unfold normalizeConfirmMode
  simp only []
  split_ifs <;> simp

theorem GoMap.get_ite_set (c : Prop) [Decidable c] (m : GoMap String) (k v j : String)
    (h : j ≠ k) : (if c then m.set k v else m).get j = m.get j := by
  split_ifs
  · exact GoMap.get_set_other m k v j h
  · rfl

/-- Keys written by `toolCallMeta` after the four leading ones do not disturb them. -/
theorem toolCallMeta_get_base (env : Stdlib) (p : LLMProcessor) (streamID : String)
    (call : ToolCall) (meta : MetaMap) (k : String) (h1 : k ≠ MetaToolRequiresConfirm)
    (h2 : k ≠ MetaToolConfirmPrompt) (h3 : k ≠ MetaCallSID) (h4 : k ≠ MetaTraceID)
    (h5 : k ≠ MetaLanguage) (h6 : k ≠ MetaAgent) :
    (p.toolCallMeta env streamID call meta).get k =
      ((((GoMap.empty.set MetaStreamID streamID).set MetaToolCallID call.ID).set
        MetaToolName call.Name).set MetaToolArgs (env.jsonMarshal call.Arguments)).get k := by
  unfold LLMProcessor.toolCallMeta
  simp only []
  rw [GoMap.get_ite_set _ _ _ _ _ h6, GoMap.get_ite_set _ _ _ _ _ h5,
    copyCallAndTrace_get_other _ _ _ h3 h4]
  cases p.toolIndex call.Name with
  | none => rfl
  | some tool =>
    simp only []
    by_cases hr : tool.RequiresConfirmation = true
    · rw [if_pos hr, GoMap.get_ite_set _ _ _ _ _ h2, GoMap.get_set_other _ _ _ _ h1]
    · rw [if_neg hr]

theorem toolCallMeta_get (env : Stdlib) (p : LLMProcessor) (streamID : String) (call : ToolCall)
    (meta : MetaMap) :
    (p.toolCallMeta env streamID call meta).get MetaToolCallID = call.ID ∧
    (p.toolCallMeta env streamID call meta).get MetaToolName = call.Name ∧
    (p.toolCallMeta env streamID call meta).get MetaToolArgs = env.jsonMarshal call.Arguments := by
  refine ⟨?_, ?_, ?_⟩
  · rw [toolCallMeta_get_base env p streamID call meta _ (by decide) (by decide) (by decide)
      (by decide) (by decide) (by decide),
      GoMap.get_set_other _ _ _ _ (by decide), GoMap.get_set_other _ _ _ _ (by decide),
      GoMap.get_set_self]
  · rw [toolCallMeta_get_base env p streamID call meta _ (by decide) (by decide) (by decide)
      (by decide) (by decide) (by decide),
      GoMap.get_set_other _ _ _ _ (by decide), GoMap.get_set_self]
  · rw [toolCallMeta_get_base env p streamID call meta _ (by decide) (by decide) (by decide)
      (by decide) (by decide) (by decide), GoMap.get_set_self]

theorem handlePendingConfirmation_accept (env : Stdlib) (q : LLMProcessor)
    (pending : pendingToolConfirm) (streamID text : String) (now : Int)
    (hp : q.pendingConfirms streamID = some pending)
    (hmode : normalizeConfirmMode env q.confirmMode ≠ "llm")
    (hacc : confirmationIntent env text = (true, false)) :
    q.handlePendingConfirmation env streamID text now =
      some (q.confirmAccepted env streamID pending now) := by
  unfold LLMProcessor.handlePendingConfirmation
  rcases normalizeConfirmMode_cases env q.confirmMode with h | h | h
  · exact absurd h hmode
  · simp [hp, h, hacc]
  · simp [hp, h, hacc]

/-- C8 (counterexample): in confirmation mode `llm` the keyword rules are not consulted.
A first Text frame leaves `exampleCall` pending; the reply `yes`, which the keyword rules
classify as accept, makes `Process` call the adapter's `Generate` (the classifier
request), and as the adapter answers `no` the result is a single
`tool_confirm_cancelled` frame instead of the tool call. -/
theorem llm_mode_ignores_keyword_accept :
    confirmationIntent sampleStdlib "yes" = (true, false) ∧
    ((llmModeProcessor.Process sampleStdlib (.text 0 "Schedule a visit" exampleMeta) 1).bind
      (fun r1 => (r1.p.pendingConfirms "stream-1").map (fun pc => pc.call))) =
        some exampleCall ∧
    ((llmModeProcessor.Process sampleStdlib (.text 0 "Schedule a visit" exampleMeta) 1).bind
      (fun r1 => (r1.p.Process sampleStdlib (.text 0 "yes" exampleMeta) 2).map
        (fun r2 => (r2.out.map describe,
          (r2.p.adapterCalls.drop r1.p.adapterCalls.length).map AdapterCall.isGenerate)))) =
        some (["system:tool_confirm_cancelled"], [true]) := by
  decide

/-- What the accept branch of `handlePendingConfirmation` produces. -/
theorem confirmAccepted_spec (env : Stdlib) (q : LLMProcessor) (streamID : String)
    (pending : pendingToolConfirm) (now : Int) :
    ∃ m tm : MetaMap,
      (q.confirmAccepted env streamID pending now).1 =
        [NewSystemFrame streamID now "thinking_start" m,
         NewControlFrame streamID now ControlToolCall tm,
         NewSystemFrame streamID now "thinking_end" m] ∧
      tm.get MetaToolCallID = pending.call.ID ∧ tm.get MetaToolName = pending.call.Name ∧
      tm.get MetaToolArgs = env.jsonMarshal pending.call.Arguments ∧
      (q.confirmAccepted env streamID pending now).2.pendingConfirms streamID = none ∧
      (q.confirmAccepted env streamID pending now).2.adapterCalls = q.adapterCalls := by
  obtain ⟨h1, h2, h3⟩ := toolCallMeta_get env
    { q with pendingConfirms := q.pendingConfirms.delete streamID } streamID pending.call
    (LLMProcessor.applyLanguageMeta
      { q with pendingConfirms := q.pendingConfirms.delete streamID }
      (pending.meta.set MetaStreamID streamID) streamID)
  refine ⟨LLMProcessor.applyLanguageMeta
      { q with pendingConfirms := q.pendingConfirms.delete streamID }
      (pending.meta.set MetaStreamID streamID) streamID, _, ?_, h1, h2, h3, ?_, ?_⟩
  · simp only [LLMProcessor.confirmAccepted, LLMProcessor.emitToolCalls, List.foldl_cons,
      List.foldl_nil, List.nil_append, List.cons_append]
  · simp [LLMProcessor.confirmAccepted, LLMProcessor.emitToolCalls, GoMap.delete]
  · simp only [LLMProcessor.confirmAccepted, LLMProcessor.emitToolCalls, List.foldl_cons,
      List.foldl_nil]

/-- C8 (amended): a confirmation is pending for the stream of a Text frame, the
confirmation mode is hybrid or keywords (not llm), and the keyword rules classify the
text as accept.  Then `Process` returns, with a nil error, exactly three frames: System
`thinking_start`, Control `ToolCall` carrying the pending call's id, name and encoded
arguments, and System `thinking_end`; the pending confirmation of the stream is removed
and no adapter call is made. -/
theorem process_text_accepts_pending_tool (env : Stdlib) (p : LLMProcessor)
    (pending : pendingToolConfirm) (pts : Int) (text : String) (meta : MetaMap) (now : Int)
    (hp : p.pendingConfirms (meta.get MetaStreamID) = some pending)
    (hmode : normalizeConfirmMode env p.confirmMode ≠ "llm")
    (hacc : confirmationIntent env text = (true, false)) :
    ∃ (res : ProcessResult) (f1 f2 f3 : Frame),
      p.Process env (.text pts text meta) now = some res ∧ res.err = none ∧
      res.out = [f1, f2, f3] ∧
      f1.isSystem "thinking_start" = true ∧ f2.isControl ControlToolCall = true ∧
      f3.isSystem "thinking_end" = true ∧
      f2.Meta.get MetaToolCallID = pending.call.ID ∧
      f2.Meta.get MetaToolName = pending.call.Name ∧
      f2.Meta.get MetaToolArgs = env.jsonMarshal pending.call.Arguments ∧
      res.p.pendingConfirms (meta.get MetaStreamID) = none ∧
      res.p.adapterCalls = p.adapterCalls := by
  have hs := sameControl_trans (setLanguageFromMeta_same p meta)
    (setCallSIDFromMeta_same (p.setLanguageFromMeta meta) meta)
  have hacc' := handlePendingConfirmation_accept env
    ((p.setLanguageFromMeta meta).setCallSIDFromMeta meta) pending (meta.get MetaStreamID) text
    now (by rw [hs.2.2.2.2.1]; exact hp) (by rw [hs.2.2.2.2.2.2.2.1]; exact hmode) hacc
  have hproc : p.processText env text meta now = some
      { out := (((p.setLanguageFromMeta meta).setCallSIDFromMeta meta).confirmAccepted env
          (meta.get MetaStreamID) pending now).1
        err := none
        p := (((p.setLanguageFromMeta meta).setCallSIDFromMeta meta).confirmAccepted env
          (meta.get MetaStreamID) pending now).2 } := by
    unfold LLMProcessor.processText
    simp only [hacc']
  obtain ⟨m, tm, ho, h1, h2, h3, h4, h5⟩ := confirmAccepted_spec env
    ((p.setLanguageFromMeta meta).setCallSIDFromMeta meta) (meta.get MetaStreamID) pending now
  refine ⟨_, NewSystemFrame (meta.get MetaStreamID) now "thinking_start" m,
    NewControlFrame (meta.get MetaStreamID) now ControlToolCall tm,
    NewSystemFrame (meta.get MetaStreamID) now "thinking_end" m, hproc, rfl, ho, ?_, ?_, ?_,
    ?_, ?_, ?_, h4, ?_⟩
  · simp [NewSystemFrame, Frame.isSystem]
  · simp [NewControlFrame, Frame.isControl]
  · simp [NewSystemFrame, Frame.isSystem]
  · simp only [NewControlFrame, Frame.Meta]
    rw [mergeMeta_get_other _ _ _ (by decide)]
    exact h1
  · simp only [NewControlFrame, Frame.Meta]
    rw [mergeMeta_get_other _ _ _ (by decide)]
    exact h2
  · simp only [NewControlFrame, Frame.Meta]
    rw [mergeMeta_get_other _ _ _ (by decide)]
    exact h3
  · exact h5.trans hs.2.2.2.2.2.2.1

theorem process_text_accepts_pending_tool_witness :
    pendingProcessor.pendingConfirms (exampleMeta.get MetaStreamID) = some examplePending ∧
    normalizeConfirmMode sampleStdlib pendingProcessor.confirmMode ≠ "llm" ∧
    confirmationIntent sampleStdlib "yes" = (true, false) ∧
    ∃ (res : ProcessResult) (f1 f2 f3 : Frame),
      pendingProcessor.Process sampleStdlib (.text 0 "yes" exampleMeta) 2 = some res ∧
      res.err = none ∧ res.out = [f1, f2, f3] ∧
      f1.isSystem "thinking_start" = true ∧ f2.isControl ControlToolCall = true ∧
      f3.isSystem "thinking_end" = true ∧
      f2.Meta.get MetaToolCallID = examplePending.call.ID ∧
      f2.Meta.get MetaToolName = examplePending.call.Name ∧
      f2.Meta.get MetaToolArgs = sampleStdlib.jsonMarshal examplePending.call.Arguments ∧
      res.p.pendingConfirms (exampleMeta.get MetaStreamID) = none ∧
      res.p.adapterCalls = pendingProcessor.adapterCalls :=
  ⟨rfl, by decide, by decide,
    process_text_accepts_pending_tool sampleStdlib pendingProcessor examplePending 0 "yes"
      exampleMeta 2 rfl (by decide) (by decide)⟩

/-- C6 (counterexample): a `tool_result` frame whose call id was never emitted is not
ignored.  On a fresh processor `Process` appends the assistant tool-calls message, the
tool message and the streamed answer to the history of the scope, calls `Stream` once,
and returns an `llm` Text frame before the input frame.  Likewise a second `tool_result`
for a call that the first one already resolved is processed again. -/
theorem unknown_tool_result_is_processed :
    exampleProcessor.pendingTools "unknown-1" = none ∧
    exampleProcessor.messagesByScope "stream:stream-1" = none ∧
    (exampleProcessor.Process sampleStdlib (.system 0 "tool_result" unknownResultMeta) 1).map
      (fun r => (r.out.map describe, r.out.map Frame.isLLMText,
        r.p.adapterCalls.map AdapterCall.isGenerate, r.p.messagesByScope "stream:stream-1")) =
      some (["text", "system:tool_result"], [true, false], [false],
        some [assistantToolCallsMessage "unknown-1" { ID := "", Name := "", Arguments := [] },
          toolMessage "unknown-1" "42", assistantMessage "mock response"]) ∧
    ((exampleProcessor.emitToolCalls sampleStdlib "stream-1" [exampleCall] exampleMeta 0).2.Process
        sampleStdlib (.system 0 "tool_result" knownResultMeta) 1).bind
      (fun r1 => (r1.p.Process sampleStdlib (.system 0 "tool_result" knownResultMeta) 2).map
        (fun r2 => (r1.p.pendingTools "tool-1" == none, r2.out.map Frame.isLLMText,
          (r2.p.adapterCalls.drop r1.p.adapterCalls.length).map AdapterCall.isGenerate,
          ((r2.p.messagesByScope "stream:stream-1").getD []).length))) =
      some (true, [true, false], [false], 6) := by
  decide

theorem noteToolStatus_same (env : Stdlib) (p : LLMProcessor) (meta : MetaMap) :
    p.sameControl (p.noteToolStatus env meta) := by
  unfold LLMProcessor.noteToolStatus
  simp only []
  split_ifs
  · exact sameControl_trans (setLanguageFromMeta_same p meta) (appendSystem_same env _ _ _)
  · exact setLanguageFromMeta_same p meta

theorem toolResultTurn_props (env : Stdlib) (q : LLMProcessor) (meta : MetaMap) :
    (q.toolResultTurn env meta).2.adapter = q.adapter ∧
    (q.toolResultTurn env meta).2.agents = q.agents ∧
    (q.toolResultTurn env meta).2.adapterCalls = q.adapterCalls ∧
    (q.toolResultTurn env meta).2.pendingTools (meta.get MetaToolCallID) = none := by
  unfold LLMProcessor.toolResultTurn
  simp only []
  have hq2 : ∃ q2 : LLMProcessor,
      (if (q.pendingTools (meta.get MetaToolCallID)).isSome = true then
        { q with pendingTools := q.pendingTools.delete (meta.get MetaToolCallID) } else q) = q2 ∧
      q2.adapter = q.adapter ∧ q2.agents = q.agents ∧ q2.adapterCalls = q.adapterCalls ∧
      q2.pendingTools (meta.get MetaToolCallID) = none := by
    cases hc : q.pendingTools (meta.get MetaToolCallID) with
    | none => exact ⟨q, by simp, rfl, rfl, rfl, hc⟩
    | some c =>
      exact ⟨{ q with pendingTools := q.pendingTools.delete (meta.get MetaToolCallID) },
        by simp, rfl, rfl, rfl, by simp [GoMap.delete]⟩
  obtain ⟨q2, hq2, h1, h2, h3, h4⟩ := hq2
  rw [hq2]
  have hs := sameControl_trans
    (appendMessages_same env q2 (scopeKey env meta (meta.get MetaStreamID))
      [assistantToolCallsMessage (meta.get MetaToolCallID)
          ((q.pendingTools (meta.get MetaToolCallID)).getD { ID := "", Name := "", Arguments := [] }),
        toolMessage (meta.get MetaToolCallID) (meta.get MetaToolResult)])
    (resolveAgent_same _ meta (meta.get MetaStreamID))
  exact ⟨hs.1.trans h1, hs.2.1.trans h2, hs.2.2.2.2.2.2.1.trans h3, by
    rw [hs.2.2.2.2.2.1]; exact h4⟩

/-- What `applyToolResult` does for a frame with a call id and a result, pending or not. -/
theorem applyToolResult_streams (env : Stdlib) (q : LLMProcessor) (a : LLMAdapter) (pts : Int)
    (meta : MetaMap) (now : Int) (hA : q.adapter = some a)
    (h1 : meta.get MetaToolCallID ≠ "") (h2 : meta.get MetaToolResult ≠ "") :
    ∃ (frames : List Frame) (q1 : LLMProcessor) (ctx : Context),
      q.applyToolResult env pts meta now = some (frames, q1) ∧ frames ≠ [] ∧
      q1.adapterCalls = q.adapterCalls ++ [AdapterCall.stream ctx] ∧
      q1.pendingTools (meta.get MetaToolCallID) = none := by
  unfold LLMProcessor.applyToolResult
  simp only []
  rw [if_neg (by simp [h1, h2])]
  have hn := noteToolStatus_same env q meta
  obtain ⟨t1, t2, t3, t4⟩ := toolResultTurn_props env (q.noteToolStatus env meta) meta
  have hadp : ((q.noteToolStatus env meta).toolResultTurn env meta).2.adapter = some a := by
    rw [t1, hn.1]; exact hA
  obtain ⟨b, hb⟩ := adapterFor_isSome _ ((q.noteToolStatus env meta).toolResultTurn env meta).1
    a hadp
  simp only [hb]
  have hc := contextSnapshot_same env ((q.noteToolStatus env meta).toolResultTurn env meta).2
    (scopeKey env meta (meta.get MetaStreamID))
  clear hb
  have hcalls : (((q.noteToolStatus env meta).toolResultTurn env meta).2.contextSnapshot env
      (scopeKey env meta (meta.get MetaStreamID))).2.adapterCalls = q.adapterCalls := by
    rw [hc.2.2.2.2.2.2.1, t3, hn.2.2.2.2.2.2.1]
  have hpt : (((q.noteToolStatus env meta).toolResultTurn env meta).2.contextSnapshot env
      (scopeKey env meta (meta.get MetaStreamID))).2.pendingTools (meta.get MetaToolCallID) =
      none := by
    rw [hc.2.2.2.2.2.1]; exact t4
  generalize ((q.noteToolStatus env meta).toolResultTurn env meta).2.contextSnapshot env
      (scopeKey env meta (meta.get MetaStreamID)) = rc at hcalls hpt
  cases hst : b.Stream rc.1 with
  | error e =>
    refine ⟨_, _, rc.1, rfl, by simp, ?_, hpt⟩
    simp only [hcalls]
  | ok tokens =>
    simp only []
    refine ⟨_, _, rc.1, rfl, ?_, ?_, ?_⟩
    · simp [LLMProcessor.streamToFrames]
    · rw [(appendAssistant_same env _ _ _).2.2.2.2.2.2.1]
      simp only [hcalls]
    · rw [(appendAssistant_same env _ _ _).2.2.2.2.2.1]
      exact hpt

theorem setLanguageFromMeta_messages (p : LLMProcessor) (meta : MetaMap) :
    (p.setLanguageFromMeta meta).messagesByScope = p.messagesByScope := by
  unfold LLMProcessor.setLanguageFromMeta
  simp only []
  split_ifs <;> rfl

/-- C6 (amended): a System `tool_result` frame is processed whether or not its
`tool_call_id` is pending.  On a processor with a non-nil adapter: when the frame carries
a non-empty `tool_call_id` and `tool_result`, `Process` calls the adapter's `Stream`
exactly once, returns at least one frame followed by the input frame, and the id is not
pending afterwards; the frame is ignored (no adapter call, only the input frame returned,
and the history untouched when it carries no system message and no failure status) only
when its `tool_call_id` or its `tool_result` is empty. -/
theorem tool_result_processed_regardless (env : Stdlib) (p : LLMProcessor) (a : LLMAdapter)
    (pts : Int) (meta : MetaMap) (now : Int) (hA : p.adapter = some a) :
    (meta.get MetaToolCallID = "" ∨ meta.get MetaToolResult = "" →
      ∃ res, p.Process env (.system pts "tool_result" meta) now = some res ∧ res.err = none ∧
        res.out = [.system pts "tool_result" meta] ∧ res.p.adapterCalls = p.adapterCalls ∧
        (meta.get MetaSystemMessage = "" →
          ¬ (env.ToLower (meta.get MetaToolStatus) ≠ "" ∧
              env.ToLower (meta.get MetaToolStatus) ≠ "ok") →
          res.p.messagesByScope = p.messagesByScope)) ∧
    (meta.get MetaToolCallID ≠ "" → meta.get MetaToolResult ≠ "" →
      ∃ (res : ProcessResult) (frames : List Frame) (ctx : Context),
        p.Process env (.system pts "tool_result" meta) now = some res ∧ res.err = none ∧
        res.out = frames ++ [.system pts "tool_result" meta] ∧ frames ≠ [] ∧
        res.p.adapterCalls = p.adapterCalls ++ [AdapterCall.stream ctx] ∧
        res.p.pendingTools (meta.get MetaToolCallID) = none) := by
  have hne : ¬ ("tool_result" = "call_end") := by decide
  have hq0 : p.sameControl
      ((if meta.get MetaSystemMessage ≠ "" then
          p.appendSystem env (scopeKey env meta (meta.get MetaStreamID))
            (meta.get MetaSystemMessage)
        else p).setLanguageFromMeta meta) := by
    refine sameControl_trans ?_ (setLanguageFromMeta_same _ meta)
    split_ifs
    · exact appendSystem_same env p _ _
    · exact sameControl_refl p
  constructor
  · intro hor
    refine ⟨ProcessResult.mk ([] ++ [.system pts "tool_result" meta]) none
      (((if meta.get MetaSystemMessage ≠ "" then
            p.appendSystem env (scopeKey env meta (meta.get MetaStreamID))
              (meta.get MetaSystemMessage)
          else p).setLanguageFromMeta meta).noteToolStatus env meta), ?_, rfl, ?_, ?_, ?_⟩
    · show p.processSystem env (.system pts "tool_result" meta) pts "tool_result" meta now = _
      unfold LLMProcessor.processSystem LLMProcessor.applyToolResult
      simp only [if_neg hne, if_pos hor, if_true]
    · simp
    · exact (sameControl_trans hq0 (noteToolStatus_same env _ meta)).2.2.2.2.2.2.1
    · intro hsys hst
      simp only [ne_eq, hsys, not_true_eq_false, if_false]
      unfold LLMProcessor.noteToolStatus
      simp only [if_neg hst, setLanguageFromMeta_messages]
  · intro h1 h2
    obtain ⟨frames, q1, ctx, happ, hfr, hcalls, hpt⟩ := applyToolResult_streams env
      ((if meta.get MetaSystemMessage ≠ "" then
          p.appendSystem env (scopeKey env meta (meta.get MetaStreamID))
            (meta.get MetaSystemMessage)
        else p).setLanguageFromMeta meta) a pts meta now (by rw [hq0.1]; exact hA) h1 h2
    refine ⟨{ out := frames ++ [.system pts "tool_result" meta], err := none, p := q1 }, frames,
      ctx, ?_, rfl, rfl, hfr, ?_, hpt⟩
    · show p.processSystem env (.system pts "tool_result" meta) pts "tool_result" meta now = _
      unfold LLMProcessor.processSystem
      simp only [if_neg hne, if_true, happ]
    · simp only [hcalls, hq0.2.2.2.2.2.2.1]

theorem tool_result_processed_regardless_witness :
    exampleProcessor.adapter = some exampleAdapter ∧
    ((unknownResultMeta.get MetaToolCallID = "" ∨ unknownResultMeta.get MetaToolResult = "" →
      ∃ res, exampleProcessor.Process sampleStdlib (.system 0 "tool_result" unknownResultMeta) 1 =
          some res ∧ res.err = none ∧
        res.out = [.system 0 "tool_result" unknownResultMeta] ∧
        res.p.adapterCalls = exampleProcessor.adapterCalls ∧
        (unknownResultMeta.get MetaSystemMessage = "" →
          ¬ (sampleStdlib.ToLower (unknownResultMeta.get MetaToolStatus) ≠ "" ∧
              sampleStdlib.ToLower (unknownResultMeta.get MetaToolStatus) ≠ "ok") →
          res.p.messagesByScope = exampleProcessor.messagesByScope)) ∧
    (unknownResultMeta.get MetaToolCallID ≠ "" → unknownResultMeta.get MetaToolResult ≠ "" →
      ∃ (res : ProcessResult) (frames : List Frame) (ctx : Context),
        exampleProcessor.Process sampleStdlib (.system 0 "tool_result" unknownResultMeta) 1 =
          some res ∧ res.err = none ∧
        res.out = frames ++ [.system 0 "tool_result" unknownResultMeta] ∧ frames ≠ [] ∧
        res.p.adapterCalls = exampleProcessor.adapterCalls ++ [AdapterCall.stream ctx] ∧
        res.p.pendingTools (unknownResultMeta.get MetaToolCallID) = none)) :=
  ⟨rfl, tool_result_processed_regardless sampleStdlib exampleProcessor exampleAdapter 0
    unknownResultMeta 1 rfl⟩

end Processors

namespace Priority

theorem popStep_eq {α : Type} (q : PriorityQueue α) (hf : 0 < q.fairness) :
    q.popStep =
      match q.high, q.low with
      | f :: rest, _ => some (f, { q with high := rest, highPop := q.highPop + 1 })
      | [], f :: rest => some (f, { q with low := rest, lowPop := q.lowPop + 1 })
      | [], [] => none := by
  unfold PriorityQueue.popStep
  cases hh : q.high with
  | cons f rest => simp
  | nil =>
    cases hl : q.low with
    | cons f rest => simp [hf]
    | nil => simp

theorem Pop_succ {α : Type} (q : PriorityQueue α) (fuel : Nat) :
    q.Pop (fuel + 1) = q.popStep := by
  induction fuel with
  | zero =>
    cases h : q.popStep <;> simp [PriorityQueue.Pop, h]
  | succ n ih =>
    cases h : q.popStep with
    | none =>
      rw [PriorityQueue.Pop]
      simp only [h]
      rw [ih, h]
    | some r => simp [PriorityQueue.Pop, h]

theorem Trace.step_inv {α : Type} (t : Trace α) (op : QueueOp α) (h : t.inv) :
    (t.step op).inv := by
  obtain ⟨h1, h2, h3⟩ := h
  cases op with
  | pushHigh f =>
    unfold Trace.step PriorityQueue.TryPushHigh
    by_cases hc : t.q.high.length < t.q.highCap
    · simp [hc, Trace.inv, ← h1, h2, h3]
    · simp [hc, Trace.inv, h1, h2, h3]
  | pushLow f =>
    unfold Trace.step PriorityQueue.TryPushLow
    by_cases hc : t.q.low.length < t.q.lowCap
    · simp [hc, Trace.inv, ← h2, h1, h3]
    · simp [hc, Trace.inv, h1, h2, h3]
  | pop =>
    unfold Trace.step
    rw [Pop_succ, popStep_eq _ h3]
    cases hh : t.q.high with
    | cons f rest =>
      simp [Trace.inv, ← h1, hh, h2, h3]
    | nil =>
      cases hl : t.q.low with
      | cons f rest =>
        simp [Trace.inv, ← h2, ← h1, hh, hl, h3]
      | nil => simp [Trace.inv, h1, h2, h3]

theorem Trace.run_inv {α : Type} (highCap lowCap : Nat) (fairness : Int)
    (ops : List (QueueOp α)) : (Trace.run highCap lowCap fairness ops).inv := by
  unfold Trace.run
  have h0 : (Trace.mk (New highCap lowCap fairness) ([] : List α) [] [] []).inv := by
    refine ⟨rfl, rfl, ?_⟩
    simp only [New]
    split_ifs <;> omega
  generalize (Trace.mk (New highCap lowCap fairness) ([] : List α) [] [] []) = t at h0
  induction ops generalizing t with
  | nil => exact h0
  | cons op ops ih => exact ih (t.step op) (Trace.step_inv t op h0)

/-- C9 (the code at a failing input): queues built with fairness ratio 1 and with the
default ratio 3, both lanes non-empty throughout.  Every pop is served from the high lane:
two, respectively four, consecutive pops return high-lane items only, and the low lane
still holds its item with a low pop count of zero. -/
theorem pop_serves_high_lane_only :
    (Trace.run 4 4 1 [.pushHigh "h1", .pushHigh "h2", .pushHigh "h3", .pushLow "l1",
        .pop, .pop]).poppedHigh = ["h1", "h2"] ∧
    (Trace.run 4 4 1 [.pushHigh "h1", .pushHigh "h2", .pushHigh "h3", .pushLow "l1",
        .pop, .pop]).poppedLow = [] ∧
    (Trace.run 4 4 1 [.pushHigh "h1", .pushHigh "h2", .pushHigh "h3", .pushLow "l1",
        .pop, .pop]).q.low = ["l1"] ∧
    (Trace.run 4 4 1 [.pushHigh "h1", .pushHigh "h2", .pushHigh "h3", .pushLow "l1",
        .pop, .pop]).q.Stats.LowPop = 0 ∧
    (Trace.run 8 8 0 [.pushLow "l1", .pushHigh "h1", .pushHigh "h2", .pushHigh "h3",
        .pushHigh "h4", .pushHigh "h5", .pop, .pop, .pop, .pop]).poppedHigh =
      ["h1", "h2", "h3", "h4"] ∧
    (Trace.run 8 8 0 [.pushLow "l1", .pushHigh "h1", .pushHigh "h2", .pushHigh "h3",
        .pushHigh "h4", .pushHigh "h5", .pop, .pop, .pop, .pop]).poppedLow = [] := by
  decide

/-- C10: each lane is a bounded FIFO.  `TryPushHigh` and `TryPushLow` append to their lane
and return true exactly when the lane holds fewer items than its capacity, and otherwise
return false and change nothing; on a queue with positive fairness (what `New` builds)
`Pop` returns, within its first iteration, the oldest high-lane item if the high lane is
non-empty and otherwise the oldest low-lane item, and keeps polling when both lanes are
empty; hence along every trace the items popped from a lane, followed by the items the
lane still holds, are the items the lane accepted, in push order. -/
theorem priorityQueue_bounded_fifo {α : Type} :
    (∀ (q : PriorityQueue α) (f : α),
      q.TryPushHigh f =
        if q.high.length < q.highCap then
          ({ q with high := q.high ++ [f], highPush := q.highPush + 1 }, true)
        else (q, false)) ∧
    (∀ (q : PriorityQueue α) (f : α),
      q.TryPushLow f =
        if q.low.length < q.lowCap then
          ({ q with low := q.low ++ [f], lowPush := q.lowPush + 1 }, true)
        else (q, false)) ∧
    (∀ (highCap lowCap : Nat) (fairness : Int),
      0 < (New highCap lowCap fairness : PriorityQueue α).fairness) ∧
    (∀ (q : PriorityQueue α) (fuel : Nat), 0 < q.fairness →
      q.Pop (fuel + 1) =
        match q.high, q.low with
        | f :: rest, _ => some (f, { q with high := rest, highPop := q.highPop + 1 })
        | [], f :: rest => some (f, { q with low := rest, lowPop := q.lowPop + 1 })
        | [], [] => none) ∧
    (∀ (highCap lowCap : Nat) (fairness : Int) (ops : List (QueueOp α)),
      (Trace.run highCap lowCap fairness ops).poppedHigh ++
          (Trace.run highCap lowCap fairness ops).q.high =
        (Trace.run highCap lowCap fairness ops).pushedHigh ∧
      (Trace.run highCap lowCap fairness ops).poppedLow ++
          (Trace.run highCap lowCap fairness ops).q.low =
        (Trace.run highCap lowCap fairness ops).pushedLow) := by
  refine ⟨fun q f => rfl, fun q f => rfl, ?_, ?_, ?_⟩
  · intro highCap lowCap fairness
    simp only [New]
    split_ifs <;> omega
  · intro q fuel hf
    rw [Pop_succ, popStep_eq q hf]
  · intro highCap lowCap fairness ops
    exact ⟨(Trace.run_inv highCap lowCap fairness ops).1,
      (Trace.run_inv highCap lowCap fairness ops).2.1⟩

end Priority

namespace Turn

open Frames

/-- C20: `OnSTTInput` acts only when the state is Speaking and the duration exceeds the
barge-in threshold.  Then it hands exactly one `StartInterruption` control frame to the
emitter (nothing when the emitter is nil), moves to Listening and notifies the
listeners of that transition; when the state is Speaking and the duration is at most
the threshold, or the state is not Speaking, it emits nothing and changes nothing. -/
theorem OnSTTInput_spec (tm : stateMachine) (duration now : Int) :
    tm.OnSTTInput duration now =
      (if tm.currentState = StateSpeaking ∧ duration > tm.bargeInThreshold then
        { tm with
          currentState := StateListening
          emitted := if tm.emitter then tm.emitted ++ [NewInterruptFrame "" now] else tm.emitted
          delivered := tm.delivered ++ tm.stateChangeListeners.map (fun l =>
            (l, StateChange.mk StateSpeaking StateListening "barge-in detected")) }
      else tm) ∧
    (NewInterruptFrame "" now).isControl ControlStartInterruption = true := by
  refine ⟨?_, by simp [NewInterruptFrame, NewControlFrame, Frame.isControl]⟩
  unfold stateMachine.OnSTTInput
  by_cases hs : tm.currentState = StateSpeaking
  · by_cases hd : duration > tm.bargeInThreshold
    · have hv : transitionValid StateSpeaking StateListening = true := by decide
      cases he : tm.emitter <;>
        simp [hs, hd, he, stateMachine.Transition, hv]
    · simp [hs, hd]
  · simp [hs]

end Turn

namespace Resilience

theorem run_snoc (c : CircuitBreaker) (calls : List (Int × BreakerCall)) (tc : Int × BreakerCall) :
    c.run (calls ++ [tc]) = (c.run calls).step tc := by
  simp [CircuitBreaker.run, List.foldl_append]

theorem rateLimitTimes_snoc (calls : List (Int × BreakerCall)) (tc : Int × BreakerCall) :
    rateLimitTimes (calls ++ [tc]) =
      match tc.2 with
      | .OnSuccess => []
      | .OnError err => if IsRateLimit err then rateLimitTimes calls ++ [tc.1]
          else rateLimitTimes calls := by
  simp [rateLimitTimes, List.foldl_append]

/-- State of a breaker after a chronological sequence of calls, in terms of the
rate-limit errors seen since the last success. -/
theorem run_invariant (c0 : CircuitBreaker) (h0 : c0.failures = 0) (h1 : c0.openUntil = none)
    (hT : 1 ≤ c0.threshold) (calls : List (Int × BreakerCall)) (hc : chronological calls) :
    (c0.run calls).threshold = c0.threshold ∧ (c0.run calls).cooldown = c0.cooldown ∧
    (c0.run calls).failures = (rateLimitTimes calls).length ∧
    (∀ t ∈ rateLimitTimes calls, ∃ x ∈ calls, x.1 = t) ∧
    (∀ now, (c0.run calls).Allow now = false ↔
      ∃ t ∈ trippingTimes c0.threshold calls, now < t + c0.cooldown) := by
  induction calls using List.reverseRecOn with
  | nil =>
    refine ⟨rfl, rfl, by simp [CircuitBreaker.run, h0, rateLimitTimes], ?_, ?_⟩
    · simp [rateLimitTimes]
    · intro now
      simp [CircuitBreaker.run, CircuitBreaker.Allow, h1, trippingTimes, rateLimitTimes]
  | append_singleton l tc ih =>
    have hl : chronological l := (List.pairwise_append.1 hc).1
    have hle : ∀ x ∈ l, x.1 ≤ tc.1 := fun x hx =>
      (List.pairwise_append.1 hc).2.2 x hx tc (by simp)
    obtain ⟨i1, i2, i3, i4, i5⟩ := ih hl
    rw [run_snoc]
    obtain ⟨t, call⟩ := tc
    cases call with
    | OnSuccess =>
      refine ⟨i1, i2, ?_, ?_, ?_⟩
      · simp [CircuitBreaker.step, CircuitBreaker.OnSuccess, rateLimitTimes_snoc]
      · simp [rateLimitTimes_snoc]
      · intro now
        simp [CircuitBreaker.step, CircuitBreaker.OnSuccess, CircuitBreaker.Allow, trippingTimes,
          rateLimitTimes_snoc]
    | OnError err =>
      cases hr : IsRateLimit err with
      | false =>
        have hstep : (c0.run l).step (t, BreakerCall.OnError err) = c0.run l := by
          simp [CircuitBreaker.step, CircuitBreaker.OnError, hr]
        rw [hstep]
        refine ⟨i1, i2, ?_, ?_, ?_⟩
        · simp [rateLimitTimes_snoc, hr, i3]
        · intro u hu
          simp only [rateLimitTimes_snoc, hr] at hu
          obtain ⟨x, hx, hxu⟩ := i4 u hu
          exact ⟨x, by simp [hx], hxu⟩
        · intro now
          simp only [trippingTimes, rateLimitTimes_snoc, hr]
          exact i5 now
      | true =>
        have hrl : rateLimitTimes (l ++ [(t, BreakerCall.OnError err)]) =
            rateLimitTimes l ++ [t] := by simp [rateLimitTimes_snoc, hr]
        have horigin : ∀ u ∈ rateLimitTimes l, u ≤ t := by
          intro u hu
          obtain ⟨x, hx, hxu⟩ := i4 u hu
          rw [← hxu]
          exact hle x hx
        by_cases htrip : (c0.run l).failures + 1 ≥ (c0.run l).threshold
        · have hstep : (c0.run l).step (t, BreakerCall.OnError err) =
              { c0.run l with failures := (c0.run l).failures + 1,
                              openUntil := some (t + (c0.run l).cooldown) } := by
            simp [CircuitBreaker.step, CircuitBreaker.OnError, hr, htrip]
          rw [hstep]
          refine ⟨i1, i2, ?_, ?_, ?_⟩
          · simp [hrl, i3]
          · intro u hu
            rw [hrl, List.mem_append] at hu
            rcases hu with hu | hu
            · obtain ⟨x, hx, hxu⟩ := i4 u hu
              exact ⟨x, by simp [hx], hxu⟩
            · exact ⟨(t, BreakerCall.OnError err), by simp, (List.mem_singleton.1 hu).symm⟩
          · intro now
            have hdrop : (c0.threshold - 1).toNat ≤ (rateLimitTimes l).length := by
              rw [i1, i3] at htrip
              omega
            simp only [trippingTimes, hrl, List.drop_append_of_le_length hdrop,
              CircuitBreaker.Allow, i2]
            constructor
            · intro h
              refine ⟨t, by simp, ?_⟩
              simpa using h
            · rintro ⟨u, hu, hnow⟩
              rw [List.mem_append] at hu
              have hut : u ≤ t := by
                rcases hu with hu | hu
                · exact horigin u (List.mem_of_mem_drop hu)
                · simp at hu; omega
              have : now < t + c0.cooldown := by omega
              simpa using this
        · have hstep : (c0.run l).step (t, BreakerCall.OnError err) =
              { c0.run l with failures := (c0.run l).failures + 1 } := by
            simp [CircuitBreaker.step, CircuitBreaker.OnError, hr, htrip]
          rw [hstep]
          have hlen : (rateLimitTimes l).length + 1 ≤ (c0.threshold - 1).toNat := by
            rw [i1, i3] at htrip
            omega
          refine ⟨i1, i2, ?_, ?_, ?_⟩
          · simp [hrl, i3]
          · intro u hu
            rw [hrl, List.mem_append] at hu
            rcases hu with hu | hu
            · obtain ⟨x, hx, hxu⟩ := i4 u hu
              exact ⟨x, by simp [hx], hxu⟩
            · exact ⟨(t, BreakerCall.OnError err), by simp, (List.mem_singleton.1 hu).symm⟩
          · intro now
            have e1 : trippingTimes c0.threshold (l ++ [(t, BreakerCall.OnError err)]) = [] := by
              simp only [trippingTimes, hrl]
              apply List.drop_eq_nil_of_le
              simp
              omega
            have e2 : trippingTimes c0.threshold l = [] := by
              simp only [trippingTimes]
              apply List.drop_eq_nil_of_le
              omega
            have := i5 now
            rw [e2] at this
            rw [e1]
            simpa [CircuitBreaker.Allow] using this

end Resilience

namespace Resilience

/-- C11: for a breaker built by `NewCircuitBreaker` (threshold `T`, cooldown `C`) and any
chronological sequence of timed `OnError` and `OnSuccess` calls, `Allow` at time `now`
is false exactly when some `OnError` call with a rate-limit error, made at a time `t`
after the last `OnSuccess` and at least the `T`-th such call since then, has
`now < t + C`.  `OnError` with an error that is not a rate-limit error changes nothing,
and `OnSuccess` sets the failure count to 0 and makes `Allow` true. -/
theorem breaker_open_iff (threshold cooldown : Int) (calls : List (Int × BreakerCall))
    (now : Int) (hc : chronological calls) :
    (((NewCircuitBreaker threshold cooldown).run calls).Allow now = false ↔
      ∃ t ∈ trippingTimes (NewCircuitBreaker threshold cooldown).threshold calls,
        now < t + (NewCircuitBreaker threshold cooldown).cooldown) ∧
    (∀ (b : CircuitBreaker) (err : Option GoError) (t : Int),
      IsRateLimit err = false → b.OnError err t = b) ∧
    (∀ b : CircuitBreaker, b.OnSuccess.failures = 0 ∧ ∀ t, b.OnSuccess.Allow t = true) := by
  have hT : 1 ≤ (NewCircuitBreaker threshold cooldown).threshold := by
    simp only [NewCircuitBreaker]
    split_ifs <;> omega
  refine ⟨(run_invariant (NewCircuitBreaker threshold cooldown) rfl rfl hT calls hc).2.2.2.2 now,
    ?_, ?_⟩
  · intro b err t h
    simp [CircuitBreaker.OnError, h]
  · intro b
    exact ⟨rfl, fun t => rfl⟩

theorem breaker_open_iff_witness :
    chronological [(10, BreakerCall.OnError (some (GoError.rateLimit "tts" ""))),
      (20, BreakerCall.OnError (some (GoError.wrapped "send" (GoError.rateLimit "tts" ""))))] ∧
    ((((NewCircuitBreaker 2 100).run
        [(10, BreakerCall.OnError (some (GoError.rateLimit "tts" ""))),
         (20, BreakerCall.OnError (some (GoError.wrapped "send" (GoError.rateLimit "tts" ""))))]
        ).Allow 50 = false ↔
      ∃ t ∈ trippingTimes (NewCircuitBreaker 2 100).threshold
          [(10, BreakerCall.OnError (some (GoError.rateLimit "tts" ""))),
           (20, BreakerCall.OnError (some (GoError.wrapped "send" (GoError.rateLimit "tts" ""))))],
        50 < t + (NewCircuitBreaker 2 100).cooldown) ∧
    (∀ (b : CircuitBreaker) (err : Option GoError) (t : Int),
      IsRateLimit err = false → b.OnError err t = b) ∧
    (∀ b : CircuitBreaker, b.OnSuccess.failures = 0 ∧ ∀ t, b.OnSuccess.Allow t = true)) :=
  ⟨by simp [chronological],
    breaker_open_iff 2 100
      [(10, BreakerCall.OnError (some (GoError.rateLimit "tts" ""))),
       (20, BreakerCall.OnError (some (GoError.wrapped "send" (GoError.rateLimit "tts" ""))))]
      50 (by simp [chronological])⟩

end Resilience

namespace Pipeline

theorem lookup_eq_none_iff_not_mem (l : List (String × Session)) (k : String) :
    l.lookup k = none ↔ k ∉ l.map (fun kv => kv.1) := by
  induction l with
  | nil => simp
  | cons kv rest ih =>
    obtain ⟨k1, v⟩ := kv
    by_cases hk : k = k1
    · subst hk; simp [List.lookup]
    · have hb : (k == k1) = false := by simpa using hk
      simp [List.lookup, hb, ih, hk]

theorem filter_ne_of_not_mem (l : List (String × Session)) (k : String)
    (h : k ∉ l.map (fun kv => kv.1)) : l.filter (fun kv => kv.1 != k) = l := by
  rw [List.filter_eq_self]
  intro kv hkv
  have : kv.1 ≠ k := fun e => h (by rw [← e]; exact List.mem_map_of_mem _ hkv)
  simpa using this

theorem length_filter_of_lookup (l : List (String × Session)) (k : String) (v : Session)
    (hn : (l.map (fun kv => kv.1)).Nodup) (h : l.lookup k = some v) :
    (l.filter (fun kv => kv.1 != k)).length + 1 = l.length := by
  induction l with
  | nil => simp at h
  | cons kv rest ih =>
    obtain ⟨k1, v1⟩ := kv
    simp only [List.map_cons, List.nodup_cons] at hn
    by_cases hk : k = k1
    · subst hk
      simp [filter_ne_of_not_mem rest k hn.1]
    · have hb : (k == k1) = false := by simpa using hk
      have hk' : ¬ k1 = k := fun e => hk e.symm
      simp only [List.lookup, hb] at h
      have := ih hn.2 h
      simp [List.filter_cons, hk', this]

theorem GetOrCreate_consistent (r : SessionRegistry) (callSID streamID traceID : String)
    (h : r.consistent) : (r.GetOrCreate callSID streamID traceID).1.consistent := by
  unfold SessionRegistry.GetOrCreate
  by_cases hc : callSID = ""
  · simpa [hc] using h
  · simp only [hc, if_false]
    cases hl : r.sessions.lookup callSID with
    | some v => simpa using h
    | none =>
      simp only []
      cases r.factory r.nextCtx callSID streamID traceID with
      | error e => exact h
      | ok orch =>
        simp only []
        cases orch.startErr with
        | some e => exact h
        | none =>
          simp only [hl]
          refine ⟨?_, ?_⟩
          · simp [h.1]
          · simp only [List.map_append, List.map_cons, List.map_nil]
            rw [List.nodup_append]
            refine ⟨h.2, by simp, ?_⟩
            intro a ha hb
            simp only [List.mem_singleton] at hb
            subst hb
            exact (lookup_eq_none_iff_not_mem _ _).1 hl ha

theorem Remove_consistent (r : SessionRegistry) (callSID : String) (h : r.consistent) :
    (r.Remove callSID).consistent := by
  unfold SessionRegistry.Remove
  cases hl : r.sessions.lookup callSID with
  | none => exact h
  | some sess =>
    refine ⟨?_, ?_⟩
    · have := length_filter_of_lookup r.sessions callSID sess h.2 hl
      simp only [h.1]
      omega
    · simp only []
      exact (List.Nodup.sublist (List.Sublist.map _ (List.filter_sublist _)) h.2)

theorem foldl_Remove_consistent (keys : List String) (r : SessionRegistry) (h : r.consistent) :
    (keys.foldl SessionRegistry.Remove r).consistent := by
  induction keys generalizing r with
  | nil => exact h
  | cons k ks ih => exact ih _ (Remove_consistent r k h)

theorem step_consistent (r : SessionRegistry) (c : RegistryCall) (h : r.consistent) :
    (r.step c).consistent := by
  cases c with
  | GetOrCreate a b t => exact GetOrCreate_consistent r a b t h
  | Remove a => exact Remove_consistent r a h
  | CloseAll => exact foldl_Remove_consistent _ r h

theorem run_consistent (calls : List RegistryCall) (r : SessionRegistry) (h : r.consistent) :
    (r.run calls).consistent := by
  induction calls generalizing r with
  | nil => exact h
  | cons c cs ih => exact ih _ (step_consistent r c h)

end Pipeline

namespace Pipeline

theorem lookup_append_of_none (l : List (String × Session)) (k : String) (v : Session)
    (h : l.lookup k = none) : (l ++ [(k, v)]).lookup k = some v := by
  induction l with
  | nil => simp [List.lookup]
  | cons kv rest ih =>
    obtain ⟨k1, v1⟩ := kv
    by_cases hk : k = k1
    · subst hk; simp [List.lookup] at h
    · have hb : (k == k1) = false := by simpa using hk
      simp only [List.lookup, hb] at h
      simp [List.lookup, hb, ih h]

theorem GetOrCreate_then_Remove_count (r : SessionRegistry) (c s t : String)
    (hg : r.Get c = none) : ((r.GetOrCreate c s t).1.Remove c).Count = r.Count := by
  unfold SessionRegistry.Get at hg
  unfold SessionRegistry.GetOrCreate
  by_cases hc : c = ""
  · subst hc
    simp [SessionRegistry.Remove, hg]
  · simp only [hc, if_false, hg]
    cases r.factory r.nextCtx c s t with
    | error e => simp [SessionRegistry.Remove, hg, SessionRegistry.Count]
    | ok orch =>
      simp only []
      cases orch.startErr with
      | some e => simp [SessionRegistry.Remove, hg, SessionRegistry.Count]
      | none =>
        simp [SessionRegistry.Remove, lookup_append_of_none _ _ _ hg, SessionRegistry.Count]

/-- C18: along every sequence of `GetOrCreate`, `Remove` and `CloseAll` calls on a
registry built by `NewSessionRegistry` (whatever the factory returns and whether or not
the orchestrators start), `Count` equals the number of entries stored, one per
call_sid.  Moreover: `GetOrCreate` of an unknown call_sid followed by `Remove` of it
restores `Count`; `Remove` of an unknown call_sid changes nothing; `GetOrCreate` of a
known call_sid returns the stored session with `created = false` and changes nothing;
`GetOrCreate` with an empty call_sid, a failing factory or a failing `Start` stores
nothing. -/
theorem registry_count_matches_sessions
    (factory : Nat → String → String → String → Except String Orch)
    (calls : List RegistryCall) :
    ((NewSessionRegistry factory).run calls).Count =
        ((NewSessionRegistry factory).run calls).sessions.length ∧
    (((NewSessionRegistry factory).run calls).sessions.map (fun kv => kv.1)).Nodup ∧
    (∀ (r : SessionRegistry) (c s t : String), r.Get c = none →
      ((r.GetOrCreate c s t).1.Remove c).Count = r.Count) ∧
    (∀ (r : SessionRegistry) (c : String), r.Get c = none → r.Remove c = r) ∧
    (∀ (r : SessionRegistry) (c s t : String) (sess : Session), c ≠ "" → r.Get c = some sess →
      r.GetOrCreate c s t = (r, GetOrCreateResult.mk (some sess) false none)) ∧
    (∀ (r : SessionRegistry) (s t : String),
      r.GetOrCreate "" s t = (r, GetOrCreateResult.mk none false none)) ∧
    (∀ (r : SessionRegistry) (c s t : String),
      (∀ orch, r.factory r.nextCtx c s t = .ok orch → orch.startErr ≠ none) →
      (r.GetOrCreate c s t).1.sessions = r.sessions ∧
        (r.GetOrCreate c s t).1.Count = r.Count) := by
  have h0 : (NewSessionRegistry factory).consistent := by
    simp [SessionRegistry.consistent, NewSessionRegistry]
  have h := run_consistent calls _ h0
  refine ⟨h.1, h.2, GetOrCreate_then_Remove_count, ?_, ?_, ?_, ?_⟩
  · intro r c hg
    unfold SessionRegistry.Get at hg
    simp [SessionRegistry.Remove, hg]
  · intro r c s t sess hc hg
    unfold SessionRegistry.Get at hg
    simp [SessionRegistry.GetOrCreate, hc, hg]
  · intro r s t
    simp [SessionRegistry.GetOrCreate]
  · intro r c s t hf
    unfold SessionRegistry.GetOrCreate
    by_cases hc : c = ""
    · simp [hc]
    · simp only [hc, if_false]
      cases hl : r.sessions.lookup c with
      | some v => simp
      | none =>
        simp only []
        cases hfac : r.factory r.nextCtx c s t with
        | error e => simp [SessionRegistry.Count]
        | ok orch =>
          simp only []
          cases hs : orch.startErr with
          | some e => simp [SessionRegistry.Count]
          | none => exact absurd hs (hf orch hfac)

/-- C17 (counterexample): a session for call_sid `CA1` is registered with stream `S1`.
`GetOrCreate` for `CA1` with stream `S2` returns the stored `S1` session with
`created = false`; nothing is stopped or cancelled and `Get` still yields `S1`. -/
theorem getOrCreate_keeps_first_session :
    (((NewSessionRegistry startingFactory).GetOrCreate "CA1" "S1" "t1").1.Get "CA1").map
        (fun s => s.StreamID) = some "S1" ∧
    ((((NewSessionRegistry startingFactory).GetOrCreate "CA1" "S1" "t1").1.GetOrCreate
        "CA1" "S2" "t2").2.session.map (fun s => s.StreamID)) = some "S1" ∧
    (((NewSessionRegistry startingFactory).GetOrCreate "CA1" "S1" "t1").1.GetOrCreate
        "CA1" "S2" "t2").2.created = false ∧
    (((NewSessionRegistry startingFactory).GetOrCreate "CA1" "S1" "t1").1.GetOrCreate
        "CA1" "S2" "t2").1.stopped = [] ∧
    (((NewSessionRegistry startingFactory).GetOrCreate "CA1" "S1" "t1").1.GetOrCreate
        "CA1" "S2" "t2").1.cancelled = [] ∧
    ((((NewSessionRegistry startingFactory).GetOrCreate "CA1" "S1" "t1").1.GetOrCreate
        "CA1" "S2" "t2").1.Get "CA1").map (fun s => s.StreamID) = some "S1" := by
  decide

/-- C17 (amended): the registry holds at most one session per call_sid and the first
registration stays.  If a session for call_sid `c` is registered, `GetOrCreate` for `c`
with any stream id returns that stored session with `created = false` and leaves the
registry as it was (the factory is not called, nothing is stopped or cancelled), so
`Get` keeps yielding the stored session. -/
theorem getOrCreate_returns_stored_session
    (factory : Nat → String → String → String → Except String Orch)
    (calls : List RegistryCall) (c streamID traceID : String) (sess : Session) (hc : c ≠ "")
    (hg : ((NewSessionRegistry factory).run calls).Get c = some sess) :
    (((NewSessionRegistry factory).run calls).sessions.map (fun kv => kv.1)).Nodup ∧
    ((NewSessionRegistry factory).run calls).GetOrCreate c streamID traceID =
      ((NewSessionRegistry factory).run calls, GetOrCreateResult.mk (some sess) false none) ∧
    (((NewSessionRegistry factory).run calls).GetOrCreate c streamID traceID).1.Get c =
      some sess := by
  have h0 : (NewSessionRegistry factory).consistent := by
    simp [SessionRegistry.consistent, NewSessionRegistry]
  have h := run_consistent calls _ h0
  have hgo : ((NewSessionRegistry factory).run calls).GetOrCreate c streamID traceID =
      ((NewSessionRegistry factory).run calls, GetOrCreateResult.mk (some sess) false none) := by
    unfold SessionRegistry.Get at hg
    simp [SessionRegistry.GetOrCreate, hc, hg]
  exact ⟨h.2, hgo, by rw [hgo]; exact hg⟩

theorem getOrCreate_returns_stored_session_witness :
    "CA1" ≠ "" ∧
    ((NewSessionRegistry startingFactory).run [RegistryCall.GetOrCreate "CA1" "S1" "t1"]).Get
      "CA1" = some (Session.mk "CA1" "S1" "t1" (Orch.mk 0 none) 0) ∧
    ((((NewSessionRegistry startingFactory).run
        [RegistryCall.GetOrCreate "CA1" "S1" "t1"]).sessions.map (fun kv => kv.1)).Nodup ∧
    ((NewSessionRegistry startingFactory).run
        [RegistryCall.GetOrCreate "CA1" "S1" "t1"]).GetOrCreate "CA1" "S2" "t2" =
      ((NewSessionRegistry startingFactory).run [RegistryCall.GetOrCreate "CA1" "S1" "t1"],
        GetOrCreateResult.mk (some (Session.mk "CA1" "S1" "t1" (Orch.mk 0 none) 0)) false none) ∧
    (((NewSessionRegistry startingFactory).run
        [RegistryCall.GetOrCreate "CA1" "S1" "t1"]).GetOrCreate "CA1" "S2" "t2").1.Get "CA1" =
      some (Session.mk "CA1" "S1" "t1" (Orch.mk 0 none) 0)) :=
  ⟨by decide, by decide,
    getOrCreate_returns_stored_session startingFactory [RegistryCall.GetOrCreate "CA1" "S1" "t1"]
      "CA1" "S2" "t2" (Session.mk "CA1" "S1" "t1" (Orch.mk 0 none) 0) (by decide) (by decide)⟩

end Pipeline

namespace Aggregators

open Frames

/-- C15 (counterexample): a fresh aggregator with the default configuration fed the
single finished sentence `Hi.` returns no frame and keeps `Hi.` in its buffer (the
trimmed text is shorter than `MinLen = 8`); and with `MinLen = 1` the text `Wait...`,
whose trimmed form is non-empty and ends with `.`, is not emitted either (an ellipsis
on a text shorter than 12 bytes). -/
theorem short_sentence_not_emitted :
    ((NewTextAggregator defaultConfig).Process sampleStdlib
        (.text 5 "Hi." GoMap.empty) 100).2.length = 0 ∧
    ((NewTextAggregator defaultConfig).Process sampleStdlib
        (.text 5 "Hi." GoMap.empty) 100).1.sb = "Hi." ∧
    (NewTextAggregator defaultConfig).cfg.MinLen = 8 ∧
    sampleStdlib.TrimSpace "Hi." = "Hi." ∧
    ((NewTextAggregator { defaultConfig with MinLen := 1 }).Process sampleStdlib
        (.text 5 "Wait..." GoMap.empty) 100).2.length = 0 ∧
    ((NewTextAggregator { defaultConfig with MinLen := 1 }).Process sampleStdlib
        (.text 5 "Wait..." GoMap.empty) 100).1.sb = "Wait..." := by
  decide

theorem reset_sb (a : TextAggregator) (t : String) : (a.reset t).sb = "" := by
  unfold TextAggregator.reset TextAggregator.appendHistory
  dsimp only
  split_ifs <;> rfl

theorem reset_tokenCount (a : TextAggregator) (t : String) : (a.reset t).tokenCount = 0 := by
  unfold TextAggregator.reset TextAggregator.appendHistory
  dsimp only
  split_ifs <;> rfl

theorem eosDetected_of_terminal (env : Stdlib) (s : String)
    (hlast : lastByte (env.TrimSpace s) = some '.'.toNat ∨
      lastByte (env.TrimSpace s) = some '!'.toNat ∨ lastByte (env.TrimSpace s) = some '?'.toNat)
    (hell : HasSuffix (env.TrimSpace s) "..." = true → 12 ≤ len (env.TrimSpace s)) :
    eosDetected env s = true := by
  have hlen : len (env.TrimSpace s) ≠ 0 := by
    intro h0
    have hl : lastByte (env.TrimSpace s) = none := by
      have hd : (env.TrimSpace s).data = [] := by
        cases hdata : (env.TrimSpace s).data with
        | nil => rfl
        | cons c cs =>
          exfalso
          simp only [len, hdata, List.map_cons, List.sum_cons] at h0
          have : 0 < runeLen c := by unfold runeLen; split_ifs <;> omega
          omega
      simp [lastByte, hd]
    rcases hlast with h | h | h <;> simp [hl] at h
  unfold eosDetected
  simp only [hlen, if_false]
  by_cases hs : HasSuffix (env.TrimSpace s) "..." = true
  · simp only [hs, if_true]
    exact decide_eq_true (hell hs)
  · simp only [hs, Bool.false_eq_true, if_false]
    rcases hlast with h | h | h <;> simp [h]

/-- C15 (amended): for every text `s` whose trimmed form ends with `.`, `!` or `?` (so
it is non-empty), has at least `MinLen` bytes and, when it ends with an ellipsis `...`,
at least 12 bytes, feeding a fresh `TextAggregator` (any configuration, including the
default) a single Text frame with text `s` makes `Process` return exactly one Text
frame whose text equals `strings.TrimSpace(s)`, and leaves the buffer empty. -/
theorem finished_sentence_emitted_once (env : Stdlib) (cfg : AggregatorConfig) (pts : Int)
    (s : String) (fmeta : MetaMap) (now : Int)
    (hlast : lastByte (env.TrimSpace s) = some '.'.toNat ∨
      lastByte (env.TrimSpace s) = some '!'.toNat ∨ lastByte (env.TrimSpace s) = some '?'.toNat)
    (hmin : (NewTextAggregator cfg).cfg.MinLen ≤ (len (env.TrimSpace s) : Int))
    (hell : HasSuffix (env.TrimSpace s) "..." = true → 12 ≤ len (env.TrimSpace s)) :
    ((NewTextAggregator cfg).Process env (.text pts s fmeta) now).2 =
      [Frame.text pts (env.TrimSpace s) (mergeMeta (GoMap.get fmeta MetaStreamID) fmeta)] ∧
    ((NewTextAggregator cfg).Process env (.text pts s fmeta) now).1.sb = "" ∧
    ((NewTextAggregator cfg).Process env (.text pts s fmeta) now).1.tokenCount = 0 := by
  have heos := eosDetected_of_terminal env s hlast hell
  have hsb : (NewTextAggregator cfg).sb = "" := rfl
  have hpts : (NewTextAggregator cfg).firstPTS = 0 := rfl
  have happ : ("" : String) ++ s = s := by
    apply String.ext; simp
  unfold TextAggregator.Process
  simp only [hpts, if_true, hsb, happ, heos, Bool.true_or, Bool.true_and, decide_eq_true hmin,
    NewTextFrame, true_and]
  exact ⟨reset_sb _ _, reset_tokenCount _ _⟩

theorem finished_sentence_emitted_once_witness :
    (lastByte (sampleStdlib.TrimSpace " Hello world. ") = some '.'.toNat ∨
      lastByte (sampleStdlib.TrimSpace " Hello world. ") = some '!'.toNat ∨
      lastByte (sampleStdlib.TrimSpace " Hello world. ") = some '?'.toNat) ∧
    (NewTextAggregator defaultConfig).cfg.MinLen ≤
      (len (sampleStdlib.TrimSpace " Hello world. ") : Int) ∧
    ((NewTextAggregator defaultConfig).Process sampleStdlib
        (.text 5 " Hello world. " GoMap.empty) 100).2 =
      [Frame.text 5 (sampleStdlib.TrimSpace " Hello world. ")
        (mergeMeta (GoMap.get GoMap.empty MetaStreamID) GoMap.empty)] ∧
    ((NewTextAggregator defaultConfig).Process sampleStdlib
        (.text 5 " Hello world. " GoMap.empty) 100).1.sb = "" ∧
    ((NewTextAggregator defaultConfig).Process sampleStdlib
        (.text 5 " Hello world. " GoMap.empty) 100).1.tokenCount = 0 :=
  ⟨by decide, by decide,
    finished_sentence_emitted_once sampleStdlib defaultConfig 5 " Hello world. " GoMap.empty 100
      (by decide) (by decide) (by decide)⟩

end Aggregators

namespace Aggregators

open Frames

/-- C16 (counterexample): a fresh aggregator with the default configuration receives
the Text frame `ok` carrying `is_final = true`: a flush condition holds, yet `Process`
emits nothing and keeps `ok` in the buffer (the trimmed text is shorter than
`MinLen = 8`). -/
theorem final_short_text_not_flushed :
    GoMap.get (GoMap.set GoMap.empty MetaIsFinal "true") MetaIsFinal = "true" ∧
    ((NewTextAggregator defaultConfig).Process sampleStdlib
        (.text 5 "ok" (GoMap.set GoMap.empty MetaIsFinal "true")) 100).2.length = 0 ∧
    ((NewTextAggregator defaultConfig).Process sampleStdlib
        (.text 5 "ok" (GoMap.set GoMap.empty MetaIsFinal "true")) 100).1.sb = "ok" ∧
    ((NewTextAggregator defaultConfig).Process sampleStdlib
        (.text 5 "ok" (GoMap.set GoMap.empty MetaIsFinal "true")) 100).1.tokenCount = 1 := by
  decide

theorem len_ne_zero_of_lastByte (t : String) (b : Nat) (h : lastByte t = some b) :
    len t ≠ 0 := by
  intro h0
  cases hdata : t.data with
  | nil => simp [lastByte, hdata] at h
  | cons c cs =>
    simp only [len, hdata, List.map_cons, List.sum_cons] at h0
    have : 0 < runeLen c := by unfold runeLen; split_ifs <;> omega
    omega

/-- The sentence-end test, spelled out, for a trimmed text that does not end with a
newline. -/
theorem eosDetected_iff (env : Stdlib) (s : String)
    (htrim : lastByte (env.TrimSpace s) ≠ some '\n'.toNat) :
    eosDetected env s = true ↔
      (HasSuffix (env.TrimSpace s) "..." = true ∧ 12 ≤ len (env.TrimSpace s)) ∨
      (HasSuffix (env.TrimSpace s) "..." = false ∧
        (lastByte (env.TrimSpace s) = some '.'.toNat ∨
          lastByte (env.TrimSpace s) = some '!'.toNat ∨
          lastByte (env.TrimSpace s) = some '?'.toNat)) := by
  unfold eosDetected
  by_cases hs : HasSuffix (env.TrimSpace s) "..." = true
  · by_cases hl : len (env.TrimSpace s) = 0
    · simp [hs, hl]
    · simp [hs, hl]
  · have hs2 : HasSuffix (env.TrimSpace s) "..." = false := by simpa using hs
    by_cases hl : len (env.TrimSpace s) = 0
    · simp only [hl, if_true, hs2, Bool.false_eq_true, false_and, false_or, true_and, false_iff]
      rintro (h | h | h) <;> exact len_ne_zero_of_lastByte _ _ h hl
    · have h10 : lastByte (env.TrimSpace s) ≠ some 10 := htrim
      simp [hs2, hl, h10, or_assoc]

/-- C16 (amended): `Process` on a Text frame emits the accumulated (trimmed) text and
resets the buffer if and only if the trimmed accumulated text has at least `MinLen`
bytes and at least one flush condition holds: the trimmed text ends with an ellipsis
`...` and has at least 12 bytes; it ends with `.`, `!` or `?` and not with an ellipsis;
the number of Text frames accumulated has reached `MaxTokens`; or the frame carries
`is_final = true`.  Otherwise it emits nothing and keeps accumulating.  Accumulated
texts ending with a newline are left out (first part of `hnl`); its second part is
the fact that `strings.TrimSpace` leaves no trailing newline. -/
theorem process_text_flush_iff (env : Stdlib) (a : TextAggregator) (pts : Int)
    (ftext : String) (fmeta : MetaMap) (now : Int)
    (hnl : lastByte (a.sb ++ ftext) ≠ some '\n'.toNat ∧
      lastByte (env.TrimSpace (a.sb ++ ftext)) ≠ some '\n'.toNat) :
    ((((HasSuffix (env.TrimSpace (a.sb ++ ftext)) "..." = true ∧
            12 ≤ len (env.TrimSpace (a.sb ++ ftext))) ∨
          (HasSuffix (env.TrimSpace (a.sb ++ ftext)) "..." = false ∧
            (lastByte (env.TrimSpace (a.sb ++ ftext)) = some '.'.toNat ∨
              lastByte (env.TrimSpace (a.sb ++ ftext)) = some '!'.toNat ∨
              lastByte (env.TrimSpace (a.sb ++ ftext)) = some '?'.toNat)) ∨
          a.cfg.MaxTokens ≤ a.tokenCount + 1 ∨
          GoMap.get fmeta MetaIsFinal = "true") ∧
        a.cfg.MinLen ≤ (len (env.TrimSpace (a.sb ++ ftext)) : Int)) →
      (a.Process env (.text pts ftext fmeta) now).2 =
        [NewTextFrame (if a.firstPTS = 0 then GoMap.get fmeta MetaStreamID else a.streamID)
          (if a.firstPTS = 0 then pts else a.firstPTS) (env.TrimSpace (a.sb ++ ftext))
          (if a.firstPTS = 0 then fmeta else a.meta)] ∧
      (a.Process env (.text pts ftext fmeta) now).1.sb = "" ∧
      (a.Process env (.text pts ftext fmeta) now).1.tokenCount = 0) ∧
    (¬ (((HasSuffix (env.TrimSpace (a.sb ++ ftext)) "..." = true ∧
            12 ≤ len (env.TrimSpace (a.sb ++ ftext))) ∨
          (HasSuffix (env.TrimSpace (a.sb ++ ftext)) "..." = false ∧
            (lastByte (env.TrimSpace (a.sb ++ ftext)) = some '.'.toNat ∨
              lastByte (env.TrimSpace (a.sb ++ ftext)) = some '!'.toNat ∨
              lastByte (env.TrimSpace (a.sb ++ ftext)) = some '?'.toNat)) ∨
          a.cfg.MaxTokens ≤ a.tokenCount + 1 ∨
          GoMap.get fmeta MetaIsFinal = "true") ∧
        a.cfg.MinLen ≤ (len (env.TrimSpace (a.sb ++ ftext)) : Int)) →
      (a.Process env (.text pts ftext fmeta) now).2 = [] ∧
      (a.Process env (.text pts ftext fmeta) now).1.sb = a.sb ++ ftext ∧
      (a.Process env (.text pts ftext fmeta) now).1.tokenCount = a.tokenCount + 1) := by
  have heos := eosDetected_iff env (a.sb ++ ftext) hnl.2
  constructor
  · rintro ⟨hc, hmin⟩
    have hflush : (eosDetected env (a.sb ++ ftext) || decide (a.tokenCount + 1 ≥ a.cfg.MaxTokens)
        || (GoMap.get fmeta MetaIsFinal == "true")) = true := by
      rcases hc with h | h | h | h
      · simp [heos.2 (Or.inl h)]
      · simp [heos.2 (Or.inr h)]
      · simp [h]
      · simp [h]
    unfold TextAggregator.Process
    by_cases hp : a.firstPTS = 0
    · simp only [hp, if_true, hflush, Bool.true_and, decide_eq_true hmin]
      refine ⟨?_, ?_, ?_⟩ <;> first | trivial | rfl | exact reset_sb _ _ | exact reset_tokenCount _ _
    · simp only [hp, if_false, hflush, Bool.true_and, decide_eq_true hmin, if_true]
      refine ⟨?_, ?_, ?_⟩ <;> first | trivial | rfl | exact reset_sb _ _ | exact reset_tokenCount _ _
  · intro hn
    have hno : ((eosDetected env (a.sb ++ ftext) || decide (a.tokenCount + 1 ≥ a.cfg.MaxTokens)
        || (GoMap.get fmeta MetaIsFinal == "true")) &&
        decide ((len (env.TrimSpace (a.sb ++ ftext)) : Int) ≥ a.cfg.MinLen)) = false := by
      rw [Bool.eq_false_iff]
      intro ht
      apply hn
      simp only [Bool.and_eq_true, Bool.or_eq_true, decide_eq_true_eq, beq_iff_eq, heos] at ht
      refine ⟨?_, ht.2⟩
      rcases ht.1 with (h | h) | h
      · rcases h with h | h
        · exact Or.inl h
        · exact Or.inr (Or.inl h)
      · exact Or.inr (Or.inr (Or.inl h))
      · exact Or.inr (Or.inr (Or.inr h))
    unfold TextAggregator.Process
    by_cases hp : a.firstPTS = 0
    · simp only [hp, if_true, hno, Bool.false_eq_true, if_false]
      refine ⟨?_, ?_, ?_⟩ <;> trivial
    · simp only [hp, if_false, hno, Bool.false_eq_true]
      refine ⟨?_, ?_, ?_⟩ <;> trivial

theorem process_text_flush_iff_witness :
    (lastByte ((NewTextAggregator defaultConfig).sb ++ "Hello world. ") ≠ some '\n'.toNat ∧
      lastByte (sampleStdlib.TrimSpace ((NewTextAggregator defaultConfig).sb ++ "Hello world. "))
        ≠ some '\n'.toNat) ∧
    ((NewTextAggregator defaultConfig).Process sampleStdlib
        (.text 5 "Hello world. " GoMap.empty) 100).2 =
      [NewTextFrame "" 5 "Hello world." GoMap.empty] ∧
    ((NewTextAggregator defaultConfig).Process sampleStdlib
        (.text 5 "Hello world. " GoMap.empty) 100).1.sb = "" ∧
    ((NewTextAggregator defaultConfig).Process sampleStdlib
        (.text 5 "Hello world. " GoMap.empty) 100).1.tokenCount = 0 :=
  ⟨by decide,
    (process_text_flush_iff sampleStdlib (NewTextAggregator defaultConfig) 5 "Hello world. "
      GoMap.empty 100 (by decide)).1
      ⟨Or.inr (Or.inl ⟨by decide, Or.inl (by decide)⟩), by decide⟩⟩

end Aggregators

namespace Processors

open Frames

/-- C19 (the code at the failing input): the only session of stream `stream-1` holds two
buffered audio frames (presentation times 10 and 20).  `Process` on a Control frame with
code Flush, Cancel or Fallback for that stream returns three frames, the two buffered
audio frames ahead of the control frame: they are forwarded, not purged.  On
StartInterruption the same processor returns the control frame alone and the channel of
the session is empty afterwards. -/
theorem control_flush_forwards_buffered_audio :
    audioPTS (bufferedProcessor.Process sampleStdlib (exampleControl ControlFlush) 40).2
      = [10, 20] ∧
    (bufferedProcessor.Process sampleStdlib (exampleControl ControlFlush) 40).2.length = 3 ∧
    audioPTS (bufferedProcessor.Process sampleStdlib (exampleControl ControlCancel) 40).2
      = [10, 20] ∧
    audioPTS (bufferedProcessor.Process sampleStdlib (exampleControl ControlFallback) 40).2
      = [10, 20] ∧
    audioPTS (bufferedProcessor.Process sampleStdlib
      (exampleControl ControlStartInterruption) 40).2 = [] ∧
    (bufferedProcessor.Process sampleStdlib
      (exampleControl ControlStartInterruption) 40).2.length = 1 ∧
    (bufferedProcessor.Process sampleStdlib
      (exampleControl ControlStartInterruption) 40).1.sessions.map
        (fun kv => (kv.1, kv.2.results.length)) = [("stream-1", 0)] := by
  decide

end Processors

namespace Processors

open Frames LLM

/-- C12 (the code at the failing input): the processor has the system prompt
`you are a helpful assistant` (five tokens), `maxTokens = 8` and an adapter whose
`Generate` fails.  For the Text frame `please book a visit tomorrow` the history of the
scope before the frame is the system message alone; appending the user message exceeds
the budget, so pruning drops the user message itself and `Generate` is called with the
system message only.  After the failure `Process` returns StartInterruption and
Fallback with a nil error, but the rollback has removed the system message: the history
of the scope is left empty. -/
theorem rollback_removes_system_message :
    (limitedProcessor.ensureMessagesLocked sampleStdlib "stream:stream-1").1 =
      [systemMessage "you are a helpful assistant"] ∧
    (limitedProcessor.userTurn sampleStdlib longUtterance exampleMeta).2.1.Messages =
      [systemMessage "you are a helpful assistant"] ∧
    (limitedProcessor.Process sampleStdlib (.text 0 longUtterance exampleMeta) 1).map
      (fun r => (r.out.map describe, r.err, r.p.adapterCalls.map AdapterCall.isGenerate,
        r.p.messagesByScope "stream:stream-1")) =
      some (["control:start_interruption", "control:fallback"], none, [true], some []) := by
  decide

end Processors

namespace Processors

open Frames LLM

/-- The indices of the non-system messages when the first message has index `s`. -/
theorem nonSystemIdx_enumFrom_ge (env : Stdlib) (l : List Message) (s : Nat) :
    ∀ i ∈ ((l.enumFrom s).filter (fun im => env.ToLower im.2.role != "system")).map
      (fun im => im.1), s ≤ i := by
  intro i hi
  simp only [List.mem_map, List.mem_filter] at hi
  obtain ⟨⟨j, m⟩, ⟨hmem, _⟩, rfl⟩ := hi
  exact List.le_fst_of_mem_enumFrom hmem

theorem enumFrom_filter_drop (env : Stdlib) (l : List Message) (s n : Nat) :
    ((l.enumFrom s).filter (fun im =>
        !((((l.enumFrom s).filter (fun im => env.ToLower im.2.role != "system")).map
          (fun im => im.1)).take n).contains im.1)).map (fun im => im.2) =
      dropOldestNonSystem env n l := by
  induction l generalizing s n with
  | nil => cases n <;> simp [dropOldestNonSystem]
  | cons m rest ih =>
    cases n with
    | zero => simp [dropOldestNonSystem, List.enumFrom_map_snd]
    | succ n =>
      have hge := nonSystemIdx_enumFrom_ge env rest (s + 1)
      by_cases hm : isNonSystem env m = true
      · have hm2 : (env.ToLower m.role != "system") = true := hm
        simp only [List.enumFrom_cons, List.filter_cons, hm2, if_true, List.map_cons,
          List.take_succ_cons, List.contains_cons, beq_self_eq_true, Bool.true_or,
          Bool.not_true, Bool.false_eq_true, if_false, dropOldestNonSystem, hm]
        rw [← ih (s + 1) n]
        congr 1
        apply List.filter_congr
        intro im him
        have h1 : s + 1 ≤ im.1 := List.le_fst_of_mem_enumFrom him
        have h2 : (im.1 == s) = false := by
          simp only [beq_eq_false_iff_ne, ne_eq]; omega
        simp [h2]
      · have hm2 : (env.ToLower m.role != "system") = false := by
          simpa [isNonSystem] using hm
        have hm3 : isNonSystem env m = false := by simpa using hm
        have hnot : ((((rest.enumFrom (s + 1)).filter
            (fun im => env.ToLower im.2.role != "system")).map (fun im => im.1)).take
              (n + 1)).contains s = false := by
          rw [Bool.eq_false_iff]
          intro hc
          have hmem := List.mem_of_mem_take (List.elem_iff.1 hc)
          have := hge s hmem
          omega
        simp only [List.enumFrom_cons, List.filter_cons, hm2, Bool.false_eq_true, if_false,
          hnot, Bool.not_false, if_true, List.map_cons, dropOldestNonSystem, hm3]
        rw [ih (s + 1) (n + 1)]

end Processors
namespace Processors

open Frames LLM

theorem nonSystemIdx_enumFrom_length (env : Stdlib) (l : List Message) (s : Nat) :
    (((l.enumFrom s).filter (fun im => env.ToLower im.2.role != "system")).map
      (fun im => im.1)).length = nonSystemCount env l := by
  induction l generalizing s with
  | nil => simp [nonSystemCount]
  | cons m rest ih =>
    have ih2 := ih (s + 1)
    simp only [List.length_map, nonSystemCount] at ih2 ⊢
    by_cases hm : (env.ToLower m.role != "system") = true
    · have hm2 : isNonSystem env m = true := hm
      simp only [List.enumFrom_cons, List.filter_cons, hm, if_true, hm2, List.length_cons, ih2]
    · have hmf : (env.ToLower m.role != "system") = false := by simpa using hm
      have hm2 : isNonSystem env m = false := hmf
      simp only [List.enumFrom_cons, List.filter_cons, hmf, hm2, Bool.false_eq_true, if_false,
        ih2]

theorem nonSystemIndices_length (env : Stdlib) (l : List Message) :
    (nonSystemIndices env l).length = nonSystemCount env l :=
  nonSystemIdx_enumFrom_length env l 0

theorem pruneByHistory_eq_dropOldest (env : Stdlib) (l : List Message) (maxHistory : Int)
    (h : 0 < maxHistory) :
    pruneByHistory env l maxHistory =
      dropOldestNonSystem env (nonSystemCount env l - maxHistory.toNat) l := by
  unfold pruneByHistory
  have h1 : ¬ maxHistory ≤ 0 := by omega
  simp only [h1, if_false, nonSystemIndices_length]
  by_cases hk : (nonSystemCount env l : Int) ≤ maxHistory
  · have h0 : nonSystemCount env l - maxHistory.toNat = 0 := by omega
    simp only [hk, if_true, h0]
    cases l <;> rfl
  · simp only [hk, if_false]
    exact enumFrom_filter_drop env l 0 _

theorem dropOldest_filter_nonSystem (env : Stdlib) (n : Nat) (l : List Message) :
    (dropOldestNonSystem env n l).filter (isNonSystem env) =
      (l.filter (isNonSystem env)).drop n := by
  induction l generalizing n with
  | nil => cases n <;> simp [dropOldestNonSystem]
  | cons m rest ih =>
    cases n with
    | zero => simp [dropOldestNonSystem]
    | succ n =>
      by_cases hm : isNonSystem env m = true
      · simp [dropOldestNonSystem, hm, ih n]
      · simp [dropOldestNonSystem, hm, ih (n + 1)]

theorem dropOldest_filter_system (env : Stdlib) (n : Nat) (l : List Message) :
    (dropOldestNonSystem env n l).filter (fun m => !isNonSystem env m) =
      l.filter (fun m => !isNonSystem env m) := by
  induction l generalizing n with
  | nil => cases n <;> simp [dropOldestNonSystem]
  | cons m rest ih =>
    cases n with
    | zero => simp [dropOldestNonSystem]
    | succ n =>
      by_cases hm : isNonSystem env m = true
      · simp [dropOldestNonSystem, hm, ih n]
      · simp [dropOldestNonSystem, hm, ih (n + 1)]

theorem dropOldest_sublist (env : Stdlib) (n : Nat) (l : List Message) :
    (dropOldestNonSystem env n l).Sublist l := by
  induction l generalizing n with
  | nil => cases n <;> simp [dropOldestNonSystem]
  | cons m rest ih =>
    cases n with
    | zero => simp [dropOldestNonSystem]
    | succ n =>
      by_cases hm : isNonSystem env m = true
      · simp only [dropOldestNonSystem, hm, if_true]
        exact (ih n).cons m
      · have hmf : isNonSystem env m = false := by simpa using hm
        simp only [dropOldestNonSystem, hmf, Bool.false_eq_true, if_false]
        exact (ih (n + 1)).cons₂ m

theorem dropOldest_length (env : Stdlib) (n : Nat) (l : List Message)
    (h : n ≤ nonSystemCount env l) :
    (dropOldestNonSystem env n l).length + n = l.length := by
  induction l generalizing n with
  | nil =>
    have : n = 0 := by simpa [nonSystemCount] using h
    subst this
    simp [dropOldestNonSystem]
  | cons m rest ih =>
    cases n with
    | zero => simp [dropOldestNonSystem]
    | succ n =>
      by_cases hm : isNonSystem env m = true
      · have h2 : n ≤ nonSystemCount env rest := by
          simp only [nonSystemCount, List.filter_cons, hm, if_true, List.length_cons] at h
          simp only [nonSystemCount]; omega
        simp only [dropOldestNonSystem, hm, if_true, List.length_cons]
        have := ih n h2
        omega
      · have hmf : isNonSystem env m = false := by simpa using hm
        have h2 : n + 1 ≤ nonSystemCount env rest := by
          simp only [nonSystemCount, List.filter_cons, hmf, Bool.false_eq_true, if_false] at h
          simp only [nonSystemCount]; omega
        simp only [dropOldestNonSystem, hmf, Bool.false_eq_true, if_false, List.length_cons]
        have := ih (n + 1) h2
        omega

theorem dropOldest_count (env : Stdlib) (n : Nat) (l : List Message) :
    nonSystemCount env (dropOldestNonSystem env n l) = nonSystemCount env l - n := by
  simp [nonSystemCount, dropOldest_filter_nonSystem]

theorem eraseIdx_head_enumFrom (env : Stdlib) (l : List Message) (s i : Nat) (rest : List Nat)
    (h : ((l.enumFrom s).filter (fun im => env.ToLower im.2.role != "system")).map
      (fun im => im.1) = i :: rest) :
    l.eraseIdx (i - s) = dropOldestNonSystem env 1 l := by
  induction l generalizing s with
  | nil => simp at h
  | cons m tl ih =>
    by_cases hm : (env.ToLower m.role != "system") = true
    · have hm2 : isNonSystem env m = true := hm
      simp only [List.enumFrom_cons, List.filter_cons, hm, if_true, List.map_cons,
        List.cons.injEq] at h
      obtain ⟨rfl, _⟩ := h
      simp [dropOldestNonSystem, hm2]
    · have hmf : (env.ToLower m.role != "system") = false := by simpa using hm
      have hm2 : isNonSystem env m = false := hmf
      simp only [List.enumFrom_cons, List.filter_cons, hmf, Bool.false_eq_true, if_false] at h
      have hge : s + 1 ≤ i := nonSystemIdx_enumFrom_ge env tl (s + 1) i (by rw [h]; simp)
      have hi : i - s = (i - (s + 1)) + 1 := by omega
      rw [hi, List.eraseIdx_cons_succ, ih (s + 1) h]
      simp [dropOldestNonSystem, hm2]

theorem eraseIdx_head_nonSystem (env : Stdlib) (l : List Message) (i : Nat) (rest : List Nat)
    (h : nonSystemIndices env l = i :: rest) :
    l.eraseIdx i = dropOldestNonSystem env 1 l :=
  eraseIdx_head_enumFrom env l 0 i rest h

/-- What the loop of `pruneByTokens` returns: within budget or without non-system
messages, obtained from the input by dropping oldest non-system messages. -/
theorem pruneByTokensLoop_spec (env : Stdlib) (fuel : Nat) (l r : List Message) (maxTokens : Int)
    (h : pruneByTokensLoop env fuel l maxTokens = some r) :
    ((estimateMessagesTokens r : Int) ≤ maxTokens ∨ nonSystemCount env r = 0) ∧
      ∃ n, r = dropOldestNonSystem env n l := by
  induction fuel generalizing l with
  | zero => simp [pruneByTokensLoop] at h
  | succ k ih =>
    unfold pruneByTokensLoop at h
    by_cases ht : (estimateMessagesTokens l : Int) ≤ maxTokens
    · simp only [ht, if_true, Option.some.injEq] at h
      subst h
      exact ⟨Or.inl ht, 0, by cases l <;> rfl⟩
    · simp only [ht, if_false] at h
      cases hn : nonSystemIndices env l with
      | nil =>
        simp only [hn, Option.some.injEq] at h
        subst h
        refine ⟨Or.inr ?_, 0, by cases l <;> rfl⟩
        rw [← nonSystemIndices_length, hn]; rfl
      | cons i rest =>
        simp only [hn] at h
        rw [eraseIdx_head_nonSystem env l i rest hn] at h
        obtain ⟨h1, n, hn2⟩ := ih _ h
        refine ⟨h1, n + 1, ?_⟩
        rw [hn2]
        clear * -
        induction l generalizing n with
        | nil => cases n <;> simp [dropOldestNonSystem]
        | cons m tl ihl =>
          by_cases hm : isNonSystem env m = true
          · simp [dropOldestNonSystem, hm]
          · have hmf : isNonSystem env m = false := by simpa using hm
            cases n with
            | zero => simp [dropOldestNonSystem, hmf]
            | succ n =>
              have := ihl (n + 1)
              simp only [dropOldestNonSystem, hmf, Bool.false_eq_true, if_false] at this ⊢
              rw [this]

end Processors
namespace Processors

open Frames LLM

theorem pruneByHistory_count (env : Stdlib) (l : List Message) (maxHistory : Int)
    (h : 0 < maxHistory) :
    (nonSystemCount env (pruneByHistory env l maxHistory) : Int) ≤ maxHistory := by
  rw [pruneByHistory_eq_dropOldest env l maxHistory h, dropOldest_count]
  omega

theorem pruneByTokens_spec (env : Stdlib) (l : List Message) (maxTokens : Int)
    (h : 0 < maxTokens) :
    ((estimateMessagesTokens (pruneByTokens env l maxTokens) : Int) ≤ maxTokens ∨
        nonSystemCount env (pruneByTokens env l maxTokens) = 0) ∧
      ∃ n, pruneByTokens env l maxTokens = dropOldestNonSystem env n l := by
  unfold pruneByTokens
  have h1 : ¬ maxTokens ≤ 0 := by omega
  simp only [h1, if_false]
  have hs := pruneByTokensLoop_isSome env (l.length + 1) l maxTokens (by omega)
  obtain ⟨r, hr⟩ := Option.isSome_iff_exists.1 hs
  rw [hr]
  exact pruneByTokensLoop_spec env _ l r maxTokens hr

theorem pruneMessagesLocked_count (env : Stdlib) (p : LLMProcessor) (l : List Message)
    (hH : 0 < p.maxHistory) :
    (nonSystemCount env (p.pruneMessagesLocked env l) : Int) ≤ p.maxHistory := by
  unfold LLMProcessor.pruneMessagesLocked
  have h1 : ¬ (p.maxHistory ≤ 0 ∧ p.maxTokens ≤ 0) := by omega
  simp only [h1, if_false]
  by_cases he : l.isEmpty = true
  · have : l = [] := List.isEmpty_iff.1 he
    subst this
    simp only [List.isEmpty_nil, if_true, nonSystemCount, List.filter_nil, List.length_nil]
    omega
  · simp only [he, Bool.false_eq_true, if_false, gt_iff_lt, hH, if_true]
    have hc := pruneByHistory_count env l p.maxHistory hH
    by_cases hT : 0 < p.maxTokens
    · simp only [hT, if_true]
      obtain ⟨_, n, hn⟩ := pruneByTokens_spec env (pruneByHistory env l p.maxHistory) p.maxTokens hT
      rw [hn, dropOldest_count]
      omega
    · simp only [hT, if_false]
      exact hc

/-- C13 (counterexample): with `maxHistory = 3` and `maxTokens = 1`, pruning the list
that holds only the system message `you are a helpful assistant` returns it unchanged,
and its estimated token total is 5, above `maxTokens`. -/
theorem prune_keeps_system_over_budget :
    ((NewLLMProcessor none "" []).SetMemoryLimits 3 1).pruneMessagesLocked sampleStdlib
        [systemMessage "you are a helpful assistant"] =
      [systemMessage "you are a helpful assistant"] ∧
    estimateMessagesTokens (((NewLLMProcessor none "" []).SetMemoryLimits 3 1).pruneMessagesLocked
      sampleStdlib [systemMessage "you are a helpful assistant"]) = 5 ∧
    ¬ ((estimateMessagesTokens (((NewLLMProcessor none "" []).SetMemoryLimits 3 1).pruneMessagesLocked
      sampleStdlib [systemMessage "you are a helpful assistant"]) : Int) ≤
        ((NewLLMProcessor none "" []).SetMemoryLimits 3 1).maxTokens) := by
  decide

/-- C13 (amended): for every message list and limits `maxHistory > 0` and
`maxTokens > 0`, the list returned by `pruneMessagesLocked` contains at most
`maxHistory` non-system messages, and its estimated token total is at most `maxTokens`
or it contains no non-system message (system messages are never dropped).  The pruning
loop terminates for every input: it returns within one more iteration than there are
messages. -/
theorem pruneMessagesLocked_bounds (env : Stdlib) (p : LLMProcessor) (messages : List Message)
    (hH : 0 < p.maxHistory) (hT : 0 < p.maxTokens) :
    (nonSystemCount env (p.pruneMessagesLocked env messages) : Int) ≤ p.maxHistory ∧
    ((estimateMessagesTokens (p.pruneMessagesLocked env messages) : Int) ≤ p.maxTokens ∨
      nonSystemCount env (p.pruneMessagesLocked env messages) = 0) ∧
    (∀ (l : List Message) (maxTokens : Int),
      (pruneByTokensLoop env (l.length + 1) l maxTokens).isSome = true) := by
  refine ⟨pruneMessagesLocked_count env p messages hH, ?_, fun l mt =>
    pruneByTokensLoop_isSome env (l.length + 1) l mt (by omega)⟩
  unfold LLMProcessor.pruneMessagesLocked
  have h1 : ¬ (p.maxHistory ≤ 0 ∧ p.maxTokens ≤ 0) := by omega
  simp only [h1, if_false]
  by_cases he : messages.isEmpty = true
  · have : messages = [] := List.isEmpty_iff.1 he
    subst this
    right
    simp [nonSystemCount]
  · simp only [he, Bool.false_eq_true, if_false, gt_iff_lt, hH, hT, if_true]
    exact (pruneByTokens_spec env _ p.maxTokens hT).1

theorem pruneMessagesLocked_bounds_witness :
    (0 < ((NewLLMProcessor none "" []).SetMemoryLimits 1 4).maxHistory ∧
      0 < ((NewLLMProcessor none "" []).SetMemoryLimits 1 4).maxTokens) ∧
    ((nonSystemCount sampleStdlib (((NewLLMProcessor none "" []).SetMemoryLimits 1 4).pruneMessagesLocked
        sampleStdlib [userMessage "one two three", assistantMessage "four",
          userMessage "five six"]) : Int) ≤
        ((NewLLMProcessor none "" []).SetMemoryLimits 1 4).maxHistory ∧
      ((estimateMessagesTokens (((NewLLMProcessor none "" []).SetMemoryLimits 1 4).pruneMessagesLocked
          sampleStdlib [userMessage "one two three", assistantMessage "four",
            userMessage "five six"]) : Int) ≤
          ((NewLLMProcessor none "" []).SetMemoryLimits 1 4).maxTokens ∨
        nonSystemCount sampleStdlib (((NewLLMProcessor none "" []).SetMemoryLimits 1 4).pruneMessagesLocked
          sampleStdlib [userMessage "one two three", assistantMessage "four",
            userMessage "five six"]) = 0) ∧
      (∀ (l : List Message) (maxTokens : Int),
        (pruneByTokensLoop sampleStdlib (l.length + 1) l maxTokens).isSome = true)) :=
  ⟨by decide,
    pruneMessagesLocked_bounds sampleStdlib ((NewLLMProcessor none "" []).SetMemoryLimits 1 4)
      [userMessage "one two three", assistantMessage "four", userMessage "five six"]
      (by decide) (by decide)⟩

end Processors
namespace Processors

open Frames LLM

theorem historyInv_set {env : Stdlib} {H : Int} {p : LLMProcessor} (h : p.historyInv env H)
    (k : String) (msgs : List Message) (hb : (nonSystemCount env msgs : Int) ≤ H)
    (q : LLMProcessor) (hm : q.messagesByScope = p.messagesByScope.set k msgs)
    (hh : q.maxHistory = p.maxHistory) : q.historyInv env H := by
  obtain ⟨h0, h1, h2⟩ := h
  refine ⟨h0, by rw [hh]; exact h1, ?_⟩
  intro scope l hs
  rw [hm] at hs
  simp only [GoMap.set] at hs
  by_cases hk : scope = k
  · simp only [hk, if_true, Option.some.injEq] at hs
    rw [← hs]; exact hb
  · simp only [hk, if_false] at hs
    exact h2 scope l hs

theorem historyInv_delete {env : Stdlib} {H : Int} {p : LLMProcessor} (h : p.historyInv env H)
    (q : LLMProcessor)
    (hm : ∀ scope l, q.messagesByScope scope = some l → p.messagesByScope scope = some l)
    (hh : q.maxHistory = p.maxHistory) : q.historyInv env H := by
  obtain ⟨h0, h1, h2⟩ := h
  exact ⟨h0, by rw [hh]; exact h1, fun scope l hs => h2 scope l (hm scope l hs)⟩

theorem nonSystemCount_system (env : Stdlib) (henv : env.ToLower "system" = "system")
    (text : String) (l : List Message) :
    nonSystemCount env (l ++ [systemMessage text]) = nonSystemCount env l := by
  simp [nonSystemCount, List.filter_append, isNonSystem, systemMessage, henv]

theorem nonSystemCount_dropLast (env : Stdlib) (l : List Message) :
    nonSystemCount env l.dropLast ≤ nonSystemCount env l := by
  unfold nonSystemCount
  exact ((List.dropLast_sublist l).filter _).length_le

theorem ensureMessagesLocked_inv {H : Int} (env : Stdlib)
    (henv : env.ToLower "system" = "system")
    (p : LLMProcessor) (scope : String) (h : p.historyInv env H) :
    (p.ensureMessagesLocked env scope).2.historyInv env H ∧
    (p.ensureMessagesLocked env scope).2.messagesByScope (scopeKeyOrDefault env scope) =
      some (p.ensureMessagesLocked env scope).1 ∧
    (nonSystemCount env (p.ensureMessagesLocked env scope).1 : Int) ≤ H := by
  cases hs : p.messagesByScope (scopeKeyOrDefault env scope) with
  | some msgs =>
    have e : p.ensureMessagesLocked env scope = (msgs, p) := by
      unfold LLMProcessor.ensureMessagesLocked
      simp only [hs]
    rw [e]
    exact ⟨h, hs, h.2.2 _ _ hs⟩
  | none =>
    have e : ∀ l0, l0 = (if p.system ≠ "" then [systemMessage p.system] else []) →
        p.ensureMessagesLocked env scope = (l0, { p with
          messagesByScope := p.messagesByScope.set (scopeKeyOrDefault env scope) l0 }) := by
      intro l0 hl0
      unfold LLMProcessor.ensureMessagesLocked
      simp only [hs, hl0]
    rw [e _ rfl]
    have hb : (nonSystemCount env (if p.system ≠ "" then [systemMessage p.system] else []) : Int)
        ≤ H := by
      have := h.1
      split_ifs
      · have := nonSystemCount_system env henv p.system []
        simp only [List.nil_append] at this
        rw [this]; simp only [nonSystemCount, List.filter_nil, List.length_nil]; omega
      · simp only [nonSystemCount, List.filter_nil, List.length_nil]; omega
    refine ⟨historyInv_set h _ _ hb _ rfl rfl, ?_, hb⟩
    simp [GoMap.set]

theorem appendMessages_inv {H : Int} (env : Stdlib) (henv : env.ToLower "system" = "system")
    (p : LLMProcessor) (scope : String) (extra : List Message) (h : p.historyInv env H) :
    (p.appendMessages env scope extra).2.historyInv env H ∧
    (nonSystemCount env (p.appendMessages env scope extra).1 : Int) ≤ H := by
  obtain ⟨h1, _, _⟩ := ensureMessagesLocked_inv env henv p scope h
  unfold LLMProcessor.appendMessages
  have hb := pruneMessagesLocked_count env (p.ensureMessagesLocked env scope).2
    ((p.ensureMessagesLocked env scope).1 ++ extra) (by rw [h1.2.1]; exact h1.1)
  rw [h1.2.1] at hb
  exact ⟨historyInv_set h1 _ _ hb _ rfl rfl, hb⟩

theorem appendAssistant_inv {H : Int} (env : Stdlib) (henv : env.ToLower "system" = "system")
    (p : LLMProcessor) (scope text : String) (h : p.historyInv env H) :
    (p.appendAssistant env scope text).historyInv env H := by
  unfold LLMProcessor.appendAssistant
  split_ifs
  · exact h
  · exact (appendMessages_inv env henv p scope _ h).1

theorem appendSystem_inv {H : Int} (env : Stdlib) (henv : env.ToLower "system" = "system")
    (p : LLMProcessor) (scope text : String) (h : p.historyInv env H) :
    (p.appendSystem env scope text).historyInv env H := by
  unfold LLMProcessor.appendSystem
  split_ifs
  · exact h
  · exact (appendMessages_inv env henv p scope _ h).1

theorem popLastMessage_inv {H : Int} (env : Stdlib) (henv : env.ToLower "system" = "system")
    (p : LLMProcessor) (scope : String) (h : p.historyInv env H) :
    (p.popLastMessage env scope).historyInv env H := by
  obtain ⟨h1, _, h4⟩ := ensureMessagesLocked_inv env henv p scope h
  unfold LLMProcessor.popLastMessage
  simp only []
  split_ifs
  · exact h1
  · refine historyInv_set h1 _ _ ?_ _ rfl rfl
    have := nonSystemCount_dropLast env (p.ensureMessagesLocked env scope).1
    omega

theorem ensureAgentLocked_inv {H : Int} (env : Stdlib) (henv : env.ToLower "system" = "system")
    (p : LLMProcessor) (agent scope : String) (h : p.historyInv env H) :
    (p.ensureAgentLocked env agent scope).historyInv env H := by
  unfold LLMProcessor.ensureAgentLocked
  simp only []
  split_ifs
  · exact h
  · exact h
  · obtain ⟨h1, h3, h4⟩ :=
      ensureMessagesLocked_inv env henv p (scopeKeyOrDefault env scope) h
    cases hc : (p.ensureMessagesLocked env (scopeKeyOrDefault env scope)).2.agents agent with
    | none => exact h1
    | some cfg =>
      simp only []
      split_ifs
      · exact h1
      · refine historyInv_set h1 _ _ ?_ _ rfl rfl
        rw [nonSystemCount_system env henv]
        cases hl : (p.ensureMessagesLocked env (scopeKeyOrDefault env scope)).2.messagesByScope
            (scopeKeyOrDefault env scope) with
        | none =>
          simp only [Option.getD_none, nonSystemCount, List.filter_nil, List.length_nil]
          have := h1.1; omega
        | some l =>
          simp only [Option.getD_some]
          exact h1.2.2 _ _ hl

end Processors
namespace Processors

open Frames LLM

theorem contextWithUserWithAgent_inv {H : Int} (env : Stdlib) (henv : env.ToLower "system" = "system")
    (p : LLMProcessor) (text agent scope : String) (h : p.historyInv env H) :
    (p.contextWithUserWithAgent env text agent scope).2.historyInv env H := by
  unfold LLMProcessor.contextWithUserWithAgent
  exact (appendMessages_inv env henv _ scope _ (ensureAgentLocked_inv env henv p agent scope h)).1

theorem contextWithUserParts_inv {H : Int} (env : Stdlib) (henv : env.ToLower "system" = "system")
    (p : LLMProcessor) (text imageURL imageBase64 imageMIME agent scope : String)
    (h : p.historyInv env H) :
    (p.contextWithUserParts env text imageURL imageBase64 imageMIME agent scope).2.historyInv
      env H := by
  unfold LLMProcessor.contextWithUserParts
  by_cases hc : imageURL = "" ∧ imageBase64 = ""
  · rw [if_pos hc]
    exact contextWithUserWithAgent_inv env henv p text agent scope h
  · rw [if_neg hc]
    exact (appendMessages_inv env henv _ scope _
      (ensureAgentLocked_inv env henv p agent scope h)).1

theorem resolveAgent_inv {H : Int} (env : Stdlib) (p : LLMProcessor) (meta : MetaMap) (streamID : String)
    (h : p.historyInv env H) : (p.resolveAgent meta streamID).2.historyInv env H := by
  unfold LLMProcessor.resolveAgent
  simp only []
  split_ifs <;> exact h

theorem setLanguageFromMeta_inv {H : Int} (env : Stdlib) (p : LLMProcessor) (meta : MetaMap)
    (h : p.historyInv env H) : (p.setLanguageFromMeta meta).historyInv env H := by
  unfold LLMProcessor.setLanguageFromMeta
  simp only []
  split_ifs <;> exact h

theorem setCallSIDFromMeta_inv {H : Int} (env : Stdlib) (p : LLMProcessor) (meta : MetaMap)
    (h : p.historyInv env H) : (p.setCallSIDFromMeta meta).historyInv env H := by
  unfold LLMProcessor.setCallSIDFromMeta
  split_ifs <;> exact h

theorem GoMap_delete_some {V : Type} (m : GoMap V) (k scope : String) (v : V)
    (h : (m.delete k) scope = some v) : m scope = some v := by
  simp only [GoMap.delete] at h
  split_ifs at h
  exact h

theorem clearCall_inv {H : Int} (env : Stdlib) (p : LLMProcessor) (meta : MetaMap)
    (h : p.historyInv env H) : (p.clearCall meta).historyInv env H := by
  refine historyInv_delete h _ ?_ rfl
  intro scope l hs
  unfold LLMProcessor.clearCall at hs
  simp only [] at hs
  split_ifs at hs
  · exact GoMap_delete_some _ _ _ _ (GoMap_delete_some _ _ _ _ hs)
  · exact GoMap_delete_some _ _ _ _ hs
  · exact GoMap_delete_some _ _ _ _ hs
  · exact hs

theorem storePendingConfirm_inv {H : Int} (env : Stdlib) (p : LLMProcessor) (streamID : String)
    (call : ToolCall) (meta : MetaMap) (tool : Tool) (h : p.historyInv env H) :
    (p.storePendingConfirm env streamID call meta tool).historyInv env H := by
  unfold LLMProcessor.storePendingConfirm
  split_ifs <;> exact h

theorem emitToolCalls_foldl_inv {H : Int} (env : Stdlib) (streamID : String) (meta : MetaMap) (now : Int)
    (calls : List ToolCall) (acc : List Frame × LLMProcessor) (h : acc.2.historyInv env H) :
    (calls.foldl
      (fun (acc : List Frame × LLMProcessor) call =>
        (acc.1 ++ [NewControlFrame streamID now ControlToolCall
            (acc.2.toolCallMeta env streamID call meta)],
          { acc.2 with pendingTools := acc.2.pendingTools.set call.ID call }))
      acc).2.historyInv env H := by
  induction calls generalizing acc with
  | nil => exact h
  | cons c rest ih =>
    simp only [List.foldl_cons]
    exact ih _ h

theorem emitToolCalls_inv {H : Int} (env : Stdlib) (p : LLMProcessor) (streamID : String)
    (calls : List ToolCall) (meta : MetaMap) (now : Int) (h : p.historyInv env H) :
    (p.emitToolCalls env streamID calls meta now).2.historyInv env H := by
  unfold LLMProcessor.emitToolCalls
  exact emitToolCalls_foldl_inv env streamID meta now calls ([], p) h

theorem handleToolCallsWithConfirmation_inv {H : Int} (env : Stdlib) (p : LLMProcessor)
    (streamID : String) (calls : List ToolCall) (meta : MetaMap) (now : Int)
    (h : p.historyInv env H) :
    (p.handleToolCallsWithConfirmation env streamID calls meta now).2.historyInv env H := by
  unfold LLMProcessor.handleToolCallsWithConfirmation
  cases calls.find? p.requiresConfirmation with
  | some call =>
    simp only []
    cases p.toolForName call.Name with
    | some t => exact storePendingConfirm_inv env p streamID call meta t h
    | none => exact h
  | none => exact emitToolCalls_inv env p streamID calls meta now h

theorem classifyConfirmationLLM_inv {H : Int} (env : Stdlib) (p : LLMProcessor) (text : String)
    (meta : MetaMap) (enabled : Bool) (h : p.historyInv env H) :
    (p.classifyConfirmationLLM env text meta enabled).2.historyInv env H := by
  unfold LLMProcessor.classifyConfirmationLLM
  cases p.adapter with
  | none => exact h
  | some adapter =>
    simp only []
    split_ifs
    · exact h
    · split <;> exact h

theorem confirmAccepted_inv {H : Int} (env : Stdlib) (p : LLMProcessor) (streamID : String)
    (pending : pendingToolConfirm) (now : Int) (h : p.historyInv env H) :
    (p.confirmAccepted env streamID pending now).2.historyInv env H := by
  unfold LLMProcessor.confirmAccepted
  exact emitToolCalls_inv env _ streamID _ _ now h

theorem confirmCancelled_inv {H : Int} (env : Stdlib) (p : LLMProcessor) (streamID : String)
    (pending : pendingToolConfirm) (now : Int) (h : p.historyInv env H) :
    (p.confirmCancelled env streamID pending now).2.historyInv env H := h

theorem confirmRepeat_inv {H : Int} (env : Stdlib) (p : LLMProcessor) (streamID : String)
    (pending : pendingToolConfirm) (now : Int) (h : p.historyInv env H) :
    (p.confirmRepeat env streamID pending now).2.historyInv env H := h

theorem handlePendingConfirmation_inv {H : Int} (env : Stdlib) (p : LLMProcessor) (streamID text : String)
    (now : Int) (r : List Frame × LLMProcessor) (h : p.historyInv env H)
    (hr : p.handlePendingConfirmation env streamID text now = some r) :
    r.2.historyInv env H := by
  unfold LLMProcessor.handlePendingConfirmation at hr
  cases hp : p.pendingConfirms streamID with
  | none => simp [hp] at hr
  | some pending =>
    simp only [hp] at hr
    have hc : ∀ enabled, p.historyInv env H →
        (p.classifyConfirmationLLM env text pending.meta enabled).2.historyInv env H :=
      fun enabled => classifyConfirmationLLM_inv env p text pending.meta enabled
    split_ifs at hr <;> simp only [Option.some.injEq] at hr <;> subst hr <;>
      first
        | contradiction
        | exact confirmAccepted_inv env p streamID pending now h
        | exact confirmCancelled_inv env p streamID pending now h
        | exact confirmAccepted_inv env _ streamID pending now (hc _ h)

theorem streamToFrames_inv {H : Int} (env : Stdlib) (henv : env.ToLower "system" = "system")
    (p : LLMProcessor) (srcMeta : MetaMap) (tokens : List String) (now : Int)
    (h : p.historyInv env H) : (p.streamToFrames env srcMeta tokens now).2.historyInv env H := by
  unfold LLMProcessor.streamToFrames
  exact appendAssistant_inv env henv p _ _ h

theorem noteToolStatus_inv {H : Int} (env : Stdlib) (henv : env.ToLower "system" = "system")
    (p : LLMProcessor) (meta : MetaMap) (h : p.historyInv env H) :
    (p.noteToolStatus env meta).historyInv env H := by
  unfold LLMProcessor.noteToolStatus
  simp only []
  split_ifs
  · exact appendSystem_inv env henv _ _ _ (setLanguageFromMeta_inv env p meta h)
  · exact setLanguageFromMeta_inv env p meta h

theorem toolResultTurn_inv {H : Int} (env : Stdlib) (henv : env.ToLower "system" = "system")
    (p : LLMProcessor) (meta : MetaMap) (h : p.historyInv env H) :
    (p.toolResultTurn env meta).2.historyInv env H := by
  unfold LLMProcessor.toolResultTurn
  simp only []
  apply resolveAgent_inv
  apply (appendMessages_inv env henv _ _ _ _).1
  split_ifs <;> exact h

theorem contextSnapshot_inv {H : Int} (env : Stdlib) (henv : env.ToLower "system" = "system")
    (p : LLMProcessor) (scope : String) (h : p.historyInv env H) :
    (p.contextSnapshot env scope).2.historyInv env H ∧
    (nonSystemCount env (p.contextSnapshot env scope).1.Messages : Int) ≤ H := by
  obtain ⟨h1, _, h4⟩ := ensureMessagesLocked_inv env henv p scope h
  exact ⟨h1, h4⟩

theorem applyToolResult_inv {H : Int} (env : Stdlib) (henv : env.ToLower "system" = "system")
    (p : LLMProcessor) (pts : Int) (meta : MetaMap) (now : Int)
    (r : List Frame × LLMProcessor) (h : p.historyInv env H)
    (hr : p.applyToolResult env pts meta now = some r) : r.2.historyInv env H := by
  unfold LLMProcessor.applyToolResult at hr
  simp only [] at hr
  have h1 := noteToolStatus_inv env henv p meta h
  split_ifs at hr
  · simp only [Option.some.injEq] at hr; subst hr; exact h1
  · have h2 := toolResultTurn_inv env henv _ meta h1
    split at hr
    · simp at hr
    · have h3 := (contextSnapshot_inv env henv _ (scopeKey env meta (meta.get MetaStreamID)) h2).1
      split at hr <;> simp only [Option.some.injEq] at hr <;> subst hr
      · exact h3
      · exact streamToFrames_inv env henv _ _ _ now h3

theorem userTurn_inv {H : Int} (env : Stdlib) (henv : env.ToLower "system" = "system")
    (p : LLMProcessor) (text : String) (meta : MetaMap) (h : p.historyInv env H) :
    (p.userTurn env text meta).2.2.historyInv env H := by
  unfold LLMProcessor.userTurn
  simp only []
  apply contextWithUserParts_inv env henv
  apply resolveAgent_inv
  exact setCallSIDFromMeta_inv env _ meta (setLanguageFromMeta_inv env p meta h)

theorem processText_inv {H : Int} (env : Stdlib) (henv : env.ToLower "system" = "system")
    (p : LLMProcessor) (text : String) (meta : MetaMap) (now : Int) (r : ProcessResult)
    (h : p.historyInv env H) (hr : p.processText env text meta now = some r) :
    r.p.historyInv env H := by
  unfold LLMProcessor.processText at hr
  simp only [] at hr
  have h0 := setCallSIDFromMeta_inv env _ meta (setLanguageFromMeta_inv env p meta h)
  have hu := userTurn_inv env henv p text meta h
  split at hr
  · rename_i r0 hr0
    simp only [Option.some.injEq] at hr; subst hr
    exact handlePendingConfirmation_inv env _ _ _ now r0 h0 hr0
  · split at hr
    · simp at hr
    · split at hr
      · simp only [Option.some.injEq] at hr; subst hr
        exact popLastMessage_inv env henv _ _ hu
      · split_ifs at hr <;>
          first
            | (simp only [Option.some.injEq] at hr
               subst hr
               exact handleToolCallsWithConfirmation_inv env _ _ _ meta now hu)
            | (split at hr <;> simp only [Option.some.injEq] at hr <;> subst hr <;>
                first
                  | exact hu
                  | exact streamToFrames_inv env henv _ meta _ now hu)

theorem processSystem_inv {H : Int} (env : Stdlib) (henv : env.ToLower "system" = "system")
    (p : LLMProcessor) (f : Frame) (pts : Int) (name : String) (meta : MetaMap) (now : Int)
    (r : ProcessResult) (h : p.historyInv env H)
    (hr : p.processSystem env f pts name meta now = some r) : r.p.historyInv env H := by
  unfold LLMProcessor.processSystem at hr
  simp only [] at hr
  have h1 : (if meta.get MetaSystemMessage ≠ "" then
      p.appendSystem env (scopeKey env meta (meta.get MetaStreamID)) (meta.get MetaSystemMessage)
    else p).historyInv env H := by
    split_ifs
    · exact appendSystem_inv env henv p _ _ h
    · exact h
  generalize (if meta.get MetaSystemMessage ≠ "" then
      p.appendSystem env (scopeKey env meta (meta.get MetaStreamID)) (meta.get MetaSystemMessage)
    else p) = p1 at hr h1
  have h2 := setLanguageFromMeta_inv env p1 meta h1
  generalize p1.setLanguageFromMeta meta = p2 at hr h2
  have h3 : (if name = "call_end" then p2.clearCall meta else p2).historyInv env H := by
    split_ifs
    · exact clearCall_inv env p2 meta h2
    · exact h2
  generalize (if name = "call_end" then p2.clearCall meta else p2) = p3 at hr h3
  split_ifs at hr
  · split at hr
    · simp at hr
    · rename_i r0 hr0
      simp only [Option.some.injEq] at hr; subst hr
      exact applyToolResult_inv env henv p3 pts meta now r0 h3 hr0
  · simp only [Option.some.injEq] at hr; subst hr
    exact appendAssistant_inv env henv p3 _ _ h3
  · simp only [Option.some.injEq] at hr; subst hr
    exact h3

theorem Process_inv {H : Int} (env : Stdlib) (henv : env.ToLower "system" = "system")
    (p : LLMProcessor) (f : Frame) (now : Int) (r : ProcessResult) (h : p.historyInv env H)
    (hr : p.Process env f now = some r) : r.p.historyInv env H := by
  unfold LLMProcessor.Process at hr
  split at hr
  · exact processSystem_inv env henv p _ _ _ _ now r h hr
  · exact processText_inv env henv p _ _ now r h hr
  · simp only [Option.some.injEq] at hr; subst hr; exact h

theorem processAll_inv {H : Int} (env : Stdlib) (henv : env.ToLower "system" = "system")
    (frames : List (Frame × Int)) (p q : LLMProcessor) (h : p.historyInv env H)
    (hq : p.processAll env frames = some q) : q.historyInv env H := by
  induction frames generalizing p with
  | nil =>
    simp only [LLMProcessor.processAll, Option.some.injEq] at hq
    subst hq; exact h
  | cons fn rest ih =>
    simp only [LLMProcessor.processAll] at hq
    split at hq
    · simp at hq
    · rename_i r hr
      exact ih r.p (Process_inv env henv p fn.1 fn.2 r h hr) hq

end Processors
namespace Processors

open Frames LLM

theorem NewLLMProcessor_inv (env : Stdlib) (adapter : Option LLMAdapter) (system : String)
    (tools : List Tool) (maxHistory maxTokens : Int) (h : 0 < maxHistory) :
    ((NewLLMProcessor adapter system tools).SetMemoryLimits maxHistory maxTokens).historyInv env
      maxHistory := by
  refine ⟨h, ?_, ?_⟩
  · simp only [LLMProcessor.SetMemoryLimits]
    split_ifs
    · omega
    · rfl
  · intro scope msgs hs
    simp [LLMProcessor.SetMemoryLimits, NewLLMProcessor, GoMap.empty] at hs

/-- C14: for every message list with `k` non-system messages and every
`maxHistory > 0`, `pruneByHistory` returns the input with exactly the oldest
`max(0, k - maxHistory)` non-system messages removed (`dropOldestNonSystem`): that many
messages are gone, all system-role messages are kept, the result is a sublist of the
input (relative order unchanged), the kept non-system messages are the most recent ones,
and the result has at most `maxHistory` non-system messages.  Hence a processor created
with the limit `maxHistory` keeps every stored history within the limit, and after any
sequence of processed frames (user turns included) the snapshot has at most `maxHistory`
non-system messages. -/
theorem pruneByHistory_drops_oldest (env : Stdlib) (messages : List Message) (maxHistory : Int)
    (h : 0 < maxHistory) :
    pruneByHistory env messages maxHistory =
      dropOldestNonSystem env (nonSystemCount env messages - maxHistory.toNat) messages ∧
    (pruneByHistory env messages maxHistory).length +
      (nonSystemCount env messages - maxHistory.toNat) = messages.length ∧
    (pruneByHistory env messages maxHistory).filter (fun m => !isNonSystem env m) =
      messages.filter (fun m => !isNonSystem env m) ∧
    (pruneByHistory env messages maxHistory).Sublist messages ∧
    (pruneByHistory env messages maxHistory).filter (isNonSystem env) =
      (messages.filter (isNonSystem env)).drop (nonSystemCount env messages - maxHistory.toNat) ∧
    (nonSystemCount env (pruneByHistory env messages maxHistory) : Int) ≤ maxHistory ∧
    (∀ (adapter : Option LLMAdapter) (system : String) (tools : List Tool) (maxTokens : Int),
      ((NewLLMProcessor adapter system tools).SetMemoryLimits maxHistory maxTokens).historyInv env
        maxHistory) ∧
    (∀ (p q : LLMProcessor) (frames : List (Frame × Int)) (scope : String),
      env.ToLower "system" = "system" → p.historyInv env maxHistory →
      p.processAll env frames = some q →
      (nonSystemCount env (q.contextSnapshot env scope).1.Messages : Int) ≤ maxHistory) := by
  have he := pruneByHistory_eq_dropOldest env messages maxHistory h
  refine ⟨he, ?_, ?_, ?_, ?_, pruneByHistory_count env messages maxHistory h, ?_, ?_⟩
  · rw [he]
    exact dropOldest_length env _ messages (Nat.sub_le _ _)
  · rw [he]; exact dropOldest_filter_system env _ messages
  · rw [he]; exact dropOldest_sublist env _ messages
  · rw [he]; exact dropOldest_filter_nonSystem env _ messages
  · intro adapter system tools maxTokens
    exact NewLLMProcessor_inv env adapter system tools maxHistory maxTokens h
  · intro p q frames scope henv hp hq
    exact (contextSnapshot_inv env henv q scope (processAll_inv env henv frames p q hp hq)).2

theorem pruneByHistory_drops_oldest_witness :
    0 < (2 : Int) ∧
    pruneByHistory sampleStdlib
      [systemMessage "s", userMessage "a", assistantMessage "b", userMessage "c"] 2 =
      [systemMessage "s", assistantMessage "b", userMessage "c"] ∧
    (nonSystemCount sampleStdlib (pruneByHistory sampleStdlib
      [systemMessage "s", userMessage "a", assistantMessage "b", userMessage "c"] 2) : Int) ≤ 2 :=
  ⟨by decide,
    (pruneByHistory_drops_oldest sampleStdlib
      [systemMessage "s", userMessage "a", assistantMessage "b", userMessage "c"] 2
      (by decide)).1.trans (by decide),
    (pruneByHistory_drops_oldest sampleStdlib
      [systemMessage "s", userMessage "a", assistantMessage "b", userMessage "c"] 2
      (by decide)).2.2.2.2.2.1⟩

end Processors
namespace Turn

/-- C21 (counterexample): a manager is brought to Speaking (speech start, speech end,
agent speech start).  `OnUserSpeechEnd` then leaves it in Speaking: the transition
Speaking to Thinking is not in the table and `setState` discards the error. -/
theorem onUserSpeechEnd_from_speaking_stays :
    ((NewManager none false).run
      [Call.OnUserSpeechStart, Call.OnUserSpeechEnd, Call.OnAgentSpeechStart]).State
      = StateSpeaking ∧
    (((NewManager none false).run
      [Call.OnUserSpeechStart, Call.OnUserSpeechEnd, Call.OnAgentSpeechStart]).OnUserSpeechEnd).State
      = StateSpeaking ∧
    transitionValid StateSpeaking StateThinking = false ∧
    StateSpeaking ≠ StateThinking := by
  decide

/-- C21 (amended): when the manager is in Listening or Thinking, its state is Thinking
after `OnUserSpeechEnd` returns; when it is in Speaking, it stays in Speaking (the
transition table has no edge from Speaking to Thinking).  The call from Idle is left
out. -/
theorem onUserSpeechEnd_state (m : manager)
    (h : m.State = StateListening ∨ m.State = StateThinking ∨ m.State = StateSpeaking) :
    (m.OnUserSpeechEnd).State =
      if m.State = StateSpeaking then StateSpeaking else StateThinking := by
  have h1 : transitionValid StateListening StateThinking = true := by decide
  have h2 : transitionValid StateThinking StateThinking = false := by decide
  have h3 : transitionValid StateSpeaking StateThinking = false := by decide
  have n1 : StateListening ≠ StateSpeaking := by decide
  have n2 : StateThinking ≠ StateSpeaking := by decide
  unfold manager.OnUserSpeechEnd manager.setState manager.State stateMachine.Transition
  unfold manager.State at h
  rcases h with h | h | h
  · simp [h, h1, n1]
  · simp [h, h2, n2]
  · simp [h, h3]

theorem onUserSpeechEnd_state_witness :
    (((NewManager none false).run [Call.OnUserSpeechStart]).State = StateListening ∨
      ((NewManager none false).run [Call.OnUserSpeechStart]).State = StateThinking ∨
      ((NewManager none false).run [Call.OnUserSpeechStart]).State = StateSpeaking) ∧
    (((NewManager none false).run [Call.OnUserSpeechStart]).OnUserSpeechEnd).State =
      if ((NewManager none false).run [Call.OnUserSpeechStart]).State = StateSpeaking
      then StateSpeaking else StateThinking :=
  ⟨by decide,
    onUserSpeechEnd_state ((NewManager none false).run [Call.OnUserSpeechStart]) (by decide)⟩

end Turn
namespace Errorsx

theorem findReasoned_isSome_iff (e : GoError) :
    (findReasoned e).isSome = carriesReason e := by
  unfold carriesReason
  induction e with
  | plain msg => rfl
  | rateLimit provider message => rfl
  | reasoned inner reason ih => simp [findReasoned, GoError.chain, GoError.isReasoned]
  | reasonedNil reason => rfl
  | wrapped msg inner ih =>
    simp only [findReasoned, GoError.chain, List.any_cons, GoError.isReasoned, Bool.false_or]
    exact ih

theorem Wrap_fresh (e : GoError) (r : String) (h : carriesReason e = false) :
    Wrap (some e) r = some (.reasoned e r) := by
  have : (findReasoned e).isSome = false := by rw [findReasoned_isSome_iff, h]
  simp [Wrap, this]

theorem Wrap_reasoned (e : GoError) (r : String) (h : carriesReason e = true) :
    Wrap (some e) r = some e := by
  have : (findReasoned e).isSome = true := by rw [findReasoned_isSome_iff, h]
  simp [Wrap, this]

/-- C27: `Wrap(nil, r)` is nil.  For every non-nil `err` that carries no reason (no
`ReasonedError` along its `Unwrap` chain), `Reason(Wrap(err, r)) = r`,
`HasReason(Wrap(err, r), r)` holds, the message of the wrapped error is that of `err`
and its `Unwrap` is `err`, and `Reason(Wrap(Wrap(err, r1), r2)) = r1`.  For every `err`
that carries a reason, directly or through `Unwrap`, `Wrap(err, r2)` returns `err`
itself, so its reason is never masked. -/
theorem wrap_never_masks (r r1 r2 : String) :
    Wrap none r = none ∧
    (∀ e : GoError, carriesReason e = false →
      Reason (Wrap (some e) r) = r ∧ HasReason (Wrap (some e) r) r = true ∧
      (Wrap (some e) r).map GoError.Error = some (GoError.Error e) ∧
      (Wrap (some e) r).bind GoError.Unwrap = some e ∧
      Reason (Wrap (Wrap (some e) r1) r2) = r1) ∧
    (∀ e : GoError, carriesReason e = true →
      Wrap (some e) r2 = some e ∧
      Reason (Wrap (Wrap (some e) r1) r2) = Reason (some e) ∧
      Reason (some e) = Reason (Wrap (some e) r1)) := by
  refine ⟨rfl, ?_, ?_⟩
  · intro e h
    rw [Wrap_fresh e r h, Wrap_fresh e r1 h]
    have h2 : carriesReason (.reasoned e r1) = true := by
      simp [carriesReason, GoError.chain, GoError.isReasoned]
    rw [Wrap_reasoned _ r2 h2]
    simp [Reason, HasReason, findReasoned, GoError.Error, GoError.Unwrap]
  · intro e h
    rw [Wrap_reasoned e r2 h, Wrap_reasoned e r1 h, Wrap_reasoned e r2 h]
    exact ⟨rfl, rfl, rfl⟩

theorem wrap_never_masks_witness :
    carriesReason (.plain "boom") = false ∧
    Reason (Wrap (Wrap (some (.plain "boom")) ReasonSTTSend) ReasonLLMGenerate) = ReasonSTTSend ∧
    HasReason (Wrap (some (.plain "boom")) ReasonLLMGenerate) ReasonLLMGenerate = true :=
  ⟨by decide,
    ((wrap_never_masks ReasonLLMGenerate ReasonSTTSend ReasonLLMGenerate).2.1 (.plain "boom")
      (by decide)).2.2.2.2,
    ((wrap_never_masks ReasonLLMGenerate ReasonSTTSend ReasonLLMGenerate).2.1 (.plain "boom")
      (by decide)).2.1⟩

end Errorsx

namespace Pipeline

open Frames

/-- C28 (counterexample): on an empty queue with room in both lanes, the feeder (in
either mode) puts a System frame on the low lane and leaves the high lane empty. -/
theorem feeder_puts_system_on_low_lane :
    (Frame.system 0 "call_start" GoMap.empty).Kind = Kind.system ∧
    ((startSyncFeeder (Priority.New 4 4 3) (.system 0 "call_start" GoMap.empty)).1.high.length,
      (startSyncFeeder (Priority.New 4 4 3) (.system 0 "call_start" GoMap.empty)).1.low.length)
      = (0, 1) ∧
    ((startAsyncFeeder (Priority.New 4 4 3) (.system 0 "call_start" GoMap.empty)).1.high.length,
      (startAsyncFeeder (Priority.New 4 4 3) (.system 0 "call_start" GoMap.empty)).1.low.length)
      = (0, 1) := by
  decide

/-- C28 (amended): the feeder, in both synchronous and staged-asynchronous mode, offers
an incoming frame to the high lane of the priority queue if and only if its kind is
Control, and to the low lane for every other kind (Audio, Text, Image and System); the
lane takes the frame at its end when it has room, and otherwise the frame is dropped and
the queue is left as it was. -/
theorem feeder_lane_by_kind (pq : Priority.PriorityQueue Frame) (f : Frame) :
    startAsyncFeeder pq f = startSyncFeeder pq f ∧
    (startSyncFeeder pq f).1.high =
      (if f.Kind = Kind.control ∧ pq.high.length < pq.highCap then pq.high ++ [f] else pq.high) ∧
    (startSyncFeeder pq f).1.low =
      (if f.Kind ≠ Kind.control ∧ pq.low.length < pq.lowCap then pq.low ++ [f] else pq.low) ∧
    (startSyncFeeder pq f).2 =
      (if f.Kind = Kind.control then decide (pq.high.length < pq.highCap)
        else decide (pq.low.length < pq.lowCap)) ∧
    ((startSyncFeeder pq f).2 = false → (startSyncFeeder pq f).1 = pq) := by
  refine ⟨rfl, ?_, ?_, ?_, ?_⟩ <;>
    · unfold startSyncFeeder Priority.PriorityQueue.TryPushHigh Priority.PriorityQueue.TryPushLow
      by_cases hk : f.Kind = Kind.control <;>
        by_cases hh : pq.high.length < pq.highCap <;>
          by_cases hl : pq.low.length < pq.lowCap <;> simp [hk, hh, hl]

end Pipeline

namespace Processors

open Frames LLM

theorem splitTokensAux_length (cur l : List Char) :
    (splitTokensAux cur l).length =
      runStarts isTokenRune (!cur.isEmpty) l + (if cur.isEmpty then 0 else 1) := by
  induction l generalizing cur with
  | nil => cases cur <;> simp [splitTokensAux, runStarts]
  | cons c rest ih =>
    by_cases hc : isTokenRune c = true
    · simp only [splitTokensAux, hc, if_true, runStarts, Bool.true_and]
      rw [ih (c :: cur)]
      cases cur <;> simp
      omega
    · have hf : isTokenRune c = false := by simpa using hc
      simp only [splitTokensAux, hf, Bool.false_eq_true, if_false, runStarts, Bool.false_and,
        List.length_append, Nat.zero_add]
      rw [ih []]
      cases cur <;> simp [Nat.add_comm]

theorem splitTokens_length (c : String) : (splitTokens c).length = tokenRuns c := by
  unfold splitTokens tokenRuns
  rw [splitTokensAux_length]
  simp

/-- C29 (counterexample): the estimator is not a white-space counter.  The lower-case
content `don't stop` has two white-space fields and is estimated at 3 tokens, `...` has
one field and is estimated at 0, and `a,b` has one field and is estimated at 2:
punctuation separates tokens and is not counted. -/
theorem estimator_is_not_whitespace_count :
    sampleStdlib.ToLower "don't stop" = "don't stop" ∧
    fieldsCount "don't stop" = 2 ∧ estimateMessageTokens (userMessage "don't stop") = 3 ∧
    fieldsCount "..." = 1 ∧ estimateMessageTokens (userMessage "...") = 0 ∧
    fieldsCount "a,b" = 1 ∧ estimateMessageTokens (userMessage "a,b") = 2 ∧
    estimateMessagesTokens [userMessage "don't stop", userMessage "a,b"] = 5 := by
  decide

/-- C29 (amended): for every message whose content is a string `c` that lower-casing
leaves unchanged (and that has no content parts), `estimateMessageTokens` returns the
number of maximal runs of the characters `a-z` and `0-9` in `c`, which is the number of
tokens that `splitTokens` finds in the lower-cased content: punctuation separates tokens
as white space does.  `estimateMessagesTokens` is the sum of `estimateMessageTokens` over
the messages.  Content with upper-case letters is left out. -/
theorem estimator_counts_token_runs (env : Stdlib) (msg : Message) (c : String)
    (messages : List Message)
    (hc : msg.content = some c) (hp : msg.contentParts = none) (hlow : env.ToLower c = c) :
    estimateMessageTokens msg = tokenRuns c ∧
    estimateMessageTokens msg = (splitTokens (env.ToLower c)).length ∧
    estimateMessagesTokens messages = (messages.map estimateMessageTokens).sum := by
  have h : estimateMessageTokens msg = (splitTokens c).length := by
    unfold estimateMessageTokens
    simp [hc, hp, String.intercalate, String.intercalate.go]
  refine ⟨h.trans (splitTokens_length c), ?_, rfl⟩
  rw [hlow]
  exact h

/-- Witness for `estimator_counts_token_runs`: the lower-case content
`book 2 seats, please` is estimated at four tokens. -/
theorem estimator_counts_token_runs_witness :
    (userMessage "book 2 seats, please").content = some "book 2 seats, please" ∧
    (userMessage "book 2 seats, please").contentParts = none ∧
    sampleStdlib.ToLower "book 2 seats, please" = "book 2 seats, please" ∧
    estimateMessageTokens (userMessage "book 2 seats, please") = 4 :=
  ⟨rfl, rfl, by decide,
    (estimator_counts_token_runs sampleStdlib (userMessage "book 2 seats, please")
      "book 2 seats, please" [] rfl rfl (by decide)).1.trans (by decide)⟩

end Processors
namespace Processors

open Frames LLM

/-- C23 (counterexample): on a processor as `NewLLMProcessor` builds it (hybrid mode, LLM
fallback off), a first Text frame leaves `exampleCall` pending.  The reply
`maybe later` is neither accept nor reject for the keyword rules, and the adapter would
answer `yes` to the classifier request; yet `Process` does not call the adapter and
returns a single `tool_confirm_repeat` frame. -/
theorem hybrid_default_skips_classifier :
    normalizeConfirmMode sampleStdlib hybridProcessor.confirmMode = "hybrid" ∧
    hybridProcessor.confirmLLMFallback = false ∧
    confirmationIntent sampleStdlib "maybe later" = (false, false) ∧
    (match agreeingAdapter.Generate (classifierInput sampleStdlib "maybe later" exampleMeta) with
      | .ok resp => parseConfirmationDecision sampleStdlib resp.Text
      | .error _ => (false, false)) = (true, false) ∧
    ((hybridProcessor.Process sampleStdlib (.text 0 "Schedule a visit" exampleMeta) 1).bind
      (fun r1 => (r1.p.pendingConfirms "stream-1").map (fun pc => pc.call))) =
        some exampleCall ∧
    ((hybridProcessor.Process sampleStdlib (.text 0 "Schedule a visit" exampleMeta) 1).bind
      (fun r1 => (r1.p.Process sampleStdlib (.text 0 "maybe later" exampleMeta) 2).map
        (fun r2 => (r2.out.map describe,
          (r2.p.adapterCalls.drop r1.p.adapterCalls.length).length)))) =
        some (["system:tool_confirm_repeat"], 0) := by
  decide

theorem classifyConfirmationLLM_enabled (env : Stdlib) (p : LLMProcessor) (adapter : LLMAdapter)
    (text : String) (meta : MetaMap) (ha : p.adapter = some adapter) :
    p.classifyConfirmationLLM env text meta true =
      ((match adapter.Generate (classifierInput env text meta) with
        | .error _ => (false, false)
        | .ok resp => parseConfirmationDecision env resp.Text),
       { p with adapterCalls := p.adapterCalls ++
          [AdapterCall.generate (classifierInput env text meta)] }) := by
  unfold LLMProcessor.classifyConfirmationLLM classifierInput
  simp only [ha, Bool.not_true, Bool.false_eq_true, if_false]
  cases adapter.Generate
      { Messages := [systemMessage (confirmationClassifierPrompt env (languageFromMeta env meta)),
          userMessage text]
        Tools := [] } <;> rfl

theorem classifyConfirmationLLM_disabled (env : Stdlib) (p : LLMProcessor)
    (text : String) (meta : MetaMap) :
    p.classifyConfirmationLLM env text meta false = ((false, false), p) := by
  unfold LLMProcessor.classifyConfirmationLLM
  cases p.adapter <;> simp

theorem emitToolCalls_adapterCalls (env : Stdlib) (streamID : String) (meta : MetaMap)
    (now : Int) (calls : List ToolCall) (p : LLMProcessor) :
    (p.emitToolCalls env streamID calls meta now).2.adapterCalls = p.adapterCalls := by
  unfold LLMProcessor.emitToolCalls
  suffices h : ∀ (acc : List Frame × LLMProcessor),
      (calls.foldl
        (fun (acc : List Frame × LLMProcessor) call =>
          (acc.1 ++ [NewControlFrame streamID now ControlToolCall
              (acc.2.toolCallMeta env streamID call meta)],
            { acc.2 with pendingTools := acc.2.pendingTools.set call.ID call }))
        acc).2.adapterCalls = acc.2.adapterCalls from h ([], p)
  induction calls with
  | nil => intro acc; rfl
  | cons c rest ih =>
    intro acc
    simp only [List.foldl_cons]
    rw [ih]

end Processors
namespace Processors

open Frames LLM

/-- C23 (amended): in hybrid confirmation mode with the LLM fallback enabled
(`confirmLLMFallback`, off by default), when a confirmation is pending and the keyword
classifier returns neither accept nor reject for the reply, `handlePendingConfirmation`
calls `Generate` of the processor's adapter once, with the classifier prompt and the
reply; a yes answer accepts (the tool call is emitted between `thinking_start` and
`thinking_end`), a no answer rejects (`tool_confirm_cancelled`), and when the answer is
neither, or `Generate` fails, the single frame `tool_confirm_repeat` is returned.  In
keywords mode the adapter is never called. -/
theorem hybrid_falls_through_with_fallback (env : Stdlib) (p : LLMProcessor)
    (adapter : LLMAdapter) (pending : pendingToolConfirm) (streamID text : String) (now : Int)
    (hp : p.pendingConfirms streamID = some pending)
    (hmode : normalizeConfirmMode env p.confirmMode = "hybrid")
    (hfb : p.confirmLLMFallback = true)
    (ha : p.adapter = some adapter)
    (hkw : confirmationIntent env text = (false, false)) :
    p.handlePendingConfirmation env streamID text now =
      some
        (if (match adapter.Generate (classifierInput env text pending.meta) with
              | .error _ => (false, false)
              | .ok resp => parseConfirmationDecision env resp.Text).1 = true then
          LLMProcessor.confirmAccepted env
            { p with adapterCalls := p.adapterCalls ++
                [AdapterCall.generate (classifierInput env text pending.meta)] }
            streamID pending now
        else if (match adapter.Generate (classifierInput env text pending.meta) with
              | .error _ => (false, false)
              | .ok resp => parseConfirmationDecision env resp.Text).2 = true then
          LLMProcessor.confirmCancelled env
            { p with adapterCalls := p.adapterCalls ++
                [AdapterCall.generate (classifierInput env text pending.meta)] }
            streamID pending now
        else
          LLMProcessor.confirmRepeat env
            { p with adapterCalls := p.adapterCalls ++
                [AdapterCall.generate (classifierInput env text pending.meta)] }
            streamID pending now) ∧
    (∀ q : LLMProcessor,
      (q.confirmAccepted env streamID pending now).1.map describe =
        ["system:thinking_start", "control:" ++ ControlToolCall, "system:thinking_end"] ∧
      (q.confirmAccepted env streamID pending now).2.adapterCalls = q.adapterCalls ∧
      (q.confirmCancelled env streamID pending now).1.map describe =
        ["system:tool_confirm_cancelled"] ∧
      (q.confirmCancelled env streamID pending now).2.adapterCalls = q.adapterCalls ∧
      (q.confirmRepeat env streamID pending now).1.map describe =
        ["system:tool_confirm_repeat"] ∧
      (q.confirmRepeat env streamID pending now).2.adapterCalls = q.adapterCalls) ∧
    (∀ (k : LLMProcessor) (pend : pendingToolConfirm) (reply : String)
        (r : List Frame × LLMProcessor),
      k.pendingConfirms streamID = some pend →
      normalizeConfirmMode env k.confirmMode = "keywords" →
      k.handlePendingConfirmation env streamID reply now = some r →
      r.2.adapterCalls = k.adapterCalls) := by
  refine ⟨?_, ?_, ?_⟩
  · unfold LLMProcessor.handlePendingConfirmation
    simp only [hp, hmode, hfb, hkw, beq_self_eq_true, Bool.true_or, Bool.or_true, Bool.true_and,
      if_true, Bool.false_eq_true, if_false]
    rw [classifyConfirmationLLM_enabled env p adapter text pending.meta ha]
    simp only [hfb]
    split_ifs <;> rfl
  · intro q
    refine ⟨?_, ?_, rfl, rfl, rfl, rfl⟩
    · simp [LLMProcessor.confirmAccepted, LLMProcessor.emitToolCalls, describe, NewSystemFrame,
        NewControlFrame]
    · unfold LLMProcessor.confirmAccepted
      exact emitToolCalls_adapterCalls env streamID _ now _ _
  · intro k pend reply r hk hm hr
    unfold LLMProcessor.handlePendingConfirmation at hr
    have e1 : ("keywords" == "hybrid") = false := by decide
    have e2 : ("keywords" == "llm") = false := by decide
    simp only [hk, hm, e1, e2, beq_self_eq_true, Bool.or_true, Bool.false_or, Bool.or_self,
      Bool.false_and, if_true, classifyConfirmationLLM_disabled, Bool.false_eq_true,
      if_false] at hr
    split_ifs at hr <;> simp only [Option.some.injEq] at hr <;> subst hr
    · unfold LLMProcessor.confirmAccepted
      exact emitToolCalls_adapterCalls env streamID _ now _ _
    · rfl
    · rfl

theorem hybrid_falls_through_with_fallback_witness :
    (hybridFallbackProcessor.storePendingConfirm sampleStdlib "stream-1" exampleCall exampleMeta
      exampleTool).pendingConfirms "stream-1" = some examplePending ∧
    confirmationIntent sampleStdlib "maybe later" = (false, false) ∧
    ((hybridFallbackProcessor.storePendingConfirm sampleStdlib "stream-1" exampleCall exampleMeta
        exampleTool).handlePendingConfirmation sampleStdlib "stream-1" "maybe later" 2).map
      (fun r => (r.1.map describe, r.2.adapterCalls.length)) =
      some (["system:thinking_start", "control:tool_call", "system:thinking_end"], 1) :=
  ⟨rfl, by decide, by
    rw [(hybrid_falls_through_with_fallback sampleStdlib
      (hybridFallbackProcessor.storePendingConfirm sampleStdlib "stream-1" exampleCall exampleMeta
        exampleTool) agreeingAdapter examplePending "stream-1" "maybe later" 2 rfl (by decide)
      rfl rfl (by decide)).1]
    decide⟩

end Processors
namespace Processors

open Frames LLM

/-- C22 (counterexample): three inputs on which the claim fails.  With a budget of two
estimated tokens, the streamed reply `one two three four` is non-empty, but after
`streamToFrames` the history of the scope holds no assistant message (pruning dropped
it).  With a source frame that carries `tts_flush=true`, a token of 30 four-byte
characters (120 bytes) followed by the token `b` gives two frames and both carry
`tts_flush=true`; and the first of these two frames has a text of 30 characters. -/
theorem streamed_reply_counterexamples :
    String.join ["one two ", "three four"] ≠ "" ∧
    (tinyBudgetProcessor.streamToFrames sampleStdlib exampleMeta ["one two ", "three four"]
      1).2.messagesByScope "stream:stream-1" = some [] ∧
    ((exampleProcessor.streamToFrames sampleStdlib flushedSourceMeta
      [repeatChar '𝔸' 30, "b"] 1).1.map (fun f => f.Meta.get MetaTTSFlush)) =
      ["true", "true"] ∧
    ((exampleProcessor.streamToFrames sampleStdlib flushedSourceMeta
      [repeatChar '𝔸' 30, "b"] 1).1.map (fun f => (Aggregators.frameText f).length)) =
      [30, 1] := by
  decide

theorem emitChunk_text (p : LLMProcessor) (srcMeta : MetaMap) (streamID : String) (now : Int)
    (text : String) (flush : Bool) :
    Aggregators.frameText (p.emitChunk srcMeta streamID now text flush) = text := rfl

theorem emitChunk_isLLMText (p : LLMProcessor) (srcMeta : MetaMap) (streamID : String)
    (now : Int) (text : String) (flush : Bool) :
    (p.emitChunk srcMeta streamID now text flush).isLLMText = true := by
  have h1 : MetaSource ≠ MetaStreamID := by decide
  have h2 : MetaSource ≠ MetaTTSFlush := by decide
  have h3 : MetaSource ≠ MetaLanguage := by decide
  unfold LLMProcessor.emitChunk
  simp only [NewTextFrame, Frame.isLLMText, beq_iff_eq]
  rw [mergeMeta_get_other _ _ _ h1]
  cases flush
  · simp only [Bool.false_eq_true, if_false]
    rw [applyLanguageMeta_get_other _ _ _ _ h3, GoMap.get_set_self]
  · simp only [if_true]
    rw [GoMap.get_set_other _ _ _ _ h2, applyLanguageMeta_get_other _ _ _ _ h3,
      GoMap.get_set_self]

theorem emitChunk_flush (p : LLMProcessor) (srcMeta : MetaMap) (streamID : String)
    (now : Int) (text : String) :
    (p.emitChunk srcMeta streamID now text true).Meta.get MetaTTSFlush = "true" ∧
    (p.emitChunk srcMeta streamID now text false).Meta.get MetaTTSFlush =
      srcMeta.get MetaTTSFlush := by
  have h1 : MetaTTSFlush ≠ MetaStreamID := by decide
  have h2 : MetaTTSFlush ≠ MetaSource := by decide
  have h3 : MetaTTSFlush ≠ MetaLanguage := by decide
  unfold LLMProcessor.emitChunk
  simp only [NewTextFrame, Frame.Meta, if_true, Bool.false_eq_true, if_false]
  constructor
  · rw [mergeMeta_get_other _ _ _ h1, GoMap.get_set_self]
  · rw [mergeMeta_get_other _ _ _ h1, applyLanguageMeta_get_other _ _ _ _ h3,
      GoMap.get_set_other _ _ _ _ h2]

theorem join_cons_data (a : String) (l : List String) :
    (String.join (a :: l)).data = a.data ++ (String.join l).data := by
  simp [String.join_eq]

/-- The token loop: the texts of the frames emitted, followed by the chunk left over,
spell the chunk carried in followed by the tokens; every frame emitted has at least 120
bytes, carries `source=llm` and has `tts_flush` as the source frame has it. -/
theorem streamLoop_spec (p : LLMProcessor) (srcMeta : MetaMap) (streamID : String) (now : Int)
    (tokens : List String) (chunk : String) :
    (String.join ((p.streamLoop srcMeta streamID now tokens chunk).1.map
        Aggregators.frameText)).data ++
      (p.streamLoop srcMeta streamID now tokens chunk).2.data =
      chunk.data ++ (String.join tokens).data ∧
    ∀ f ∈ (p.streamLoop srcMeta streamID now tokens chunk).1,
      f.isLLMText = true ∧ 120 ≤ (Aggregators.frameText f).utf8ByteSize ∧
      f.Meta.get MetaTTSFlush = srcMeta.get MetaTTSFlush := by
  induction tokens generalizing chunk with
  | nil => simp [LLMProcessor.streamLoop, String.join_eq]
  | cons tok rest ih =>
    unfold LLMProcessor.streamLoop
    simp only []
    by_cases hc : (chunk ++ tok).utf8ByteSize ≥ 120
    · simp only [hc, if_true, List.map_cons, List.mem_cons]
      obtain ⟨h1, h2⟩ := ih ""
      constructor
      · rw [join_cons_data, join_cons_data, emitChunk_text, List.append_assoc, h1]
        simp [String.data_append]
      · rintro f (rfl | hf)
        · exact ⟨emitChunk_isLLMText _ _ _ _ _ _, hc, (emitChunk_flush _ _ _ _ _).2⟩
        · exact h2 f hf
    · simp only [hc, if_false]
      obtain ⟨h1, h2⟩ := ih (chunk ++ tok)
      refine ⟨?_, h2⟩
      rw [h1, join_cons_data]
      simp [String.data_append]

end Processors
namespace Processors

open Frames LLM

theorem streamToFrames_out (env : Stdlib) (p : LLMProcessor) (srcMeta : MetaMap)
    (tokens : List String) (now : Int) :
    ∃ (init : List Frame) (text : String),
      (p.streamToFrames env srcMeta tokens now).1 =
        init ++ [p.emitChunk srcMeta (srcMeta.get MetaStreamID) now text true] ∧
      (String.join (init.map Aggregators.frameText)).data ++ text.data =
        (String.join tokens).data ∧
      ∀ f ∈ init, f.isLLMText = true ∧ 120 ≤ (Aggregators.frameText f).utf8ByteSize ∧
        f.Meta.get MetaTTSFlush = srcMeta.get MetaTTSFlush := by
  obtain ⟨h1, h2⟩ := streamLoop_spec p srcMeta (srcMeta.get MetaStreamID) now tokens ""
  unfold LLMProcessor.streamToFrames
  simp only []
  by_cases hz : (p.streamLoop srcMeta (srcMeta.get MetaStreamID) now tokens "").2.utf8ByteSize > 0
  · refine ⟨_, (p.streamLoop srcMeta (srcMeta.get MetaStreamID) now tokens "").2, ?_, ?_, h2⟩
    · simp only [hz, if_true]
    · simpa using h1
  · refine ⟨_, "", ?_, ?_, h2⟩
    · simp only [hz, if_false]
    · have h0 : (p.streamLoop srcMeta (srcMeta.get MetaStreamID) now tokens "").2 = "" :=
        (utf8ByteSize_eq_zero_iff _).1 (by omega)
      rw [h0] at h1
      simpa using h1

/-- C22 (amended): for every finite sequence of tokens delivered by the adapter's stream,
the frames produced by `streamToFrames` satisfy: (i) all are Text frames with
`source=llm` and the concatenation of their texts, in order, equals the concatenation of
the tokens; (ii) every frame except the last has a text of at least 120 bytes; (iii) at
least one frame is produced, the last frame carries `tts_flush=true` and every other
frame has `tts_flush` as the source frame has it, so exactly one frame carries
`tts_flush=true` when the source frame does not; (iv) if the concatenated text is
non-empty, the history of the scope becomes the result of pruning the history with the
assistant message appended (with no memory limit set: the history with the assistant
message appended once); if it is empty the processor is unchanged. -/
theorem streamToFrames_spec (env : Stdlib) (p : LLMProcessor) (srcMeta : MetaMap)
    (tokens : List String) (now : Int) :
    (∀ f ∈ (p.streamToFrames env srcMeta tokens now).1, f.isLLMText = true) ∧
    String.join ((p.streamToFrames env srcMeta tokens now).1.map Aggregators.frameText) =
      String.join tokens ∧
    (∀ f ∈ (p.streamToFrames env srcMeta tokens now).1.dropLast,
      120 ≤ (Aggregators.frameText f).utf8ByteSize ∧
      f.Meta.get MetaTTSFlush = srcMeta.get MetaTTSFlush) ∧
    (∃ last, (p.streamToFrames env srcMeta tokens now).1.getLast? = some last ∧
      last.Meta.get MetaTTSFlush = "true") ∧
    (srcMeta.get MetaTTSFlush ≠ "true" →
      ((p.streamToFrames env srcMeta tokens now).1.filter
        (fun f => f.Meta.get MetaTTSFlush == "true")).length = 1) ∧
    (String.join tokens = "" → (p.streamToFrames env srcMeta tokens now).2 = p) ∧
    (String.join tokens ≠ "" →
      (p.streamToFrames env srcMeta tokens now).2.messagesByScope
          (scopeKeyOrDefault env (scopeKey env srcMeta (srcMeta.get MetaStreamID))) =
        some (LLMProcessor.pruneMessagesLocked env
          (p.ensureMessagesLocked env (scopeKey env srcMeta (srcMeta.get MetaStreamID))).2
          ((p.ensureMessagesLocked env (scopeKey env srcMeta (srcMeta.get MetaStreamID))).1 ++
            [assistantMessage (String.join tokens)]))) ∧
    (String.join tokens ≠ "" → p.maxHistory ≤ 0 → p.maxTokens ≤ 0 →
      (p.streamToFrames env srcMeta tokens now).2.messagesByScope
          (scopeKeyOrDefault env (scopeKey env srcMeta (srcMeta.get MetaStreamID))) =
        some ((p.ensureMessagesLocked env (scopeKey env srcMeta (srcMeta.get MetaStreamID))).1 ++
          [assistantMessage (String.join tokens)])) := by
  obtain ⟨init, text, hout, hjoin, hinit⟩ := streamToFrames_out env p srcMeta tokens now
  have happ : (p.streamToFrames env srcMeta tokens now).2 =
      p.appendAssistant env (scopeKey env srcMeta (srcMeta.get MetaStreamID))
        (String.join tokens) := rfl
  have hhist : String.join tokens ≠ "" →
      (p.streamToFrames env srcMeta tokens now).2.messagesByScope
          (scopeKeyOrDefault env (scopeKey env srcMeta (srcMeta.get MetaStreamID))) =
        some (LLMProcessor.pruneMessagesLocked env
          (p.ensureMessagesLocked env (scopeKey env srcMeta (srcMeta.get MetaStreamID))).2
          ((p.ensureMessagesLocked env (scopeKey env srcMeta (srcMeta.get MetaStreamID))).1 ++
            [assistantMessage (String.join tokens)])) := by
    intro hne
    rw [happ]
    unfold LLMProcessor.appendAssistant LLMProcessor.appendMessages
    simp [hne, GoMap.set]
  rw [hout]
  refine ⟨?_, ?_, ?_, ?_, ?_, ?_, hhist, ?_⟩
  · intro f hf
    rcases List.mem_append.1 hf with h | h
    · exact (hinit f h).1
    · rw [List.mem_singleton.1 h]
      exact emitChunk_isLLMText _ _ _ _ _ _
  · apply String.ext
    rw [← hjoin]
    simp [String.join_eq, emitChunk_text]
  · intro f hf
    rw [List.dropLast_concat] at hf
    exact (hinit f hf).2
  · exact ⟨_, List.getLast?_concat _, (emitChunk_flush _ _ _ _ _).1⟩
  · intro hsrc
    rw [List.filter_append]
    have h1 : init.filter (fun f => f.Meta.get MetaTTSFlush == "true") = [] := by
      rw [List.filter_eq_nil_iff]
      intro f hf
      rw [(hinit f hf).2.2]
      simpa using hsrc
    rw [h1]
    simp [(emitChunk_flush p srcMeta (srcMeta.get MetaStreamID) now text).1]
  · intro he
    rw [happ]
    simp [LLMProcessor.appendAssistant, he]
  · intro hne hH hT
    rw [hhist hne]
    have hs := ensureMessagesLocked_same env p (scopeKey env srcMeta (srcMeta.get MetaStreamID))
    have hH2 : (p.ensureMessagesLocked env
        (scopeKey env srcMeta (srcMeta.get MetaStreamID))).2.maxHistory = p.maxHistory :=
      hs.2.2.2.2.2.2.2.2.2.2.1
    have hT2 : (p.ensureMessagesLocked env
        (scopeKey env srcMeta (srcMeta.get MetaStreamID))).2.maxTokens = p.maxTokens :=
      hs.2.2.2.2.2.2.2.2.2.2.2
    unfold LLMProcessor.pruneMessagesLocked
    rw [hH2, hT2]
    simp [hH, hT]

theorem streamToFrames_spec_witness :
    GoMap.get exampleMeta MetaTTSFlush ≠ "true" ∧
    ((exampleProcessor.streamToFrames sampleStdlib exampleMeta ["Hello ", "there."] 1).1.filter
      (fun f => f.Meta.get MetaTTSFlush == "true")).length = 1 ∧
    String.join ((exampleProcessor.streamToFrames sampleStdlib exampleMeta ["Hello ", "there."]
      1).1.map Aggregators.frameText) = String.join ["Hello ", "there."] :=
  ⟨by decide,
    (streamToFrames_spec sampleStdlib exampleProcessor exampleMeta ["Hello ", "there."]
      1).2.2.2.2.1 (by decide),
    (streamToFrames_spec sampleStdlib exampleProcessor exampleMeta ["Hello ", "there."] 1).2.1⟩

end Processors
namespace Processors

open Frames

/-- C24 (counterexample): a DTMF control frame of stream `s1` is processed at time 0 and
the STT transcript `42` of `s1` one second later, within the default window.  With
`PreferDTMF` and `MarkOnly` both set, `Process` returns one frame instead of none; and
with the flag key configured as `spoken_digit` (and `PreferDTMF` unset), the frame
returned carries no `dtmf_priority`. -/
theorem dtmf_markOnly_keeps_frame :
    digitOnly (sampleStdlib.TrimSpace "42") = true ∧
    (((NewDTMFDisambiguator (dtmfConfig true true "")).Process sampleStdlib (.control 0 ControlDTMF dtmfMeta) 0).1.Process
      sampleStdlib (.text 7 "42" sttMeta) 1000000000).2.length = 1 ∧
    ((((NewDTMFDisambiguator (dtmfConfig false false "spoken_digit")).Process sampleStdlib
          (.control 0 ControlDTMF dtmfMeta) 0).1.Process
      sampleStdlib (.text 7 "42" sttMeta) 1000000000).2.map
        (fun f => (f.Meta.get MetaDTMFPriority, f.Meta.get "spoken_digit"))) =
      [("", "true")] := by
  decide

theorem mergeMeta_get_set (streamID : String) (m : MetaMap) (k v : String) :
    (mergeMeta streamID (m.set k v)).get k = v := by
  simp [mergeMeta, GoMap.get, GoMap.set]

/-- C24 (amended): taking the clock as a parameter.  A DTMF Control frame processed for a
stream `s` at time `t0` records `t0` for `s` (first part).  While `t0` is the time
recorded for `s` (no later DTMF frame and no `call_end` of `s` since), an STT Text frame
for `s` whose trimmed text is non-empty and consists only of the digits 0-9, processed
at a time `t` with `t - t0 <= Window` (default 2 s), makes `Process` return no frame
when `PreferDTMF` is set and `MarkOnly` is not, and otherwise exactly one Text frame
with the same text and PTS, annotated with the configured flag key (`MetaKeyFlag`, by
default `dtmf_priority`) set to `true`.  Text that is not digits-only, has a source other
than `stt`, arrives later than the window, or belongs to a stream with no recorded DTMF
is returned unchanged. -/
theorem dtmf_disambiguation (env : Stdlib) (d : DTMFDisambiguator) (s : String) (t0 t pts : Int)
    (ftext : String) (fmeta : MetaMap) (hs : s ≠ "") (hsid : GoMap.get fmeta MetaStreamID = s) :
    (∀ (d0 : DTMFDisambiguator) (pts0 : Int) (m0 : MetaMap), GoMap.get m0 MetaStreamID = s →
      (d0.Process env (.control pts0 ControlDTMF m0) t0).1.lastDT s = some t0 ∧
      (d0.Process env (.control pts0 ControlDTMF m0) t0).1.cfg = d0.cfg) ∧
    (d.lastDT s = some t0 → GoMap.get fmeta MetaSource = "stt" → env.TrimSpace ftext ≠ "" →
      digitOnly (env.TrimSpace ftext) = true → t - t0 ≤ d.cfg.Window →
      d.Process env (.text pts ftext fmeta) t =
        (d, if d.cfg.PreferDTMF && !d.cfg.MarkOnly then []
          else [Frame.text pts ftext (mergeMeta s (fmeta.set d.cfg.MetaKeyFlag "true"))]) ∧
      (mergeMeta s (fmeta.set d.cfg.MetaKeyFlag "true")).get d.cfg.MetaKeyFlag = "true") ∧
    ((digitOnly (env.TrimSpace ftext) = false ∨ GoMap.get fmeta MetaSource ≠ "stt" ∨
        (d.lastDT s = some t0 ∧ t - t0 > d.cfg.Window) ∨ d.lastDT s = none) →
      d.Process env (.text pts ftext fmeta) t = (d, [.text pts ftext fmeta])) ∧
    (∀ cfg : DTMFDisambiguatorConfig,
      (cfg.Window ≤ 0 → (NewDTMFDisambiguator cfg).cfg.Window = 2 * 1000000000) ∧
      (cfg.MetaKeyFlag = "" → (NewDTMFDisambiguator cfg).cfg.MetaKeyFlag = MetaDTMFPriority) ∧
      (NewDTMFDisambiguator cfg).cfg.PreferDTMF = cfg.PreferDTMF ∧
      (NewDTMFDisambiguator cfg).cfg.MarkOnly = cfg.MarkOnly) := by
  refine ⟨?_, ?_, ?_, ?_⟩
  · intro d0 pts0 m0 hm
    unfold DTMFDisambiguator.Process
    simp [hm, hs, GoMap.set]
  · intro hrec hsrc hne hdig hwin
    refine ⟨?_, mergeMeta_get_set _ _ _ _⟩
    unfold DTMFDisambiguator.Process
    have hw : ¬ (t - t0 > d.cfg.Window) := by omega
    simp only [hsrc, ne_eq, not_true_eq_false, if_false, hne, hdig, Bool.true_eq_false,
      or_self, hsid, hs, hrec, hw, NewTextFrame]
    cases d.cfg.MarkOnly <;> cases d.cfg.PreferDTMF <;> simp
  · intro h
    unfold DTMFDisambiguator.Process
    by_cases hsrc : GoMap.get fmeta MetaSource = "stt"
    · simp only [hsrc, ne_eq, not_true_eq_false, if_false]
      by_cases hd : env.TrimSpace ftext = "" ∨ digitOnly (env.TrimSpace ftext) = false
      · simp only [hd, if_true]
      · simp only [hd, if_false, hsid, hs]
        rcases h with h | h | h | h
        · exact absurd (Or.inr h) hd
        · exact absurd hsrc h
        · simp only [h.1, h.2, if_true]
        · simp only [h]
    · simp only [ne_eq, hsrc, not_false_eq_true, if_true]
  · intro cfg
    unfold NewDTMFDisambiguator
    refine ⟨?_, ?_, ?_, ?_⟩
    · intro h; simp only [h, if_true]; split_ifs <;> rfl
    · intro h; simp only []; split_ifs <;> simp_all
    · simp only []; split_ifs <;> rfl
    · simp only []; split_ifs <;> rfl

theorem dtmf_disambiguation_witness :
    ("s1" : String) ≠ "" ∧ GoMap.get sttMeta MetaStreamID = "s1" ∧
    (((NewDTMFDisambiguator (dtmfConfig true false "")).Process sampleStdlib (.control 0 ControlDTMF dtmfMeta) 0).1.Process
      sampleStdlib (.text 7 "42" sttMeta) 1000000000).2.length = 0 :=
  ⟨by decide, by decide, by
    rw [((dtmf_disambiguation sampleStdlib
      ((NewDTMFDisambiguator (dtmfConfig true false "")).Process sampleStdlib (.control 0 ControlDTMF dtmfMeta) 0).1
      "s1" 0 1000000000 7 "42" sttMeta (by decide) (by decide)).2.1 rfl (by decide) (by decide)
      (by decide) (by decide)).1]
    decide⟩

end Processors
namespace Processors

namespace Sync

open Frames

/-! ## Context processor: scope clearing and the flush handler -/

theorem scopeKey_ne_empty (m : MetaMap) (h : GoMap.get m MetaStreamID ≠ "") : scopeKey m ≠ "" := by
  unfold scopeKey
  split_ifs with hc
  · exact hc
  · exact h

theorem clearScope_eq (q : ContextProcessor) (m : MetaMap) (hmu : q.mu = false)
    (hs : scopeKey m ≠ "") :
    q.clearScope m = some { q with
      injected := q.injected.delete (scopeKey m)
      global := q.global.delete (scopeKey m)
      globalHash := q.globalHash.delete (scopeKey m) } := by
  unfold ContextProcessor.clearScope
  simp only [hs, if_false, Lock, hmu, Bool.false_eq_true]

theorem clearAgg_eq (q : ContextProcessor) (sid : String) (hmu : q.mu = false) (hs : sid ≠ "") :
    q.clearAgg sid = some { q with aggs := q.aggs.delete sid } := by
  unfold ContextProcessor.clearAgg
  simp only [hs, if_false, Lock, hmu, Bool.false_eq_true]

theorem buildBasePrompt_fresh (q : ContextProcessor) (m : MetaMap) (now : Int)
    (hbp : q.basePrompt ≠ "") (hsid : GoMap.get m MetaStreamID ≠ "")
    (hinj : q.injected (scopeKey m) = none) :
    ∃ sys, q.buildBasePrompt m now =
        ({ q with injected := q.injected.set (scopeKey m) true }, some sys) ∧
      sys.isSystem "base_prompt" = true := by
  unfold ContextProcessor.buildBasePrompt
  simp only [hbp, if_false, hsid, scopeKey_ne_empty m hsid, hinj, Option.getD_none,
    Bool.false_eq_true, or_self]
  exact ⟨_, rfl, rfl⟩

theorem buildBasePrompt_injected (q : ContextProcessor) (m : MetaMap) (now : Int)
    (hinj : q.injected (scopeKey m) = some true) :
    q.buildBasePrompt m now = (q, none) := by
  unfold ContextProcessor.buildBasePrompt
  simp only [hinj, Option.getD_some, or_true, if_true, ite_self]

theorem updateGlobal_fields (p : ContextProcessor) (m : MetaMap) :
    (p.updateGlobal m).mu = p.mu ∧ (p.updateGlobal m).basePrompt = p.basePrompt ∧
      (p.updateGlobal m).pendingFlush = p.pendingFlush := by
  unfold ContextProcessor.updateGlobal
  dsimp only
  split_ifs <;> exact ⟨rfl, rfl, rfl⟩

/-- C26: the code departs from the claim.  For a processor with a non-empty base prompt,
free mutex and no pending flushed frame, `Process` on a System `call_end` frame with a
non-empty `stream_id` returns a `base_prompt` System frame followed by the `call_end`
frame, and leaves the scope marked in the base-prompt-injected set, so that the next
frame of the same scope gets no base prompt. -/
theorem call_end_reinjects_base_prompt (env : Stdlib) (lib : ContextLib) (p : ContextProcessor)
    (pts now : Int) (fmeta : MetaMap)
    (hmu : p.mu = false) (hpend : p.pendingFlush = []) (hbp : p.basePrompt ≠ "")
    (hsid : GoMap.get fmeta MetaStreamID ≠ "") :
    ∃ p1 sys,
      p.Process env lib (.system pts "call_end" fmeta) now =
        some (p1, [sys, .system pts "call_end" fmeta]) ∧
      sys.isSystem "base_prompt" = true ∧
      p1.injected (scopeKey fmeta) = some true ∧
      ∀ now2, p1.buildBasePrompt fmeta now2 = (p1, none) := by
  have hscope := scopeKey_ne_empty fmeta hsid
  obtain ⟨aggConfig, aggs, basePrompt, injected, global, gh, caption, buffer, tm, mu, pend⟩ := p
  dsimp only at hmu hpend hbp
  subst hmu hpend
  unfold ContextProcessor.Process
  simp only [Lock, Bool.false_eq_true, if_false, ContextProcessor.processPending, if_true]
  obtain ⟨h1, h2, -⟩ := updateGlobal_fields
    ⟨aggConfig, aggs, basePrompt, injected, global, gh, caption, buffer, tm, false, []⟩ fmeta
  generalize ContextProcessor.updateGlobal
    ⟨aggConfig, aggs, basePrompt, injected, global, gh, caption, buffer, tm, false, []⟩ fmeta = q
    at h1 h2
  dsimp only at h1 h2
  have hq2 : q.basePrompt ≠ "" := by rw [h2]; exact hbp
  obtain ⟨sys, hb, hsys⟩ := buildBasePrompt_fresh
    { q with
      injected := q.injected.delete (scopeKey fmeta)
      global := q.global.delete (scopeKey fmeta)
      globalHash := q.globalHash.delete (scopeKey fmeta)
      aggs := q.aggs.delete (GoMap.get fmeta MetaStreamID) } fmeta now hq2 hsid
    (by simp [GoMap.delete])
  dsimp only at hb
  refine ⟨{ q with
      injected := (q.injected.delete (scopeKey fmeta)).set (scopeKey fmeta) true
      global := q.global.delete (scopeKey fmeta)
      globalHash := q.globalHash.delete (scopeKey fmeta)
      aggs := q.aggs.delete (GoMap.get fmeta MetaStreamID) }, sys, ?_, hsys, ?_, ?_⟩
  · rw [clearScope_eq q fmeta h1 hscope]
    simp only []
    rw [clearAgg_eq { q with
      injected := q.injected.delete (scopeKey fmeta)
      global := q.global.delete (scopeKey fmeta)
      globalHash := q.globalHash.delete (scopeKey fmeta) } _ h1 hsid]
    simp only [hb, List.nil_append]
  · simp [GoMap.set]
  · intro now2
    exact buildBasePrompt_injected _ _ _ (by simp [GoMap.set])

/-- Witness for `call_end_reinjects_base_prompt`: a processor with base prompt
`You are helpful` and the `call_end` frame of call `c1` on stream `s1`. -/
theorem call_end_reinjects_base_prompt_witness :
    (NewContextProcessor Aggregators.defaultConfig "You are helpful").mu = false ∧
    (NewContextProcessor Aggregators.defaultConfig "You are helpful").pendingFlush = [] ∧
    (NewContextProcessor Aggregators.defaultConfig "You are helpful").basePrompt ≠ "" ∧
    GoMap.get callMeta MetaStreamID ≠ "" ∧
    ∃ p1 sys,
      (NewContextProcessor Aggregators.defaultConfig "You are helpful").Process sampleStdlib
          sampleContextLib (.system 2 "call_end" callMeta) 2 =
        some (p1, [sys, .system 2 "call_end" callMeta]) ∧
      sys.isSystem "base_prompt" = true ∧
      p1.injected (scopeKey callMeta) = some true ∧
      ∀ now2, p1.buildBasePrompt callMeta now2 = (p1, none) :=
  ⟨rfl, rfl, by decide, by decide,
    call_end_reinjects_base_prompt sampleStdlib sampleContextLib
      (NewContextProcessor Aggregators.defaultConfig "You are helpful") 2 2 callMeta rfl rfl
      (by decide) (by decide)⟩

end Sync

end Processors
namespace Processors

namespace Sync

open Frames

theorem flushHandler_blocks (p : ContextProcessor) (cp : ContextBuffer) (content : String)
    (now : Int) (hb : p.buffer = some cp) (hheld : cp.mu = true) (hp : p.mu = false)
    (hc : content ≠ "") : p.flushHandler content now = none := by
  unfold ContextProcessor.flushHandler
  simp only [Lock, hp, Bool.false_eq_true, if_false, hc, ne_eq, not_false_eq_true, if_true, hb,
    ContextBuffer.StreamID, hheld]

theorem flushLocked_blocks (p : ContextProcessor) (cp : ContextBuffer) (now : Int)
    (hb : p.buffer = some cp) (hheld : cp.mu = true) (hp : p.mu = false)
    (hc : cp.buffer ≠ "" ∨ cp.lastInterim ≠ "") : p.flushLocked now = none := by
  have hH : ∀ (cp1 : ContextBuffer) (content : String), cp1.mu = true → content ≠ "" →
      ContextProcessor.flushHandler { p with buffer := some cp1 } content now = none :=
    fun cp1 c h1 h2 => flushHandler_blocks _ cp1 c now rfl h1 hp h2
  unfold ContextProcessor.flushLocked
  simp only [hb]
  cases hu : (cp.buffer == "" && cp.lastInterim != "")
  · have h1 : cp.buffer ≠ "" := by
      intro h
      rcases hc with h2 | h2
      · exact h2 h
      · simp [h, h2] at hu
    have hz : ¬ cp.buffer.utf8ByteSize = 0 := fun h => h1 ((utf8ByteSize_eq_zero_iff _).1 h)
    simp only [Bool.false_eq_true, if_false, hz]
    rw [hH cp _ hheld h1]
  · have h2 : cp.lastInterim ≠ "" := by
      intro h
      simp [h] at hu
    have hz : ¬ cp.lastInterim.utf8ByteSize = 0 := fun h => h2 ((utf8ByteSize_eq_zero_iff _).1 h)
    simp only [if_true, hz, if_false]
    rw [hH { cp with lastInterim := "" } _ hheld h2]

/-- C30: the code departs from the claim.  For a processor whose buffer was installed by
`SetTurnManager`, with both mutexes free: when the buffer holds final text or an interim,
`Flush` never returns, and neither does `Process` on a Flush control frame; and a final
transcript that overflows the buffer makes `AddTranscript` never return.  The handler,
run under the buffer mutex, calls `StreamID`, which locks that mutex again. -/
theorem flush_never_returns (p : ContextProcessor) (cp : ContextBuffer) (now : Int)
    (hb : p.buffer = some cp) (hfree : cp.mu = false) (hp : p.mu = false)
    (hc : cp.buffer ≠ "" ∨ cp.lastInterim ≠ "") :
    p.Flush now = none ∧
    (∀ env lib pts fmeta, p.pendingFlush = [] →
      p.Process env lib (.control pts ControlFlush fmeta) now = none) ∧
    (∀ text, (cp.buffer ++ text ++ " ").utf8ByteSize > cp.maxBufferSize →
      p.AddTranscript text true now = none) := by
  have hFL : ∀ cp1 : ContextBuffer, cp1.mu = true → (cp1.buffer ≠ "" ∨ cp1.lastInterim ≠ "") →
      ContextProcessor.flushLocked { p with buffer := some cp1 } now = none :=
    fun cp1 h1 h2 => flushLocked_blocks _ cp1 now rfl h1 hp h2
  have hflush : p.Flush now = none := by
    unfold ContextProcessor.Flush
    simp only [hb, Lock, hfree, Bool.false_eq_true, if_false]
    rw [hFL { cp with mu := true } rfl hc]
  refine ⟨hflush, ?_, ?_⟩
  · intro env lib pts fmeta hpend
    have hpe : ({ p with buffer := some cp, mu := false, pendingFlush := [] } :
        ContextProcessor) = p := by
      cases p; simp only at hb hp hpend; subst hb hp hpend; rfl
    unfold ContextProcessor.Process
    have hcode : ¬ (ControlFlush = ControlDTMF ∧ GoMap.get fmeta MetaDTMFDigit ≠ "") := by
      intro h; exact absurd h.1 (by decide)
    simp only [Lock, hp, Bool.false_eq_true, if_false, hpend, ContextProcessor.processPending,
      hcode, if_true, hb]
    rw [hpe, hflush]
  · intro text hover
    unfold ContextProcessor.AddTranscript
    simp only [hb, Lock, hfree, Bool.false_eq_true, if_false, if_true, hover]
    have hne : cp.buffer ++ text ++ " " ≠ "" := by
      intro h
      have := congrArg String.utf8ByteSize h
      rw [utf8ByteSize_append] at this
      have hsp : " ".utf8ByteSize = 1 := rfl
      have he : "".utf8ByteSize = 0 := rfl
      omega
    rw [hFL ⟨cp.buffer ++ text ++ " ", "", true, cp.maxBufferSize, cp.streamID⟩ rfl (Or.inl hne)]

/-- Witness for `flush_never_returns`: the processor reached by `SetTurnManager` and one
final transcript `hello` holds `hello ` in its buffer. -/
theorem flush_never_returns_witness :
    afterFinalTranscript.isSome = true ∧
    ((afterFinalTranscript.getD (NewContextProcessor Aggregators.defaultConfig "")).Flush 2 =
        none ∧
      (∀ env lib pts fmeta,
        (afterFinalTranscript.getD (NewContextProcessor Aggregators.defaultConfig "")).pendingFlush
          = [] →
        (afterFinalTranscript.getD (NewContextProcessor Aggregators.defaultConfig "")).Process
          env lib (.control pts ControlFlush fmeta) 2 = none) ∧
      (∀ text, ("hello " ++ text ++ " ").utf8ByteSize > (10000 : Int) →
        (afterFinalTranscript.getD (NewContextProcessor Aggregators.defaultConfig "")).AddTranscript
          text true 2 = none)) :=
  ⟨by decide,
    flush_never_returns (afterFinalTranscript.getD (NewContextProcessor Aggregators.defaultConfig ""))
      ⟨"hello ", "", false, 10000, "s1"⟩ 2 (by decide) rfl (by decide) (Or.inl (by decide))⟩

end Sync

end Processors
namespace Processors

open Frames

/-! ## Response limiter -/

/-- Counterexample to C25 as written: with a source filter that lists only `llm`, a
four-sentence Text frame of source `system` is returned unchanged; and a one-sentence
frame that already carries `short_turn_enforced=true` comes back carrying it although
the text was not shortened. -/
theorem limiter_passes_unlisted_system_source :
    ((NewResponseLimiter (limiterConfig 0 0 (some (GoMap.ofList [("llm", true)])))).Process
        sampleStdlib (.text 7 "One. Two. Three. Four." (sourceMeta "system"))).map
      (fun o => (o.isSame, terminatorCount o.textBytes, o.Meta.get MetaShortTurnEnforced)) =
      [(true, 4, "")] ∧
    ((NewResponseLimiter (limiterConfig 0 0 none)).Process sampleStdlib
        (.text 7 "Hi." ((sourceMeta "llm").set MetaShortTurnEnforced "true"))).map
      (fun o => (o.isSame, o.textBytes == stringBytes "Hi.",
        o.Meta.get MetaShortTurnEnforced)) = [(true, true, "true")] := by
  constructor <;> decide

theorem charBytes_length (c : Char) : (charBytes c).length = Aggregators.runeLen c := by
  unfold charBytes Aggregators.runeLen
  split_ifs <;> rfl

theorem len_eq_bytes (s : String) : Aggregators.len s = (stringBytes s).length := by
  unfold Aggregators.len stringBytes
  induction s.data with
  | nil => rfl
  | cons c l ih => simp [charBytes_length, ih]

/-- The decoded slice holds exactly the first `n` bytes. -/
theorem sliceTo_bytes (l : List Char) :
    ∀ n, piecesBytes (sliceTo n l) = ((l.map charBytes).flatten).take n := by
  induction l with
  | nil => intro n; simp [sliceTo, piecesBytes]
  | cons c l ih =>
    intro n
    unfold sliceTo
    split_ifs with h
    · have h1 := ih (n - Aggregators.runeLen c)
      unfold piecesBytes at h1 ⊢
      simp only [List.map_cons, List.flatten_cons, Piece.bytes]
      rw [h1, List.take_append_eq_append_take, charBytes_length,
        List.take_of_length_le (le_of_eq_of_le (charBytes_length c) h)]
    · unfold piecesBytes
      simp only [List.map_cons, List.flatten_cons]
      rw [List.take_append_of_le_length (by rw [charBytes_length]; omega)]
      generalize (charBytes c).take n = bs
      induction bs with
      | nil => rfl
      | cons b bs ihb => simpa [Piece.bytes] using ihb

theorem char_eq_iff_toNat (c d : Char) : c = d ↔ c.toNat = d.toNat := by
  constructor
  · intro h; rw [h]
  · intro h
    apply Char.ext
    apply UInt32.ext
    exact h

theorem isTerminator_iff (c : Char) :
    isTerminator c = true ↔ c.toNat = 0x2E ∨ c.toNat = 0x21 ∨ c.toNat = 0x3F := by
  unfold isTerminator
  simp only [Bool.or_eq_true, beq_iff_eq, char_eq_iff_toNat]
  have h1 : ('.' : Char).toNat = 0x2E := rfl
  have h2 : ('!' : Char).toNat = 0x21 := rfl
  have h3 : ('?' : Char).toNat = 0x3F := rfl
  rw [h1, h2, h3]
  tauto

theorem countP_charBytes (c : Char) :
    (charBytes c).countP isTerminatorByte = if isTerminator c then 1 else 0 := by
  by_cases ht : isTerminator c = true
  · have h := (isTerminator_iff c).1 ht
    rw [if_pos ht]
    unfold charBytes
    rcases h with h | h | h <;> rw [h] <;> rfl
  · have h := (isTerminator_iff c).not.1 ht
    rw [if_neg ht]
    rw [List.countP_eq_zero]
    intro b hb
    unfold charBytes at hb
    unfold isTerminatorByte
    simp only [Bool.or_eq_true, beq_iff_eq]
    split_ifs at hb <;>
      simp only [List.mem_cons, List.mem_singleton, List.not_mem_nil, or_false] at hb <;>
      omega


/-- Trailing elements that satisfy `p` removed. -/
theorem trimRight_initial {α : Type} (p : α → Bool) (l : List α) :
    (l.reverse.dropWhile p).reverse <+: l := by
  have h := List.dropWhile_suffix p (l := l.reverse)
  have h2 := List.reverse_prefix.mpr h
  simpa using h2

theorem dropWhile_clean {α : Type} (p : α → Bool) (l : List α)
    (h : ∀ c rest, l = c :: rest → p c = false) : l.dropWhile p = l := by
  cases l with
  | nil => rfl
  | cons c rest => simp [List.dropWhile, h c rest rfl]

theorem prefix_clean {α : Type} (p : α → Bool) {l1 l2 : List α} (hp : l1 <+: l2)
    (h : ∀ c rest, l2 = c :: rest → p c = false) :
    ∀ c rest, l1 = c :: rest → p c = false := by
  intro c rest e
  obtain ⟨r, hr⟩ := hp
  subst e
  exact h c (rest ++ r) (by simpa using hr.symm)

theorem trim_clean (x : List Char) :
    ∀ c rest, ((x.dropWhile isSpace).reverse.dropWhile isSpace).reverse = c :: rest →
      isSpace c = false := by
  apply prefix_clean isSpace (trimRight_initial isSpace _)
  intro c rest e
  have h := List.head_dropWhile_not isSpace x (by simp [e])
  simpa [e] using h

theorem trimRight_ne_nil (c : Char) (rest : List Char) (hc : isSpace c = false) :
    ((c :: rest).reverse.dropWhile isSpace).reverse ≠ [] := by
  intro h
  have h1 : (c :: rest).reverse.dropWhile isSpace = [] := by simpa using h
  rw [List.dropWhile_eq_nil_iff] at h1
  have := h1 c (by simp)
  simp [hc] at this

theorem truncateLoop_initial (m : Int) (l : List Char) :
    ∀ count, truncateLoop m count l <+: l := by
  induction l with
  | nil => intro count; simp [truncateLoop]
  | cons a l ih =>
    intro count
    unfold truncateLoop
    split_ifs
    · simp [List.prefix_cons_inj]
    · exact (List.prefix_cons_inj a).mpr (ih _)
    · exact (List.prefix_cons_inj a).mpr (ih _)

theorem truncateLoop_cons (m count : Int) (a : Char) (l : List Char) :
    ∃ rest, truncateLoop m count (a :: l) = a :: rest := by
  unfold truncateLoop
  split_ifs
  · exact ⟨_, rfl⟩
  · exact ⟨_, rfl⟩
  · exact ⟨_, rfl⟩

theorem truncateLoop_count (m : Int) (l : List Char) :
    ∀ count, count < m → ((truncateLoop m count l).countP isTerminator : Int) + count ≤ m := by
  induction l with
  | nil => intro count h; simp [truncateLoop]; omega
  | cons a l ih =>
    intro count h
    unfold truncateLoop
    split_ifs with h1 h2
    · simp [h1]; omega
    · have := ih (count + 1) (by omega)
      simp [h1]; omega
    · have := ih count h
      simp [h1]; omega

theorem countP_prefix_le {α : Type} (p : α → Bool) {l1 l2 : List α} (hp : l1 <+: l2) :
    l1.countP p ≤ l2.countP p := by
  obtain ⟨r, rfl⟩ := hp
  simp [List.countP_append]

theorem stringBytes_countP (l : List Char) :
    ((l.map charBytes).flatten).countP isTerminatorByte = l.countP isTerminator := by
  induction l with
  | nil => rfl
  | cons c l ih =>
    simp only [List.map_cons, List.flatten_cons, List.countP_append, countP_charBytes, ih,
      List.countP_cons]
    omega

theorem flatten_map_initial {α β : Type} (f : α → List β) {l1 l2 : List α} (hp : l1 <+: l2) :
    (l1.map f).flatten <+: (l2.map f).flatten := by
  obtain ⟨r, rfl⟩ := hp
  simp

theorem sliceTo_clean (l : List Char) (n : Nat)
    (h : ∀ c rest, l = c :: rest → isSpace c = false) :
    ∀ x xs, sliceTo n l = x :: xs → Piece.isSpace x = false := by
  intro x xs e
  cases l with
  | nil => simp [sliceTo] at e
  | cons c rest =>
    unfold sliceTo at e
    split_ifs at e
    · simp only [List.cons.injEq] at e
      rw [← e.1]
      exact h c rest rfl
    · cases hb : (charBytes c).take n with
      | nil => simp [hb] at e
      | cons b bs =>
        simp only [hb, List.map_cons, List.cons.injEq] at e
        rw [← e.1]
        rfl

/-- The trimmed slice is an initial part of the bytes of the string. -/
theorem trimmed_slice_initial (l : List Char) (n : Nat)
    (h : ∀ c rest, l = c :: rest → isSpace c = false) :
    piecesBytes (trimSpacePieces (sliceTo n l)) <+: ((l.map charBytes).flatten).take n := by
  rw [← sliceTo_bytes]
  unfold trimSpacePieces piecesBytes
  rw [dropWhile_clean Piece.isSpace _ (sliceTo_clean l n h)]
  exact flatten_map_initial Piece.bytes (trimRight_initial Piece.isSpace _)

theorem NewResponseLimiter_pos (cfg : ResponseLimiterConfig) :
    0 < (NewResponseLimiter cfg).cfg.MaxChars ∧ 0 < (NewResponseLimiter cfg).cfg.MaxSentences := by
  obtain ⟨mc, ms, sf⟩ := cfg
  by_cases h1 : mc ≤ 0 <;> by_cases h2 : ms ≤ 0 <;> cases sf <;>
    simp [NewResponseLimiter, h1, h2] <;> omega

/-- The limited text of an admitted Text frame: a bounded initial part of the bytes of
the trimmed text. -/
theorem limiter_text_bounds (env : Stdlib) (henv : env.TrimSpace = sampleStdlib.TrimSpace)
    (cfg : ResponseLimiterConfig) (pts : Int) (ftext : String) (fmeta : MetaMap)
    (hsrc : sourceAllowed (NewResponseLimiter cfg).cfg.SourceFilters
      (GoMap.get fmeta MetaSource) = true)
    (ht : env.TrimSpace ftext ≠ "") :
    ∃ u : List Nat,
      u <+: stringBytes (env.TrimSpace ftext) ∧
      (terminatorCount u : Int) ≤ (NewResponseLimiter cfg).cfg.MaxSentences ∧
      (u.length : Int) ≤ (NewResponseLimiter cfg).cfg.MaxChars ∧
      (NewResponseLimiter cfg).Process env (.text pts ftext fmeta) =
        if u = stringBytes (env.TrimSpace ftext) then [.same (.text pts ftext fmeta)]
        else [.shortened pts u
          (mergeMeta (GoMap.get fmeta MetaStreamID) (fmeta.set MetaShortTurnEnforced "true"))] := by
  obtain ⟨hmc, hms⟩ := NewResponseLimiter_pos cfg
  generalize NewResponseLimiter cfg = r at *
  have htrim : ∀ s : String, (env.TrimSpace s).data =
      ((s.data.dropWhile isSpace).reverse.dropWhile isSpace).reverse := by
    intro s; rw [henv]; rfl
  set t := env.TrimSpace ftext with htdef
  have htclean : ∀ c rest, t.data = c :: rest → isSpace c = false := by
    rw [htdef, htrim]; exact trim_clean _
  have htne : t.data ≠ [] := by
    intro h; apply ht; exact String.ext h
  obtain ⟨c, rest, hcr⟩ := List.exists_cons_of_ne_nil htne
  have hc : isSpace c = false := htclean c rest hcr
  -- the sentence cut
  obtain ⟨lrest, hloop⟩ := truncateLoop_cons r.cfg.MaxSentences 0 c rest
  have hloopp : truncateLoop r.cfg.MaxSentences 0 t.data <+: t.data := truncateLoop_initial _ _ _
  have hloopc := truncateLoop_count r.cfg.MaxSentences t.data 0 hms
  have hres : (env.TrimSpace (String.mk (truncateLoop r.cfg.MaxSentences 0 t.data))).data =
      ((truncateLoop r.cfg.MaxSentences 0 t.data).reverse.dropWhile isSpace).reverse := by
    rw [htrim]
    show ((List.dropWhile isSpace (truncateLoop r.cfg.MaxSentences 0 t.data)).reverse.dropWhile
      isSpace).reverse = _
    rw [dropWhile_clean isSpace _ (prefix_clean isSpace hloopp htclean)]
  have hresne : env.TrimSpace (String.mk (truncateLoop r.cfg.MaxSentences 0 t.data)) ≠ "" := by
    intro h
    have h2 := congrArg String.data h
    rw [hres, hcr, hloop] at h2
    exact trimRight_ne_nil c lrest hc h2
  have hts : truncateSentences env t r.cfg.MaxSentences =
      env.TrimSpace (String.mk (truncateLoop r.cfg.MaxSentences 0 t.data)) := by
    unfold truncateSentences
    rw [if_neg (by omega)]
    simp only [hresne, if_false]
  have htsp : (truncateSentences env t r.cfg.MaxSentences).data <+:
      truncateLoop r.cfg.MaxSentences 0 t.data := by
    rw [hts, hres]; exact trimRight_initial isSpace _
  have htsc : ((truncateSentences env t r.cfg.MaxSentences).data.countP isTerminator : Int) ≤
      r.cfg.MaxSentences := by
    have := countP_prefix_le isTerminator htsp
    omega
  have htsclean := prefix_clean isSpace (htsp.trans hloopp) htclean
  have htsb : stringBytes (truncateSentences env t r.cfg.MaxSentences) <+: stringBytes t :=
    flatten_map_initial charBytes (htsp.trans hloopp)
  have htsbc : ((stringBytes (truncateSentences env t r.cfg.MaxSentences)).countP
      isTerminatorByte : Int) ≤ r.cfg.MaxSentences := by
    unfold stringBytes
    rw [stringBytes_countP]
    exact htsc
  -- the byte cut
  have hsl := trimmed_slice_initial (truncateSentences env t r.cfg.MaxSentences).data
    r.cfg.MaxChars.toNat htsclean
  have hsl2 : piecesBytes (trimSpacePieces (sliceTo r.cfg.MaxChars.toNat
      (truncateSentences env t r.cfg.MaxSentences).data)) <+:
      stringBytes (truncateSentences env t r.cfg.MaxSentences) :=
    hsl.trans (List.take_prefix _ _)
  have hproc : r.Process env (.text pts ftext fmeta) =
      if (if (Aggregators.len (truncateSentences env t r.cfg.MaxSentences) : Int) > r.cfg.MaxChars
          then piecesBytes (trimSpacePieces (sliceTo r.cfg.MaxChars.toNat
            (truncateSentences env t r.cfg.MaxSentences).data))
          else stringBytes (truncateSentences env t r.cfg.MaxSentences)) = stringBytes t
      then [.same (.text pts ftext fmeta)]
      else [.shortened pts
        (if (Aggregators.len (truncateSentences env t r.cfg.MaxSentences) : Int) > r.cfg.MaxChars
          then piecesBytes (trimSpacePieces (sliceTo r.cfg.MaxChars.toNat
            (truncateSentences env t r.cfg.MaxSentences).data))
          else stringBytes (truncateSentences env t r.cfg.MaxSentences))
        (mergeMeta (GoMap.get fmeta MetaStreamID) (fmeta.set MetaShortTurnEnforced "true"))] := by
    unfold ResponseLimiter.Process
    simp only [hsrc, Bool.not_true, Bool.false_eq_true, if_false, ← htdef, ht, ne_eq, ite_not]
  refine ⟨_, ?_, ?_, ?_, hproc⟩
  · split_ifs
    · exact hsl2.trans htsb
    · exact htsb
  · unfold terminatorCount
    split_ifs
    · have := countP_prefix_le isTerminatorByte hsl2
      omega
    · exact htsbc
  · split_ifs with h
    · have h1 := hsl.length_le
      rw [List.length_take] at h1
      omega
    · rw [len_eq_bytes] at h
      omega

/-- C25 (amended): for a limiter built by `NewResponseLimiter`.  For a Text frame whose
source is enabled in the source filter and whose trimmed text `t` is not empty, there is
a text `u`, given by its bytes, that is a prefix of `t`, holds at most `MaxSentences` of
the characters `.`, `!`, `?` and at most `MaxChars` bytes, such that the input frame is
returned unchanged when `u = t`, and otherwise one new Text frame with text `u`, the PTS
of the input and `short_turn_enforced=true` is returned.  Frames of other kinds, and
Text frames whose source is not enabled in the filter, are returned unchanged. -/
theorem limiter_output_bounds (env : Stdlib) (henv : env.TrimSpace = sampleStdlib.TrimSpace)
    (cfg : ResponseLimiterConfig) :
    (∀ (pts : Int) (ftext : String) (fmeta : MetaMap),
      sourceAllowed (NewResponseLimiter cfg).cfg.SourceFilters (GoMap.get fmeta MetaSource) = true →
      env.TrimSpace ftext ≠ "" →
      ∃ u : List Nat,
        u <+: stringBytes (env.TrimSpace ftext) ∧
        (terminatorCount u : Int) ≤ (NewResponseLimiter cfg).cfg.MaxSentences ∧
        (u.length : Int) ≤ (NewResponseLimiter cfg).cfg.MaxChars ∧
        (mergeMeta (GoMap.get fmeta MetaStreamID)
          (fmeta.set MetaShortTurnEnforced "true")).get MetaShortTurnEnforced = "true" ∧
        (NewResponseLimiter cfg).Process env (.text pts ftext fmeta) =
          if u = stringBytes (env.TrimSpace ftext) then [.same (.text pts ftext fmeta)]
          else [.shortened pts u (mergeMeta (GoMap.get fmeta MetaStreamID)
            (fmeta.set MetaShortTurnEnforced "true"))]) ∧
    (∀ f : Frame, f.Kind ≠ Kind.text → (NewResponseLimiter cfg).Process env f = [.same f]) ∧
    (∀ (pts : Int) (ftext : String) (fmeta : MetaMap),
      sourceAllowed (NewResponseLimiter cfg).cfg.SourceFilters (GoMap.get fmeta MetaSource) = false →
      (NewResponseLimiter cfg).Process env (.text pts ftext fmeta) =
        [.same (.text pts ftext fmeta)]) := by
  refine ⟨?_, ?_, ?_⟩
  · intro pts ftext fmeta hsrc ht
    obtain ⟨u, h1, h2, h3, h4⟩ := limiter_text_bounds env henv cfg pts ftext fmeta hsrc ht
    refine ⟨u, h1, h2, h3, ?_, h4⟩
    simp [mergeMeta, GoMap.get, GoMap.set]
  · intro f hk
    cases f <;> first | rfl | exact absurd rfl hk
  · intro pts ftext fmeta hsrc
    unfold ResponseLimiter.Process
    simp only [hsrc, Bool.not_false, if_true]

/-- Witness for `limiter_output_bounds`: the default limiter shortens a four-sentence
reply of source `llm` to three sentences; and with `MaxChars = 3` the text `ééé` (six
bytes) is cut to the bytes `C3 A9 C3`, the first character and the first byte of the
second. -/
theorem limiter_output_bounds_witness :
    sampleStdlib.TrimSpace = sampleStdlib.TrimSpace ∧
    sourceAllowed (NewResponseLimiter (limiterConfig 0 0 none)).cfg.SourceFilters
      (GoMap.get (sourceMeta "llm") MetaSource) = true ∧
    sampleStdlib.TrimSpace " One. Two. Three. Four. " ≠ "" ∧
    ((NewResponseLimiter (limiterConfig 0 0 none)).Process sampleStdlib
        (.text 7 " One. Two. Three. Four. " (sourceMeta "llm"))).map
      (fun o => (o.isSame, o.textBytes == stringBytes "One. Two. Three.",
        o.Meta.get MetaShortTurnEnforced)) = [(false, true, "true")] ∧
    ((NewResponseLimiter (limiterConfig 3 0 none)).Process sampleStdlib
        (.text 7 "ééé" (sourceMeta "llm"))).map
      (fun o => (o.isSame, o.textBytes, o.Meta.get MetaShortTurnEnforced)) =
      [(false, [0xC3, 0xA9, 0xC3], "true")] ∧
    ∃ u : List Nat,
      u <+: stringBytes (sampleStdlib.TrimSpace " One. Two. Three. Four. ") ∧
      (terminatorCount u : Int) ≤ (NewResponseLimiter (limiterConfig 0 0 none)).cfg.MaxSentences ∧
      (u.length : Int) ≤ (NewResponseLimiter (limiterConfig 0 0 none)).cfg.MaxChars ∧
      (mergeMeta (GoMap.get (sourceMeta "llm") MetaStreamID)
        ((sourceMeta "llm").set MetaShortTurnEnforced "true")).get MetaShortTurnEnforced
          = "true" ∧
      (NewResponseLimiter (limiterConfig 0 0 none)).Process sampleStdlib
          (.text 7 " One. Two. Three. Four. " (sourceMeta "llm")) =
        if u = stringBytes (sampleStdlib.TrimSpace " One. Two. Three. Four. ") then
          [.same (.text 7 " One. Two. Three. Four. " (sourceMeta "llm"))]
        else [.shortened 7 u (mergeMeta (GoMap.get (sourceMeta "llm") MetaStreamID)
          ((sourceMeta "llm").set MetaShortTurnEnforced "true"))] :=
  ⟨rfl, by decide, by decide, by decide, by decide,
    (limiter_output_bounds sampleStdlib rfl (limiterConfig 0 0 none)).1 7
      " One. Two. Three. Four. " (sourceMeta "llm") (by decide) (by decide)⟩

end Processors
end Ranya
